import Mathlib

/-!
# nchan: message identifiers, channel IDs, dispatch and publishing

A shallow embedding of functions of `src/nchan_module.c` and the properties
proved about them:

* message IDs: `verify_msg_id`, `nchan_copy_msg_id`, `nchan_update_multi_msgid`,
  `update_subscriber_last_msg_id`, `nchan_expand_msg_id_multi_tag`,
  `nchan_parse_msg_tag`, `nchan_parse_compound_msgid`,
  `nchan_subscriber_get_msg_id`;
* channel IDs: `validate_id`, `nchan_strsplit`, `nchan_process_multi_channel_id`,
  `nchan_process_legacy_channel_id`, `nchan_get_channel_id`;
* channel information: the content negotiation of `nchan_channel_info_buf` and
  `nchan_match_channel_info_subtype`;
* request handling: `nchan_pubsub_handler`, `nchan_request_body_to_single_buffer`,
  `nchan_publisher_body_handler_continued`,
  `nchan_publisher_body_authorize_handler`, `publish_callback`,
  `nchan_response_channel_ptr_info`, `nchan_maybe_send_channel_event_message`.

Conventions of the embedding

* A C function that can stop in `assert` or touch memory outside an object
  returns `Except nchan_abort _`; `.ok` is a normal return.
* `int16_t` tags are `Int`; where the C code does arithmetic in `int16_t`
  the result is reduced with `wrap16`.
* Every `ngx_alloc` call made by a function is an explicit argument of the
  embedded function: `none` is a NULL result, `some w` a fresh block.
* A byte string (a string argument, or the bytes from `first` to `last`) is a
  `List Char`, one character per byte; a string a function allocates and
  returns is an `ngx_str_t` with its size and the bytes written.
* `ERR(...)` lines of `verify_msg_id` write to the error log only and are not
  part of the state; the two advisory lines of
  `update_subscriber_last_msg_id` are returned as a `miss_log`.
* A loop whose number of iterations is not fixed by its bounds takes a `fuel`
  argument; the result `none` means that the loop has not ended within that
  many iterations.
* A static variable of a function is an argument and a result of the embedded
  function; the result of a call to a function that is not part of the
  sources (an allocation, a detection function, the clock) is an argument.
* What a handler does to the request (responses sent, calls handed to the
  storage engine or to a subscriber) is returned as a list of events.
-/

namespace Nchan

/-! ## Data model -/

/-- Modelled from the spec: `NCHAN_MULTITAG_MAX` is declared in a header that is not
part of the sources; the specification gives it as "an implementation constant
`MULTITAG_MAX`, typically 4". -/
def NCHAN_MULTITAG_MAX : Nat := 4

/-- The nginx return code `NGX_OK`. -/
def NGX_OK : Int := 0

/-- The nginx return code `NGX_ERROR`. -/
def NGX_ERROR : Int := -1

/-- The nginx return code `NGX_DECLINED`. -/
def NGX_DECLINED : Int := -5

/-- The union `tag` of `nchan_msg_id_t`: either the inline array
`int16_t fixed[NCHAN_MULTITAG_MAX]` or the pointer `int16_t *allocd`.
A pointer is modelled by the block it points to (`none`: NULL, freed or not a
pointer to a block). -/
inductive nchan_tag_t where
  | fixed (a : List Int)
  | allocd (p : Option (List Int))
deriving DecidableEq, Repr

/-- Modelled from the spec: the declaration of `nchan_msg_id_t` is in a header that
is not part of the sources. The fields are the ones the code uses; "a pair
`(time, tags)` where `tags` is an ordered vector of 16-bit signed integers of
length `tagcount` ∈ [1, 255] with a distinguished index `tagactive`". The two
counts are natural numbers: every value the code stores in them is in 0..255. -/
structure nchan_msg_id_t where
  time : Int
  tag : nchan_tag_t
  tagactive : Nat
  tagcount : Nat
deriving DecidableEq, Repr

/-- The ways a call can stop without returning. -/
inductive nchan_abort where
  /-- an `assert` whose condition is false -/
  | assertion
  /-- a read or write outside an array, or through a pointer that holds no block -/
  | fault
deriving DecidableEq, Repr

/-- The array that
`id->tagcount <= NCHAN_MULTITAG_MAX ? id->tag.fixed : id->tag.allocd`
designates; `none` when the union holds the other member or the pointer
holds no block. -/
def msgid_tags (id : nchan_msg_id_t) : Option (List Int) :=
  if id.tagcount ≤ NCHAN_MULTITAG_MAX then
    match id.tag with
    | .fixed a => some a
    | .allocd _ => none
  else
    match id.tag with
    | .fixed _ => none
    | .allocd p => p

/-- The C read `tags[i]`. -/
def tag_read (tags : Option (List Int)) (i : Int) : Except nchan_abort Int :=
  match tags with
  | none => .error .fault
  | some a =>
    if 0 ≤ i then
      match a[i.toNat]? with
      | some v => .ok v
      | none => .error .fault
    else .error .fault

/-- The C write `tags[i] = v`. -/
def tag_write (tags : Option (List Int)) (i : Nat) (v : Int) :
    Except nchan_abort (Option (List Int)) :=
  match tags with
  | none => .error .fault
  | some a => if i < a.length then .ok (some (a.set i v)) else .error .fault

/-- The tag union of `id` after the array designated by `msgid_tags` has been
written in place and now holds `a`. -/
def msgid_store_tags (id : nchan_msg_id_t) (a : Option (List Int)) : nchan_tag_t :=
  match a with
  | none => id.tag
  | some a => if id.tagcount ≤ NCHAN_MULTITAG_MAX then .fixed a else .allocd (some a)

/-- Representation invariant of a message ID: up to `NCHAN_MULTITAG_MAX` tags
live in the inline array of `NCHAN_MULTITAG_MAX` slots, more tags in a block of
at least `tagcount` slots. -/
def msgid_wf (id : nchan_msg_id_t) : Bool :=
  match id.tag with
  | .fixed a => decide (id.tagcount ≤ NCHAN_MULTITAG_MAX) && decide (a.length = NCHAN_MULTITAG_MAX)
  | .allocd (some b) => decide (NCHAN_MULTITAG_MAX < id.tagcount) && decide (id.tagcount ≤ b.length)
  | .allocd none => false

/-- Number of slots of the array designated by `msgid_tags`. -/
def msgid_slots (id : nchan_msg_id_t) : Nat :=
  match msgid_tags id with
  | some a => a.length
  | none => 0

/-- The tag at position `i` of `id`, when that slot exists. -/
def msgid_tag (id : nchan_msg_id_t) (i : Nat) : Option Int :=
  match msgid_tags id with
  | some a => a[i]?
  | none => none

/-! ## Miss detector: `verify_msg_id` -/

/-- The loop `for(j=0; j < max; j++)` of the differing-times branch of
`verify_msg_id`, started at `j` with `fuel = max - j` iterations left and the
index `i` found so far. `none`: the loop returned `NGX_ERROR` (a second tag
besides -1); `some i`: the loop ran to its end. -/
def verify_scan (tags2 : Option (List Int)) :
    (fuel : Nat) → (j : Nat) → (i : Int) → Except nchan_abort (Option Int)
  | 0, _, i => .ok (some i)
  | k + 1, j, i => do
    let t ← tag_read tags2 j
    if t ≠ -1 then
      if i ≠ -1 then .ok none
      else verify_scan tags2 k (j + 1) j
    else verify_scan tags2 k (j + 1) i

/-- The loop `for(i=0; i < max; i++)` of the equal-times multi-tag branch of
`verify_msg_id`, started at `i` with `fuel = max - i` iterations left. -/
def verify_match (tags1 tags2 : Option (List Int)) :
    (fuel : Nat) → (i : Nat) → Except nchan_abort Int
  | 0, _ => .ok NGX_OK
  | k + 1, i => do
    let t2 ← tag_read tags2 i
    if t2 ≠ -1 then
      let t1 ← tag_read tags1 i
      if t1 ≠ t2 then .ok NGX_ERROR
      else verify_match tags1 tags2 k (i + 1)
    else verify_match tags1 tags2 k (i + 1)

/-- `verify_msg_id(id1, id2, msgid)`: `id1` is the subscriber cursor, `id2` the
message's previous ID, `msgid` the message's own ID. Returns `NGX_OK`, or
`NGX_ERROR` for a missed message. -/
def verify_msg_id (id1 id2 msgid : nchan_msg_id_t) : Except nchan_abort Int :=
  let tags1 := msgid_tags id1
  let tags2 := msgid_tags id2
  if 0 < id1.time ∧ 0 < id2.time then
    if id1.time ≠ id2.time then
      if 1 < id2.tagcount then do
        let msgidtags := msgid_tags msgid
        match ← verify_scan tags2 id2.tagcount 0 (-1) with
        | none => .ok NGX_ERROR
        | some i =>
          let t ← tag_read msgidtags i
          if t ≠ 0 then .ok NGX_ERROR else .ok NGX_OK
      else .ok NGX_ERROR
    else if id1.tagcount = 1 then do
      let t1 ← tag_read tags1 0
      let t2 ← tag_read tags2 0
      if t1 ≠ t2 then .ok NGX_ERROR else .ok NGX_OK
    else verify_match tags1 tags2 id1.tagcount 0
  else .ok NGX_OK

/-! ## Cursor update: `nchan_copy_msg_id`, `nchan_update_multi_msgid` -/

/-- `nchan_copy_msg_id(dst, src, largetags)`. `alloc` is the result of the
`ngx_alloc` call the function makes when it needs a block and `largetags` is
NULL (`none`: NULL; `some w`: a fresh block, every slot of which is written by
the `ngx_memcpy` that follows before it is read). Returns the return code and
the new `*dst`. -/
def nchan_copy_msg_id (alloc : Option (List Int)) (dst src : nchan_msg_id_t)
    (largetags : Option (List Int)) : Except nchan_abort (Int × nchan_msg_id_t) := do
  let src_n := src.tagcount
  let dst := { dst with time := src.time }
  -- if(dst_n > NCHAN_MULTITAG_MAX && dst_n > src_n) { ngx_free(dst->tag.allocd); dst_n = MAX; }
  let (dst, dst_n) ←
    if NCHAN_MULTITAG_MAX < dst.tagcount ∧ src_n < dst.tagcount then
      match dst.tag with
      | .allocd _ => (.ok ({ dst with tag := .allocd none }, NCHAN_MULTITAG_MAX) :
          Except nchan_abort (nchan_msg_id_t × Nat))
      | .fixed _ => .error .fault
    else .ok (dst, dst.tagcount)
  let dst := { dst with tagcount := src.tagcount, tagactive := src.tagactive }
  if src_n ≤ NCHAN_MULTITAG_MAX then
    .ok (NGX_OK, { dst with tag := src.tag })
  else
    -- the block dst->tag.allocd points to when ngx_memcpy runs
    let target : Except Int (Option (List Int)) :=
      if dst_n < src_n then
        match largetags with
        | some blk => .ok (some blk)
        | none =>
          match alloc with
          | none => .error NGX_ERROR
          | some _ => .ok (some (List.replicate src_n 0))
      else
        match dst.tag with
        | .allocd p => .ok p
        | .fixed _ => .ok none
    match target with
    | .error rc => .ok (rc, dst)
    | .ok none => .error .fault
    | .ok (some db) =>
      match src.tag with
      | .allocd (some sb) =>
        if src_n ≤ sb.length ∧ src_n ≤ db.length then
          .ok (NGX_OK, { dst with tag := .allocd (some (sb.take src_n ++ db.drop src_n)) })
        else .error .fault
      | _ => .error .fault

/-- The loop `for(i=0; i < newid->tagcount; i++)` that fills the grown block of
`nchan_update_multi_msgid`: slot `i` receives `oldtags[i]` (read by `rd`) when
`i < old_n` and -1 otherwise. Started at `i` with `fuel` iterations left;
returns the slots written. -/
def grow_fill (rd : Nat → Except nchan_abort Int) (old_n : Nat) :
    (fuel : Nat) → (i : Nat) → Except nchan_abort (List Int)
  | 0, _ => .ok []
  | k + 1, i => do
    let v ← if i < old_n then rd i else .ok (-1)
    let rest ← grow_fill rd old_n k (i + 1)
    .ok (v :: rest)

/-- The loop `for(i=0; i< max; i++)` of the equal-times branch of
`nchan_update_multi_msgid`, started at `i` with `fuel = max - i` iterations
left; `oldtags` is the cursor's array as written so far. The debug check
`assert(newtags[i] > oldtags[i])` stops the call when it fails. -/
def update_merge (tagactive : Nat) (newtags : Option (List Int)) :
    (fuel : Nat) → (i : Nat) → (oldtags : Option (List Int)) →
      Except nchan_abort (Option (List Int))
  | 0, _, oldtags => .ok oldtags
  | k + 1, i, oldtags => do
    -- if(newid->tagactive == i && newtags[i] != -1 && oldtags[i] != -1) assert(newtags[i] > oldtags[i]);
    if tagactive = i then
      let n ← tag_read newtags i
      if n ≠ -1 then
        let o ← tag_read oldtags i
        if o ≠ -1 then
          if ¬ (o < n) then throw nchan_abort.assertion
    -- if (newtags[i] != -1) oldtags[i] = newtags[i];
    let n ← tag_read newtags i
    let oldtags ← if n ≠ -1 then tag_write oldtags i n else .ok oldtags
    update_merge tagactive newtags k (i + 1) oldtags

/-- The growth step of `nchan_update_multi_msgid`, the block guarded by
`newid->tagcount > NCHAN_MULTITAG_MAX && oldid->tagcount < newid->tagcount`;
returns the new `*oldid` (its `tagcount` is not changed by the step).
`alloc_grow` is the result of its `ngx_alloc` call; in `some w`, `w` are the
`int16_t` words of the returned address: when the cursor's tags were inline,
the step stores the address into the union and then reads
`oldtags = oldid->tag.fixed`, which are those words. -/
def update_grow (alloc_grow : Option (List Int)) (oldid newid : nchan_msg_id_t) :
    Except nchan_abort nchan_msg_id_t :=
  if NCHAN_MULTITAG_MAX < newid.tagcount ∧ oldid.tagcount < newid.tagcount then
    match alloc_grow with
    | none => .error .fault
    | some w => do
      let rd : Nat → Except nchan_abort Int :=
        if NCHAN_MULTITAG_MAX < oldid.tagcount then
          match oldid.tag with
          | .allocd p => fun i => tag_read p i
          | .fixed _ => fun _ => .error .fault
        else fun i => .ok (w.getD i 0)
      let blk ← grow_fill rd oldid.tagcount newid.tagcount 0
      .ok { oldid with tag := .allocd (some blk) }
  else .ok oldid

/-- `nchan_update_multi_msgid(oldid, newid)`; returns the new `*oldid`.
`alloc_grow` is the result of the `ngx_alloc` call of the growth step,
`alloc_copy` the one of the call inside `nchan_copy_msg_id`. -/
def nchan_update_multi_msgid (alloc_grow alloc_copy : Option (List Int))
    (oldid newid : nchan_msg_id_t) : Except nchan_abort nchan_msg_id_t :=
  if newid.tagcount = 1 then
    .ok newid
  else do
    let oldid ← update_grow alloc_grow oldid newid
    if oldid.time ≠ newid.time then do
      let r ← nchan_copy_msg_id alloc_copy oldid newid none
      .ok r.2
    else
      let max := newid.tagcount
      let oldtags := msgid_tags oldid
      let newtags := msgid_tags newid
      if max ≠ oldid.tagcount then .error .assertion
      else do
        let written ← update_merge newid.tagactive newtags max 0 oldtags
        .ok { oldid with tag := msgid_store_tags oldid written, tagactive := newid.tagactive }

/-! ## `update_subscriber_last_msg_id` -/

/-- Modelled from the spec: `nchan_msg_t` is declared in a header that is not part
of the sources; these are the fields the miss detector uses: "own ID, prior ID
(the ID of the immediately previous message on the same channel), expiration
timestamp". -/
structure nchan_msg_t where
  id : nchan_msg_id_t
  prev_id : nchan_msg_id_t
  expires : Int
deriving DecidableEq, Repr

/-- Modelled from the spec: `subscriber_t` is declared in a header that is not part
of the sources; the only field the cursor update uses is "a `last_msgid` (the
ID of the last message delivered or the resume point from the request)". -/
structure subscriber_t where
  last_msgid : nchan_msg_id_t
deriving DecidableEq, Repr

/-- The advisory line `update_subscriber_last_msg_id` logs for a missed message. -/
inductive miss_log where
  /-- "missed a message because it probably expired" -/
  | probably_expired
  /-- "missed a message for an unknown reason. ..." -/
  | unknown_reason
deriving DecidableEq, Repr

/-- Conversion of a difference of `time_t` to `int` (32 bits, two's complement). -/
def wrap32 (x : Int) : Int := (x + 2147483648) % 4294967296 - 2147483648

/-- `update_subscriber_last_msg_id(sub, msg)`; `now` is the second
`ngx_gettimeofday` reports, `msg = none` a NULL message. Returns the return
code, the subscriber, and the advisory line logged, if any. -/
def update_subscriber_last_msg_id (alloc_grow alloc_copy : Option (List Int)) (now : Int)
    (sub : subscriber_t) (msg : Option nchan_msg_t) :
    Except nchan_abort (Int × subscriber_t × Option miss_log) :=
  match msg with
  | none => .ok (NGX_OK, sub, none)
  | some msg => do
    let rc ← verify_msg_id sub.last_msgid msg.prev_id msg.id
    let log : Option miss_log :=
      if rc = NGX_ERROR then
        let ttl := wrap32 (msg.expires - msg.id.time)
        if sub.last_msgid.time + ttl ≤ now then some .probably_expired
        else some .unknown_reason
      else none
    let cursor ← nchan_update_multi_msgid alloc_grow alloc_copy sub.last_msgid msg.id
    .ok (NGX_OK, { sub with last_msgid := cursor }, log)

/-! ## Parsing: `nchan_parse_msg_tag`, `nchan_parse_compound_msgid` -/

/-- Conversion of an `int` to `int16_t` (two's complement). -/
def wrap16 (x : Int) : Int := (x + 32768) % 65536 - 32768

/-- The local variables of `nchan_parse_msg_tag` together with the static array
`tags` and the field `mid->tagactive`, which the loop writes. -/
structure parse_tag_state where
  i : Nat
  sign : Int
  val : Int
  tags : List Int
  tagactive : Nat
deriving DecidableEq, Repr

/-- The assignment `tags[i]=(val == 0 && sign == -1) ? -1 : val * sign;`. -/
def parse_tag_store (st : parse_tag_state) : List Int :=
  st.tags.set st.i (if st.val = 0 ∧ st.sign = -1 then -1 else wrap16 (st.val * st.sign))

/-- The body of the loop of `nchan_parse_msg_tag` for the byte `c = *cur`. -/
def parse_tag_step (c : Char) (st : parse_tag_state) : parse_tag_state :=
  if c = '-' then { st with sign := -1 }
  else if '0'.toNat ≤ c.toNat ∧ c.toNat ≤ '9'.toNat then
    { st with val := wrap16 (10 * st.val + ((c.toNat : Int) - ('0'.toNat : Int))) }
  else if c = '[' then { st with tagactive := st.i }
  else if c = ',' then
    { st with tags := parse_tag_store st, sign := 1, val := 0, i := st.i + 1 }
  else st

/-- The loop `while(cur <= last && i < 255)` of `nchan_parse_msg_tag` on the bytes
from `cur` to `last`. -/
def parse_tag_loop : List Char → parse_tag_state → parse_tag_state
  | [], st =>
    if st.i < 255 then { st with tags := parse_tag_store st, i := st.i + 1 } else st
  | c :: rest, st =>
    if st.i < 255 then parse_tag_loop rest (parse_tag_step c st) else st

/-- `nchan_parse_msg_tag(first, last, mid)` on the bytes `s` from `first` to `last`.
`tags` is the content of the function's static array `tags[255]` (255 slots) before
the call; the result is its content after the call and the new `*mid`. When more than
`NCHAN_MULTITAG_MAX` tags are parsed, `mid->tag.allocd` points to the static
array; the block of the result is the array's content on return. -/
def nchan_parse_msg_tag (tags : List Int) (s : List Char) (mid : nchan_msg_id_t) :
    List Int × nchan_msg_id_t :=
  let st := parse_tag_loop s ⟨0, 1, 0, tags, mid.tagactive⟩
  (st.tags,
    { mid with
      tagactive := st.tagactive
      tagcount := st.i
      tag := if st.i ≤ NCHAN_MULTITAG_MAX then .fixed (st.tags.take NCHAN_MULTITAG_MAX)
             else .allocd (some st.tags) })

/-- The largest `ngx_int_t` of the nginx core on a 64-bit platform. -/
def NGX_MAX_INT_T_VALUE : Int := 9223372036854775807

/-- The loop of `ngx_atoi` of the nginx core (`src/core/ngx_string.c`, not part of
the sources) on the remaining bytes, with the value read so far. -/
def ngx_atoi_loop : List Char → Int → Int
  | [], value => value
  | c :: rest, value =>
    if c.toNat < '0'.toNat ∨ c.toNat > '9'.toNat then NGX_ERROR
    else if value ≥ NGX_MAX_INT_T_VALUE / 10 ∧
        (value > NGX_MAX_INT_T_VALUE / 10 ∨
          (c.toNat : Int) - ('0'.toNat : Int) > NGX_MAX_INT_T_VALUE % 10) then NGX_ERROR
    else ngx_atoi_loop rest (value * 10 + ((c.toNat : Int) - ('0'.toNat : Int)))

/-- `ngx_atoi(line, n)` of the nginx core: the value of a non-empty run of decimal
digits that does not exceed `NGX_MAX_INT_T_VALUE`, and `NGX_ERROR` otherwise. -/
def ngx_atoi (line : List Char) : Int :=
  if line.length = 0 then NGX_ERROR else ngx_atoi_loop line 0

/-- `ngx_strlchr(p, last, c)` of the nginx core: the offset of the first byte `c`,
`none` for NULL. -/
def ngx_strlchr : List Char → Char → Option Nat
  | [], _ => none
  | x :: rest, c => if x = c then some 0 else (ngx_strlchr rest c).map (· + 1)

/-- `nchan_parse_compound_msgid(id, str)`. `tags` is the content of the static array
of `nchan_parse_msg_tag` before the call; the result is the return code, the
array's content after the call and the new `*id`. -/
def nchan_parse_compound_msgid (tags : List Int) (id : nchan_msg_id_t) (str : List Char) :
    Int × List Int × nchan_msg_id_t :=
  match ngx_strlchr str ':' with
  | some split =>
    let time := ngx_atoi (str.take split)
    if time ≠ NGX_ERROR then
      let r := nchan_parse_msg_tag tags (str.drop (split + 1)) { id with time := time }
      (NGX_OK, r.1, r.2)
    else (NGX_ERROR, tags, id)
  | none => (NGX_DECLINED, tags, id)

/-! ## Values used in the statements -/

/-- The value of a run of decimal digits, most significant digit first, continuing
from `v`. -/
def decimal_from (v : Int) (p : List Char) : Int :=
  p.foldl (fun acc c => acc * 10 + ((c.toNat : Int) - 48)) v

/-- The decimal value of a text. -/
def decimal_value (p : List Char) : Int := decimal_from 0 p

/-- A non-empty run of decimal digits whose value is in the range of `ngx_int_t`. -/
def decimal_in_range (p : List Char) : Prop :=
  p ≠ [] ∧ (∀ c ∈ p, 48 ≤ c.toNat ∧ c.toNat ≤ 57) ∧ decimal_value p ≤ NGX_MAX_INT_T_VALUE

instance decimal_in_range_decidable (p : List Char) : Decidable (decimal_in_range p) := by
  unfold decimal_in_range
  infer_instance

/-- A two-tag cursor at second 1 with tags `[5, 0]`. -/
def sample_cursor : nchan_msg_id_t := ⟨1, .fixed [5, 0, 0, 0], 0, 2⟩

/-- A message ID of second 1 that advances sub-channel 0 to tag 6. -/
def sample_advance : nchan_msg_id_t := ⟨1, .fixed [6, -1, 0, 0], 0, 2⟩

/-- The ID before `sample_advance` on sub-channel 0: second 1, tag 5. -/
def sample_prev : nchan_msg_id_t := ⟨1, .fixed [5, -1, 0, 0], 0, 2⟩

/-- The first message ID of sub-channel 0 in second 2. -/
def sample_next_second : nchan_msg_id_t := ⟨2, .fixed [0, -1, 0, 0], 0, 2⟩

/-- A five-tag message ID of second 2, its tags in an allocated block. -/
def sample_large : nchan_msg_id_t := ⟨2, .allocd (some [0, -1, 0, 0, 7]), 4, 5⟩

/-- A single-tag cursor at second 1 with tag 5. -/
def sample_single : nchan_msg_id_t := ⟨1, .fixed [5, 0, 0, 0], 0, 1⟩

/-- A single-tag ID of second 1 with tag 6. -/
def sample_single_prev : nchan_msg_id_t := ⟨1, .fixed [6, 0, 0, 0], 0, 1⟩

/-- A single-tag ID of second 1 with tag 7. -/
def sample_single_next : nchan_msg_id_t := ⟨1, .fixed [7, 0, 0, 0], 0, 1⟩

/-- A subscriber whose cursor is `sample_cursor`. -/
def sample_sub : subscriber_t := ⟨sample_cursor⟩

/-- The message `sample_next_second`, preceded by `sample_prev`. -/
def sample_msg : nchan_msg_t := ⟨sample_next_second, sample_prev, 10⟩

/-- A subscriber whose cursor is `sample_single`. -/
def sample_single_sub : subscriber_t := ⟨sample_single⟩

/-- The message `sample_single_next`, preceded by `sample_single_prev`. -/
def sample_single_msg : nchan_msg_t := ⟨sample_single_next, sample_single_prev, 10⟩

/-! ## `nchan_expand_msg_id_multi_tag` -/

/-- The loop `for(i=0; i < n; i++) tags[i] = (i == out_n) ? v : fill;` of
`nchan_expand_msg_id_multi_tag`, started at `i`. The counter `i` is a `uint8_t`:
`i++` wraps from 255 to 0. `fuel` bounds the number of iterations the model runs;
`none` means the loop has not ended within them. -/
def expand_loop (n out_n : Nat) (v fill : Int) :
    (fuel : Nat) → (i : Nat) → Option (List Int) →
      Option (Except nchan_abort (Option (List Int)))
  | 0, _, _ => none
  | k + 1, i, tags =>
    if i < n then
      match tag_write tags i (if i = out_n then v else fill) with
      | .error e => some (.error e)
      | .ok tags => expand_loop n out_n v fill k ((i + 1) % 256) tags
    else some (.ok tags)

/-- `nchan_expand_msg_id_multi_tag(id, in_n, out_n, fill)`; `in_n` and `out_n` are
`uint8_t`. Returns the new `*id`; `none` when the loop has not ended within `fuel`
iterations. -/
def nchan_expand_msg_id_multi_tag (fuel : Nat) (id : nchan_msg_id_t) (in_n out_n : Nat)
    (fill : Int) : Option (Except nchan_abort nchan_msg_id_t) :=
  let n := id.tagcount
  let tags := msgid_tags id
  -- assert(n > in_n && n > out_n);
  if ¬ (in_n < n ∧ out_n < n) then some (.error .assertion)
  else
    match tag_read tags in_n with
    | .error e => some (.error e)
    | .ok v =>
      match expand_loop n out_n v fill fuel 0 tags with
      | none => none
      | some (.error e) => some (.error e)
      | some (.ok written) => some (.ok { id with tag := msgid_store_tags id written })

/-! ## Tag lists as texts -/

/-- One field of a tag list `[-]?N(,[-]?N)*`: whether it is bracketed (`[` before,
`]` after), whether it has a minus sign, and its run of decimal digits. A lone `-` is
the field with a minus sign and no digit. -/
structure tag_field where
  active : Bool
  neg : Bool
  digits : List Char
deriving DecidableEq, Repr

/-- The bytes of a field. -/
def field_text (f : tag_field) : List Char :=
  (if f.active then ['['] else []) ++ (if f.neg then ['-'] else []) ++ f.digits ++
    (if f.active then [']'] else [])

/-- The bytes of a tag list: its fields separated by commas. -/
def fields_text : List tag_field → List Char
  | [] => []
  | [f] => field_text f
  | f :: g :: fs => field_text f ++ ',' :: fields_text (g :: fs)

/-- The digits of a field are decimal digits and their value fits an `int16_t`. -/
def tag_field_ok (f : tag_field) : Prop :=
  (∀ c ∈ f.digits, 48 ≤ c.toNat ∧ c.toNat ≤ 57) ∧ decimal_value f.digits ≤ 32767

instance tag_field_ok_decidable (f : tag_field) : Decidable (tag_field_ok f) := by
  unfold tag_field_ok
  infer_instance

/-- The signed decimal value of a field, with a minus sign over the value zero (in
particular a lone `-`) standing for -1. -/
def field_value (f : tag_field) : Int :=
  if decimal_value f.digits = 0 ∧ f.neg = true then -1
  else if f.neg then - decimal_value f.digits else decimal_value f.digits

/-- The array `tags` after the values of the fields `fs` have been stored from
position `k` on. -/
def fields_store : List Int → Nat → List tag_field → List Int
  | tags, _, [] => tags
  | tags, k, f :: fs => fields_store (tags.set k (field_value f)) (k + 1) fs

/-- The position of the last bracketed field of `fs`, the first field being at
position `k`; `ta` when no field is bracketed. -/
def fields_active : Nat → Nat → List tag_field → Nat
  | ta, _, [] => ta
  | ta, k, f :: fs => fields_active (if f.active then k else ta) (k + 1) fs

/-- The static array `tags[255]` of `nchan_parse_msg_tag` before the first call:
static storage is zero-initialised. -/
def static_tags_zero : List Int := List.replicate 255 0

/-- The fields of the tag list `5,-,3`. -/
def sample_fields : List tag_field :=
  [⟨false, false, ['5']⟩, ⟨false, true, []⟩, ⟨false, false, ['3']⟩]

/-! ## Message ID wire form -/

/-- The decimal text of a natural number. -/
def nat_decimal (n : Nat) : List Char :=
  if n = 0 then ['0'] else (Nat.digits 10 n).reverse.map (fun d => Char.ofNat (48 + d))

/-- The decimal text of an integer. -/
def int_decimal (v : Int) : List Char :=
  if v < 0 then '-' :: nat_decimal (-v).toNat else nat_decimal v.toNat

/-- Modelled from the spec: the field written for the tag `v`; "active tag bracketed as
`[<tag>]`. A bare `-` is shorthand for `-1`". `short` tells whether the tag -1 is
written with the shorthand. -/
def format_field (short : Bool) (active : Bool) (v : Int) : tag_field :=
  if v < 0 then ⟨active, true, if v = -1 ∧ short = true then [] else nat_decimal (-v).toNat⟩
  else ⟨active, false, nat_decimal v.toNat⟩

/-- Modelled from the spec: the fields written for the tags `vs`, the first of them at
position `k`; the field at position `active` is bracketed. -/
def format_fields (short : Bool) (active : Nat) : Nat → List Int → List tag_field
  | _, [] => []
  | k, v :: vs =>
    format_field short (decide (k = active)) v :: format_fields short active (k + 1) vs

/-- Modelled from the spec: `msgid_to_str`, whose definition is not part of the sources;
"Message ID wire form. `"<time>:<tag>[,<tag>…]"`; active tag bracketed as `[<tag>]`. A
bare `-` is shorthand for `-1`." The first `tagcount` tags are written; `short` tells
whether the tag -1 is written with the shorthand. -/
def msgid_to_str (short : Bool) (id : nchan_msg_id_t) : List Char :=
  int_decimal id.time ++ ':' ::
    fields_text (format_fields short id.tagactive 0
      ((List.range id.tagcount).map (fun i => (msgid_tag id i).getD 0)))

/-! ## Requests and location configuration -/

/-- The nginx return code `NGX_DONE`. -/
def NGX_DONE : Int := -4

/-- The nginx return code `NGX_ABORT`. -/
def NGX_ABORT : Int := -6

/-- A header line of a request (`ngx_table_elt_t`): its key and its value. -/
structure ngx_table_elt_t where
  key : List Char
  value : List Char
deriving DecidableEq, Repr

/-- A compiled template, `ngx_http_complex_value_t`, together with the value it has for
the request at hand: `literal` when `val->lengths == NULL` (a fixed text, stored in
`val->value`), `script` when the value is computed by the script engine. -/
inductive ngx_http_complex_value_t where
  | literal (value : List Char)
  | script (value : List Char)
deriving DecidableEq, Repr

/-- The value `ngx_http_complex_value(r, val, &out)` stores in `out`. -/
def ngx_http_complex_value (val : ngx_http_complex_value_t) : List Char :=
  match val with
  | .literal v => v
  | .script v => v

/-- The subscriber switches `cf->sub` of a location. -/
structure nchan_conf_sub_t where
  poll : Bool := false
  longpoll : Bool := false
  eventsource : Bool := false
  websocket : Bool := false
  http_chunked : Bool := false
  http_multipart : Bool := false
deriving DecidableEq, Repr

/-- The publisher switches `cf->pub` of a location. -/
structure nchan_conf_pub_t where
  http : Bool := false
  websocket : Bool := false
deriving DecidableEq, Repr

/-- Modelled from the spec: `nchan_loc_conf_t` is declared in a header that is not part
of the sources; these are the fields the embedded functions read or write. An array
of templates (`nchan_complex_value_arr_t`, with its count `n`) is a list;
`storage_engine` is the name of the engine the pointer designates (0: NULL). The
default values are those of a zeroed structure. -/
structure nchan_loc_conf_t where
  msg_in_etag_only : Bool := false
  subscriber_start_at_oldest_message : Bool := false
  last_message_id : List ngx_http_complex_value_t := []
  max_channel_id_length : Int := 0
  channel_group : List Char := []
  channel_id_split_delimiter : List Char := []
  pub_chid : List ngx_http_complex_value_t := []
  sub_chid : List ngx_http_complex_value_t := []
  pubsub_chid : List ngx_http_complex_value_t := []
  sub : nchan_conf_sub_t := {}
  pub : nchan_conf_pub_t := {}
  allow_origin : List Char := []
  authorize_request_url : Option ngx_http_complex_value_t := none
  channel_events_channel_id : Option ngx_http_complex_value_t := none
  channel_event_string : Option ngx_http_complex_value_t := none
  storage_engine : Nat := 0
  use_redis : Bool := false
  buffer_timeout : Int := 0
  max_messages : Int := 0
  channel_timeout : Int := 0
deriving DecidableEq, Repr

/-- The lower-case form `(c >= 'A' && c <= 'Z') ? (c | 0x20) : c` of a byte. -/
def ngx_tolower (c : Char) : Char :=
  if 'A'.toNat ≤ c.toNat ∧ c.toNat ≤ 'Z'.toNat then Char.ofNat (c.toNat ||| 32) else c

/-- `ngx_strncasecmp(s1, s2, n)` of the nginx core (`src/core/ngx_string.c`, not part
of the sources): 0 when the first `n` bytes, or the bytes up to a common NUL, are
equal without regard to case, otherwise the difference of the first two bytes that
differ. A byte past the end of a list reads as NUL. -/
def ngx_strncasecmp : List Char → List Char → Nat → Int
  | _, _, 0 => 0
  | s1, s2, n + 1 =>
    let c1 := ngx_tolower (s1.headD (Char.ofNat 0))
    let c2 := ngx_tolower (s2.headD (Char.ofNat 0))
    if c1 = c2 then
      if c1.toNat ≠ 0 then ngx_strncasecmp s1.tail s2.tail n else 0
    else (c1.toNat : Int) - (c2.toNat : Int)

/-- `nchan_get_header_value(r, header_name)` on the header lines of the request: the
value of the first line whose key has the length of `header_name` and equals it
without regard to case; `none` for NULL. -/
def nchan_get_header_value (headers : List ngx_table_elt_t) (header_name : List Char) :
    Option (List Char) :=
  match headers with
  | [] => none
  | h :: rest =>
    if h.key.length = header_name.length ∧
        ngx_strncasecmp h.key header_name h.key.length = 0 then some h.value
    else nchan_get_header_value rest header_name

/-- Modelled from the spec: the constant `NCHAN_HEADER_IF_NONE_MATCH` is defined in a
header that is not part of the sources; the specification names the request header
`If-None-Match`. -/
def NCHAN_HEADER_IF_NONE_MATCH : List Char :=
  ['I', 'f', '-', 'N', 'o', 'n', 'e', '-', 'M', 'a', 't', 'c', 'h']

/-- `nchan_subscriber_get_etag(r)`: the same scan as `nchan_get_header_value`, for the
name `NCHAN_HEADER_IF_NONE_MATCH`. -/
def nchan_subscriber_get_etag (headers : List ngx_table_elt_t) : Option (List Char) :=
  nchan_get_header_value headers NCHAN_HEADER_IF_NONE_MATCH

/-- The parts of `ngx_http_request_t` that `nchan_subscriber_get_msg_id` reads: the
header lines `r->headers_in.headers` and the value of
`r->headers_in.if_modified_since` (`none`: NULL). -/
structure msgid_request_t where
  headers : List ngx_table_elt_t
  if_modified_since : Option (List Char)
deriving DecidableEq, Repr

/-! ## Resume point: `nchan_subscriber_get_msg_id` -/

/-- Modelled from the spec: `NCHAN_ZERO_MSGID` is defined in a header that is not part
of the sources; the default resume point of the specification has "`tagcount=1`,
`tag=0`", and the zero ID is taken to be that ID at time 0. -/
def NCHAN_ZERO_MSGID : nchan_msg_id_t := ⟨0, .fixed [0, 0, 0, 0], 0, 1⟩

/-- The string `str` of `nchan_subscriber_get_msg_id`: its bytes and the size of the
storage `str.data` points to. -/
structure noalloc_str_t where
  value : List Char
  cap : Nat
deriving DecidableEq, Repr

/-- `ngx_http_complex_value_noalloc(r, val, value, maxlen)`; returns the return code
and the new `*value`. A literal template makes `*value` designate the template's own
text; a computed template is written to the storage `value->data` points to, and
the call stops when that storage is too small. -/
def ngx_http_complex_value_noalloc (val : ngx_http_complex_value_t) (value : noalloc_str_t)
    (maxlen : Nat) : Except nchan_abort (Int × noalloc_str_t) :=
  match val with
  | .literal v => .ok (NGX_OK, ⟨v, v.length⟩)
  | .script v =>
    if v.length > maxlen then .ok (NGX_ERROR, value)
    else if v.length > value.cap then .error .fault
    else .ok (NGX_OK, ⟨v, value.cap⟩)

/-- The loop `for(i=0; i < n; i++)` of `nchan_subscriber_get_msg_id` over the templates
that are left; `some` is the `return &id` inside the loop, with the new content of
the static array of `nchan_parse_msg_tag` and the new static ID, `none` the end of
the loop. -/
def alt_msgid_loop (tags : List Int) (id : nchan_msg_id_t) :
    List ngx_http_complex_value_t → noalloc_str_t →
      Except nchan_abort (Option (List Int × nchan_msg_id_t))
  | [], _ => .ok none
  | cv :: rest, str =>
    match ngx_http_complex_value_noalloc cv str 128 with
    | .error e => .error e
    | .ok (rc, str) =>
      if 0 < str.value.length ∧ rc = NGX_OK then
        let p := nchan_parse_compound_msgid tags id str.value
        if p.1 = NGX_OK then .ok (some p.2) else alt_msgid_loop tags id rest str
      else alt_msgid_loop tags id rest str

/-- The assignment `id.tag.fixed[0] = 0`. When the union holds a pointer, the inline
array read afterwards is made of the `int16_t` words `addr` of that pointer. -/
def tag_fixed_set_zero (addr : List Int) (t : nchan_tag_t) : nchan_tag_t :=
  match t with
  | .fixed a => .fixed (a.set 0 0)
  | .allocd _ => .fixed (addr.set 0 0)

/-- `nchan_subscriber_get_msg_id(r)`. `tags` and `id` are the static array of
`nchan_parse_msg_tag` and the static `id` of the function as earlier calls left
them; the result is their new content, the returned pointer being `&id`.
`ngx_http_parse_time` is the nginx core function of that name and `tags_addr` the
`int16_t` words of the address of the static array. -/
def nchan_subscriber_get_msg_id (ngx_http_parse_time : List Char → Int) (tags_addr : List Int)
    (cf : nchan_loc_conf_t) (r : msgid_request_t) (tags : List Int) (id : nchan_msg_id_t) :
    Except nchan_abort (List Int × nchan_msg_id_t) :=
  let rule1 : Option (List Char) :=
    if cf.msg_in_etag_only then none else r.if_modified_since
  match rule1 with
  | some ims =>
    let id := { id with time := ngx_http_parse_time ims }
    match nchan_subscriber_get_etag r.headers with
    | none => .ok (tags, { id with tagcount := 1, tagactive := 0 })
    | some if_none_match => .ok (nchan_parse_msg_tag tags if_none_match id)
  | none =>
    let rule2 : Option (List Char) :=
      if cf.msg_in_etag_only then nchan_subscriber_get_etag r.headers else none
    let found : Except nchan_abort (Option (List Int × nchan_msg_id_t)) :=
      match rule2 with
      | some if_none_match =>
        let p := nchan_parse_compound_msgid tags id if_none_match
        if p.1 = NGX_OK then .ok (some p.2) else .ok none
      | none => alt_msgid_loop tags id cf.last_message_id ⟨[], 128⟩
    match found with
    | .error e => .error e
    | .ok (some res) => .ok res
    | .ok none =>
      -- eh, we didn't find a valid alt_msgid value from variables. use the defaults
      .ok (tags,
        { id with
          time := if cf.subscriber_start_at_oldest_message then 0 else -1
          tagcount := 1
          tagactive := 0
          tag := tag_fixed_set_zero tags_addr id.tag })

/-! ## Resume point: the rule "first template that parses wins" -/

/-- A request with an `If-Modified-Since` line and the entity tag `7`. -/
def sample_request_etag : msgid_request_t :=
  ⟨[⟨['i', 'f', '-', 'n', 'o', 'n', 'e', '-', 'm', 'a', 't', 'c', 'h'], ['7']⟩], some ['x']⟩

/-- A request with an `If-Modified-Since` line and no entity tag. -/
def sample_request_time_only : msgid_request_t := ⟨[], some ['x']⟩

/-- The nginx status code `NGX_HTTP_FORBIDDEN`. -/
def NGX_HTTP_FORBIDDEN : Nat := 403

/-- The nginx status code `NGX_HTTP_NOT_FOUND`. -/
def NGX_HTTP_NOT_FOUND : Nat := 404

/-- The nginx status code `NGX_HTTP_INTERNAL_SERVER_ERROR`. -/
def NGX_HTTP_INTERNAL_SERVER_ERROR : Nat := 500

/-- The text `TEXT_PLAIN`. -/
def TEXT_PLAIN : List Char := ['t', 'e', 'x', 't', '/', 'p', 'l', 'a', 'i', 'n']

/-- `validate_id(r, id, cf)`: the length of the ID is compared with
`(unsigned) cf->max_channel_id_length`, the configured number converted to 32 bits. -/
def validate_id (id : List Char) (cf : nchan_loc_conf_t) : Int :=
  if (id.length : Int) > cf.max_channel_id_length % 4294967296 then NGX_ERROR else NGX_OK

/-- `ngx_strncmp(s1, s2, n)`, the C function `strncmp`: 0 when the first `n` bytes, or
the bytes up to a common NUL, are equal, otherwise the difference of the first two
bytes that differ. A byte past the end of a list reads as NUL. -/
def ngx_strncmp : List Char → List Char → Nat → Int
  | _, _, 0 => 0
  | s1, s2, n + 1 =>
    let c1 := s1.headD (Char.ofNat 0)
    let c2 := s2.headD (Char.ofNat 0)
    if c1 = c2 then
      if c1.toNat ≠ 0 then ngx_strncmp s1.tail s2.tail n else 0
    else (c1.toNat : Int) - (c2.toNat : Int)

/-- The loop `for(cur = *s1; cur < last; cur++)` of `nchan_strsplit` on the string `s`,
with `n` positions left before `last`: the first position from `cur` on at which
`ngx_strncmp(cur, delim, delim_sz) == 0`, `none` when the loop runs to its end. -/
def strsplit_scan (s delim : List Char) : (n : Nat) → (cur : Nat) → Option Nat
  | 0, _ => none
  | n + 1, cur =>
    if ngx_strncmp (s.drop cur) delim delim.length = 0 then some cur
    else strsplit_scan s delim n (cur + 1)

/-- `nchan_strsplit(s1, sub, last_char)` on the string `s`, whose end is `last_char`;
pointers are offsets from the start of `s`. Returns the returned pointer (`none`:
NULL) and the new `*s1`. -/
def nchan_strsplit (s : List Char) (s1 : Nat) (sub : List Char) :
    Except nchan_abort (Option Nat × Nat) :=
  let last_char : Nat := s.length
  let last : Int := (last_char : Int) - (sub.length : Int)
  match strsplit_scan s sub (last - (s1 : Int)).toNat s1 with
  | some cur => .ok (some cur, cur + sub.length)
  | none =>
    -- the loop has ended: cur is the larger of *s1 and last
    let cur : Int := max (s1 : Int) last
    if cur = last then .ok (some last_char, last_char)
    else if cur > last then .ok (none, last_char)
    else .error .assertion

/-- Modelled from the spec: `nchan_request_ctx_t` is declared in a header that is not
part of the sources; these are the fields the embedded functions write. `channel_id`
is the array of `NCHAN_MULTITAG_MAX` strings. The default values are those of the
zeroed structure `ngx_pcalloc` returns. -/
structure nchan_request_ctx_t where
  channel_id : List (List Char) := [[], [], [], []]
  channel_id_count : Nat := 0
  request_origin_header : Option (List Char) := none
  publisher_type : Option (List Char) := none
  channel_event_name : Option (List Char) := none
  msg_id : nchan_msg_id_t := ⟨0, .fixed [0, 0, 0, 0], 0, 0⟩
  prev_msg_id : nchan_msg_id_t := ⟨0, .fixed [0, 0, 0, 0], 0, 0⟩
deriving DecidableEq, Repr

/-- The variables `id`, `n_out`, `sz` of `nchan_process_multi_channel_id` and the
request context: `id` holds the entries `id[0]` to `id[n_out - 1]`. -/
structure chid_state where
  id : List (List Char)
  sz : Nat
  ctx : Option nchan_request_ctx_t
deriving DecidableEq, Repr

/-- The statements that store one sub-ID `v` in `id[n_out]`:
`sz += id[n_out].len + 1 + grouplen; if(n_out < NCHAN_MULTITAG_MAX)
ctx->channel_id[n_out] = id[n_out]; n_out++;`. The array `id` has 255 entries and
`ctx` is dereferenced without a test. -/
def chid_push (st : chid_state) (v : List Char) (grouplen : Nat) :
    Except nchan_abort chid_state :=
  if 255 ≤ st.id.length then .error .fault
  else if st.id.length < NCHAN_MULTITAG_MAX then
    match st.ctx with
    | none => .error .fault
    | some c =>
      .ok ⟨st.id ++ [v], st.sz + (v.length + 1 + grouplen),
        some { c with channel_id := c.channel_id.set st.id.length v }⟩
  else .ok ⟨st.id ++ [v], st.sz + (v.length + 1 + grouplen), st.ctx⟩

/-- The loop `while ((cur_last = nchan_strsplit(&cur, delim, last)) != NULL)` on the
evaluated string `s`, with `cur` (which equals `cur_first` at the loop test) an offset
from the start of `s`. `none`: the loop has not ended within `fuel` iterations. -/
def split_loop (s delim : List Char) (grouplen : Nat) :
    (fuel : Nat) → (cur : Nat) → chid_state → Option (Except nchan_abort chid_state)
  | 0, _, _ => none
  | k + 1, cur, st =>
    match nchan_strsplit s cur delim with
    | .error e => some (.error e)
    | .ok (none, _) => some (.ok st)
    | .ok (some cur_last, cur_next) =>
      match chid_push st ((s.drop cur).take (cur_last - cur)) grouplen with
      | .error e => some (.error e)
      | .ok st => split_loop s delim grouplen k cur_next st

/-- The loop `for(i=0; i < n && n_out < 255; i++)` of `nchan_process_multi_channel_id`
over the templates that are left. The result is `NGX_DECLINED` for the
`return NGX_DECLINED` of the loop and `NGX_OK` for the end of the loop, with the
variables at that point; `none` means that a split loop has not ended within `fuel`
iterations. -/
def multi_resolve (cf : nchan_loc_conf_t) (fuel : Nat) :
    List ngx_http_complex_value_t → chid_state →
      Option (Except nchan_abort (Int × chid_state))
  | [], st => some (.ok (NGX_OK, st))
  | cv :: rest, st =>
    if ¬ st.id.length < 255 then some (.ok (NGX_OK, st))
    else
      let v := ngx_http_complex_value cv
      if validate_id v cf ≠ NGX_OK then some (.ok (NGX_DECLINED, st))
      else if cf.channel_id_split_delimiter.length > 0 then
        match split_loop v cf.channel_id_split_delimiter cf.channel_group.length fuel 0 st with
        | none => none
        | some (.error e) => some (.error e)
        | some (.ok st) => multi_resolve cf fuel rest st
      else
        match chid_push st v cf.channel_group.length with
        | .error e => some (.error e)
        | .ok st => multi_resolve cf fuel rest st

/-- A string allocated and written by a function: the size `len` of its block and
the bytes `data` written to it, in order. -/
structure ngx_str_t where
  len : Nat
  data : List Char
deriving DecidableEq, Repr

/-- The bytes the last loop of `nchan_process_multi_channel_id` writes for the entries
of `id`: the group, `/`, the sub-ID and, when `multi` (that is `n_out > 1`), the
separator. -/
def multi_write (sep : Char) (group : List Char) (multi : Bool) : List (List Char) → List Char
  | [] => []
  | v :: rest =>
    group ++ '/' :: v ++ (if multi then [sep] else []) ++ multi_write sep group multi rest

/-- The result of a channel-ID function: the return code, `*ret_id` (`none`: NULL)
and the request context. -/
structure chid_result where
  rc : Int
  ret_id : Option ngx_str_t
  ctx : Option nchan_request_ctx_t
deriving DecidableEq, Repr

/-- `nchan_process_multi_channel_id(r, idcf, cf, ret_id)`. `sep` is the constant
`NCHAN_MULTI_SEP_CHR`, which is defined in a header that is not part of the sources;
`palloc` tells whether the `ngx_palloc` call succeeds; `ctx` is the request context
(`none`: NULL). `none`: a split loop has not ended within `fuel` iterations. -/
def nchan_process_multi_channel_id (sep : Char) (fuel : Nat) (palloc : Bool)
    (idcf : List ngx_http_complex_value_t) (cf : nchan_loc_conf_t)
    (ctx : Option nchan_request_ctx_t) : Option (Except nchan_abort chid_result) :=
  match multi_resolve cf fuel idcf ⟨[], 0, ctx⟩ with
  | none => none
  | some (.error e) => some (.error e)
  | some (.ok (rc, st)) =>
    if rc ≠ NGX_OK then some (.ok ⟨rc, none, st.ctx⟩)
    else
      let n_out := st.id.length
      let sz := if n_out > 1 then st.sz + (3 + n_out) else st.sz
      let ctx := st.ctx.map (fun c => { c with channel_id_count := n_out })
      if ¬ palloc then some (.ok ⟨NGX_ERROR, none, ctx⟩)
      else
        let data :=
          (if n_out > 1 then ['m', '/', sep] else []) ++
            multi_write sep cf.channel_group (decide (n_out > 1)) st.id
        if sz < data.length then some (.error .fault)
        else some (.ok ⟨NGX_OK, some ⟨sz, data⟩, ctx⟩)

/-! ## Channel IDs: `nchan_process_legacy_channel_id`, `nchan_get_channel_id` -/

/-- The value `ngx_http_get_variable` returns for a variable: the flag `not_found` and
the bytes `data` (the field `len` is the number of bytes). -/
structure ngx_http_variable_value_t where
  not_found : Bool
  data : List Char
deriving DecidableEq, Repr

/-- `nchan_process_legacy_channel_id(r, cf, ret_id)`. `vv` is the result of
`ngx_http_get_variable` for `push_channel_id` (`none`: NULL) and `palloc` tells
whether the `ngx_palloc` call succeeds. `*ret_id` is NULL before the call, as it is in
`nchan_get_channel_id`. -/
def nchan_process_legacy_channel_id (palloc : Bool) (vv : Option ngx_http_variable_value_t)
    (cf : nchan_loc_conf_t) (ctx : Option nchan_request_ctx_t) :
    Except nchan_abort chid_result :=
  match ctx with
  | none => .error .fault
  | some c =>
    let c := { c with channel_id_count := 0 }
    let tmpid : Option (List Char) :=
      match vv with
      | none => none
      | some v => if v.not_found ∨ v.data.length = 0 then none else some v.data
    match tmpid with
    | none => .ok ⟨NGX_ABORT, none, some c⟩
    | some tmpid =>
      if validate_id tmpid cf ≠ NGX_OK then .ok ⟨NGX_DECLINED, none, some c⟩
      else if ¬ palloc then .ok ⟨NGX_ERROR, none, some c⟩
      else
        let sz := cf.channel_group.length + 1 + tmpid.length
        let data := cf.channel_group ++ '/' :: tmpid
        .ok ⟨NGX_OK, some ⟨sz, data⟩,
          some { c with channel_id_count := 1, channel_id := c.channel_id.set 0 data }⟩

/-- The argument `what` of `nchan_get_channel_id`. -/
inductive pub_or_sub_t where
  | PUB
  | SUB
deriving DecidableEq, Repr

/-- A response sent with `nchan_respond_status(r, code, NULL, 0)` or with
`nchan_respond_string(r, code, content_type, body, 0)`. -/
inductive nchan_response_t where
  | status (code : Nat)
  | string (code : Nat) (content_type body : List Char)
deriving DecidableEq, Repr

/-- The text `NO_CHANNEL_ID_MESSAGE`, "No channel id provided.". -/
def NO_CHANNEL_ID_MESSAGE : List Char :=
  ['N', 'o', ' ', 'c', 'h', 'a', 'n', 'n', 'e', 'l', ' ', 'i', 'd', ' ',
    'p', 'r', 'o', 'v', 'i', 'd', 'e', 'd', '.']

/-- What `nchan_get_channel_id` leaves: the returned ID (`none`: NULL), the request
context and the response it has sent, if any. -/
structure get_channel_id_result where
  id : Option ngx_str_t
  ctx : Option nchan_request_ctx_t
  response : Option nchan_response_t
deriving DecidableEq, Repr

/-- The templates `chid_conf` that `nchan_get_channel_id` selects: those of the role
`what`, or the common ones when the role has none. -/
def channel_id_conf (cf : nchan_loc_conf_t) (what : pub_or_sub_t) :
    List ngx_http_complex_value_t :=
  let chid_conf := if what = .PUB then cf.pub_chid else cf.sub_chid
  if chid_conf.length = 0 then cf.pubsub_chid else chid_conf

/-- `nchan_get_channel_id(r, what, fail_hard)`; `sep`, `fuel`, `palloc`, `vv` and `ctx`
are as in the two functions it calls. -/
def nchan_get_channel_id (sep : Char) (fuel : Nat) (palloc : Bool)
    (vv : Option ngx_http_variable_value_t) (cf : nchan_loc_conf_t)
    (ctx : Option nchan_request_ctx_t) (what : pub_or_sub_t) (fail_hard : Bool) :
    Option (Except nchan_abort get_channel_id_result) :=
  let chid_conf := channel_id_conf cf what
  let called :=
    if chid_conf.length > 0 then nchan_process_multi_channel_id sep fuel palloc chid_conf cf ctx
    else some (nchan_process_legacy_channel_id palloc vv cf ctx)
  match called with
  | none => none
  | some (.error e) => some (.error e)
  | some (.ok res) =>
    if res.ret_id = none ∧ fail_hard = true then
      if ¬ res.rc ≠ NGX_OK then some (.error .assertion)
      else if res.rc = NGX_ERROR then
        some (.ok ⟨none, res.ctx, some (.status NGX_HTTP_INTERNAL_SERVER_ERROR)⟩)
      else if res.rc = NGX_DECLINED then
        some (.ok ⟨none, res.ctx, some (.status NGX_HTTP_FORBIDDEN)⟩)
      else if res.rc = NGX_ABORT then
        some (.ok ⟨none, res.ctx,
          some (.string NGX_HTTP_NOT_FOUND TEXT_PLAIN NO_CHANNEL_ID_MESSAGE)⟩)
      else some (.ok ⟨none, res.ctx, none⟩)
    else some (.ok ⟨res.ret_id, res.ctx, none⟩)

/-! ## Composite channel IDs as texts -/

/-- The composite channel ID of the sub-IDs `ids` in the group `g`: `m/`, the separator,
and then for each sub-ID the group, `/`, the sub-ID and the separator. -/
def composite_id (sep : Char) (g : List Char) (ids : List (List Char)) : List Char :=
  'm' :: '/' :: sep :: (ids.map (fun v => g ++ '/' :: v ++ [sep])).flatten

/-- Modelled from the spec: the parts of a composite ID `m/<SEP>g/a<SEP>g/b<SEP>`, that
is the texts between the separators after the prefix `m/<SEP>`. -/
def composite_split (sep : Char) (s : List Char) : List (List Char) :=
  ((s.drop 3).splitOn sep).dropLast

/-- Modelled from the spec: the composite ID made of the parts `parts`, each followed
by the separator, after the prefix `m/<SEP>`. -/
def composite_join (sep : Char) (parts : List (List Char)) : List Char :=
  'm' :: '/' :: sep :: (parts.map (fun p => p ++ [sep])).flatten

/-- The size the function reserves for the entries of `id`: for each of them its
length, one byte for `/` and the length of the group. -/
def chid_size (grouplen : Nat) (ids : List (List Char)) : Nat :=
  (ids.map (fun v => v.length + 1 + grouplen)).sum

/-- A location with the group `g` and two templates for the channel ID, without split
delimiter. -/
def sample_conf_chid : nchan_loc_conf_t :=
  { channel_group := ['g'], max_channel_id_length := 10,
    sub_chid := [.script ['a'], .script ['b', 'c']] }

/-- A location with the group `g`, one template for the channel ID, of value `v` for the
request, and the split delimiter `d`. -/
def sample_conf_split (d v : List Char) : nchan_loc_conf_t :=
  { channel_group := ['g'], max_channel_id_length := 10,
    sub_chid := [.script v], channel_id_split_delimiter := d }

/-! ## Channel information: content negotiation of `nchan_channel_info_buf` -/

/-- The format templates `NCHAN_CHANNEL_INFO_PLAIN`, `NCHAN_CHANNEL_INFO_JSON`,
`NCHAN_CHANNEL_INFO_YAML` and `NCHAN_CHANNEL_INFO_XML` that `format` can point to. -/
inductive channel_info_format_t where
  | PLAIN
  | JSON
  | YAML
  | XML
deriving DecidableEq, Repr

/-- The string `channel_info_content_type`: either a copy of `TEXT_PLAIN`, or `len`
bytes starting at the offset `data` of the `Accept` header. -/
inductive content_type_t where
  | text_plain
  | slice (data : Nat) (len : Nat)
deriving DecidableEq, Repr

/-- The bytes of a content type of the header `accept`; a slice that runs past the end
of the header yields the bytes of the header only. -/
def content_type_bytes (accept : List Char) : content_type_t → List Char
  | .text_plain => TEXT_PLAIN
  | .slice data len => (accept.drop data).take len

/-- The inner loops of `ngx_strnstr` of the nginx core (`src/core/ngx_string.c`, not
part of the sources) for a pattern with first byte `c2` and remaining bytes `rest2`,
on the bytes of `s1` with `len` bytes left: the offset of the first occurrence of the
pattern that lies within those bytes and before a NUL. A byte past the end of the list
reads as NUL. -/
def strnstr_scan (c2 : Char) (rest2 : List Char) : List Char → Nat → Option Nat
  | _, 0 => none
  | [], _ + 1 => none
  | c1 :: rest, len + 1 =>
    if c1.toNat = 0 then none
    else if c1 ≠ c2 then (strnstr_scan c2 rest2 rest len).map (· + 1)
    else if rest2.length > len then none
    else if ngx_strncmp rest rest2 rest2.length = 0 then some 0
    else (strnstr_scan c2 rest2 rest len).map (· + 1)

/-- `ngx_strnstr(s1, s2, len)` for a non-empty pattern `s2` without NUL byte: the offset
from `s1` of the first occurrence of `s2` within the first `len` bytes; `none` for
NULL. -/
def ngx_strnstr (s1 s2 : List Char) (len : Nat) : Option Nat :=
  match s2 with
  | [] => none
  | c2 :: rest2 => strnstr_scan c2 rest2 s1 len

/-- An entry of the table `subtypes` of `nchan_match_channel_info_subtype`: the subtype
(its length `len` is the number of its bytes) and the format. -/
structure nchan_content_subtype_t where
  subtype : List Char
  format : channel_info_format_t
deriving DecidableEq, Repr

/-- The table `subtypes` of `nchan_match_channel_info_subtype`. -/
def subtypes : List nchan_content_subtype_t :=
  [⟨['j', 's', 'o', 'n'], .JSON⟩, ⟨['y', 'a', 'm', 'l'], .YAML⟩, ⟨['x', 'm', 'l'], .XML⟩,
    ⟨['x', '-', 'j', 's', 'o', 'n'], .JSON⟩, ⟨['x', '-', 'y', 'a', 'm', 'l'], .YAML⟩]

/-- The variables the content negotiation writes: `format`, `priority` (an offset from
the start of the `Accept` header, -1 for the byte before it) and
`channel_info_content_type`. -/
structure negotiation_t where
  format : channel_info_format_t
  priority : Int
  content_type : content_type_t
deriving DecidableEq, Repr

/-- The loop of `nchan_match_channel_info_subtype` over the entries of the table that
are left; `cur` is an offset from the start of the header `accept`. -/
def match_subtype_loop (accept : List Char) (off cur rem : Nat) :
    List nchan_content_subtype_t → negotiation_t → negotiation_t
  | [], st => st
  | e :: rest, st =>
    let start := cur + off
    let st :=
      if ngx_strncmp (accept.drop start) e.subtype (min rem e.subtype.length) = 0 then
        if st.priority > (start : Int) then
          ⟨e.format, (start : Int), .slice cur (off + 1 + e.subtype.length)⟩
        else st
      else st
    match_subtype_loop accept off cur rem rest st

/-- `nchan_match_channel_info_subtype(off, cur, rem, priority, format, content_type)`. -/
def nchan_match_channel_info_subtype (accept : List Char) (off cur rem : Nat)
    (st : negotiation_t) : negotiation_t :=
  match_subtype_loop accept off cur rem subtypes st

/-- The text `text/`. -/
def TEXT_SLASH : List Char := ['t', 'e', 'x', 't', '/']

/-- The text `application/`. -/
def APPLICATION_SLASH : List Char :=
  ['a', 'p', 'p', 'l', 'i', 'c', 'a', 't', 'i', 'o', 'n', '/']

/-- The loop `for(rem=len; (cur = ngx_strnstr(cur, "text/", rem))!=NULL; cur += 5)` of
`nchan_channel_info_buf`, at its test, with `cur` an offset from the start of the
header. The test `if(priority)` is a test of a pointer into the header, which is not
NULL. `none`: the loop has not ended within `fuel` iterations. -/
def text_loop (accept : List Char) : (fuel : Nat) → (cur rem : Nat) → negotiation_t →
    Option negotiation_t
  | 0, _, _, _ => none
  | k + 1, cur, rem, st =>
    match ngx_strnstr (accept.drop cur) TEXT_SLASH rem with
    | none => some st
    | some p =>
      let cur := cur + p
      let rem := accept.length - (cur + 5)
      let st :=
        if ngx_strncmp (accept.drop (cur + 5)) ['p', 'l', 'a', 'i', 'n'] (min rem 5) = 0 then
          { st with format := .PLAIN, priority := ((cur + 5 : Nat) : Int) }
        else st
      let st := nchan_match_channel_info_subtype accept 5 cur rem st
      text_loop accept k (cur + 5) rem st

/-- The loop
`for(rem=len; (cur = ngx_strnstr(cur, "application/", rem))!=NULL; cur += 12)` of
`nchan_channel_info_buf`, at its test. `none`: the loop has not ended within `fuel`
iterations. -/
def application_loop (accept : List Char) : (fuel : Nat) → (cur rem : Nat) → negotiation_t →
    Option negotiation_t
  | 0, _, _, _ => none
  | k + 1, cur, rem, st =>
    match ngx_strnstr (accept.drop cur) APPLICATION_SLASH rem with
    | none => some st
    | some p =>
      let cur := cur + p
      let rem := accept.length - (cur + 12)
      let st := nchan_match_channel_info_subtype accept 12 cur rem st
      application_loop accept k (cur + 12) rem st

/-- The content negotiation of `nchan_channel_info_buf(accept_header, ...)`: the format
whose template fills the returned buffer and the generated content type.
`accept_header = none` is a NULL pointer. `none`: a loop has not ended within `fuel`
iterations. -/
def nchan_channel_info_buf (fuel : Nat) (accept_header : Option (List Char)) :
    Option (channel_info_format_t × content_type_t) :=
  match accept_header with
  | none => some (.PLAIN, .text_plain)
  | some accept =>
    let len := accept.length
    let st : negotiation_t := ⟨.PLAIN, (len : Int) - 1, .text_plain⟩
    match text_loop accept fuel 0 len st with
    | none => none
    | some st =>
      match application_loop accept fuel 0 len st with
      | none => none
      | some st => some (st.format, st.content_type)

/-- The `Accept` header `text/json, text/plain`. -/
def sample_accept_json_plain : List Char :=
  ['t', 'e', 'x', 't', '/', 'j', 's', 'o', 'n', ',', ' ',
    't', 'e', 'x', 't', '/', 'p', 'l', 'a', 'i', 'n']

/-- The `Accept` header `text/json, text/html`. -/
def sample_accept_json_html : List Char :=
  ['t', 'e', 'x', 't', '/', 'j', 's', 'o', 'n', ',', ' ',
    't', 'e', 'x', 't', '/', 'h', 't', 'm', 'l']

/-! ## Dispatcher: `nchan_pubsub_handler` -/

/-- The nginx method code `NGX_HTTP_GET`. -/
def NGX_HTTP_GET : Nat := 2

/-- The nginx method code `NGX_HTTP_HEAD`. -/
def NGX_HTTP_HEAD : Nat := 4

/-- The nginx method code `NGX_HTTP_POST`. -/
def NGX_HTTP_POST : Nat := 8

/-- The nginx method code `NGX_HTTP_PUT`. -/
def NGX_HTTP_PUT : Nat := 16

/-- The nginx method code `NGX_HTTP_DELETE`. -/
def NGX_HTTP_DELETE : Nat := 32

/-- The nginx method code `NGX_HTTP_OPTIONS`. -/
def NGX_HTTP_OPTIONS : Nat := 512

/-- Modelled from the spec: the constant `NCHAN_HEADER_ORIGIN` is defined in a header
that is not part of the sources; the specification names the request header
`Origin`. -/
def NCHAN_HEADER_ORIGIN : List Char := ['O', 'r', 'i', 'g', 'i', 'n']

/-- The functions a subscriber can be created with. -/
inductive sub_create_t where
  | eventsource_subscriber_create
  | http_chunked_subscriber_create
  | http_multipart_subscriber_create
  | intervalpoll_subscriber_create
  | longpoll_subscriber_create
  | websocket_subscriber_create
deriving DecidableEq, Repr

/-- What `nchan_pubsub_handler` does to the request, in order: a call of
`nchan_get_channel_id`, a response sent, a subscriber created with one of the create
functions, a created subscriber subscribed to the channel ID, a request handed to
`nchan_create_websocket_publisher` or to `nchan_http_publisher_handler`, an answer to
`OPTIONS` with the publisher or the subscriber headers. -/
inductive pubsub_event_t where
  | get_channel_id
  | respond (response : nchan_response_t)
  | create (fn : sub_create_t)
  | subscribe (channel_id : ngx_str_t)
  | websocket_publisher
  | http_publisher
  | options_respond (publisher : Bool)
deriving DecidableEq, Repr

/-- The parts of the request `nchan_pubsub_handler` reads, with the results of the
calls it makes to functions that are not part of the sources: whether `ngx_pcalloc`
returns a context, the results of the four `nchan_detect_..._request` functions,
whether the create function returns a subscriber, and the arguments `sep`, `fuel`,
`palloc` and `vv` of `nchan_get_channel_id`. -/
structure pubsub_request_t where
  pcalloc : Bool := true
  headers : List ngx_table_elt_t := []
  method : Nat := NGX_HTTP_GET
  detect_websocket : Bool := false
  detect_eventsource : Bool := false
  detect_chunked : Bool := false
  detect_multipart : Bool := false
  created : Bool := true
  sep : Char := '|'
  fuel : Nat := 0
  palloc : Bool := true
  vv : Option ngx_http_variable_value_t := none
deriving DecidableEq, Repr

/-- What a call of `nchan_pubsub_handler` leaves: the return code, the actions taken
and the request context (`none` when none was allocated). -/
structure pubsub_result_t where
  rc : Int
  events : List pubsub_event_t
  ctx : Option nchan_request_ctx_t
deriving DecidableEq, Repr

/-- The test of the `Origin` header in `nchan_pubsub_handler`: true when the handler
jumps to `forbidden`. The pattern given to `ngx_strnstr` is the text of
`allow_origin`, a C string. -/
def origin_forbidden (allow_origin origin_header : List Char) : Bool :=
  if ¬ (allow_origin.length = 1 ∧ allow_origin.head? = some '*') then
    if ¬ (origin_header.length = allow_origin.length ∧
        ngx_strnstr origin_header allow_origin origin_header.length ≠ none) then true
    else false
  else false

/-- The label `forbidden:` of `nchan_pubsub_handler`:
`nchan_respond_status(r, NGX_HTTP_FORBIDDEN, NULL, 0); return NGX_OK;`. -/
def pubsub_forbidden (events : List pubsub_event_t) (ctx : Option nchan_request_ctx_t) :
    pubsub_result_t :=
  ⟨NGX_OK, events ++ [.respond (.status NGX_HTTP_FORBIDDEN)], ctx⟩

/-- `nchan_http_publisher_handler(r)` as far as the dispatcher is concerned: it records
the publisher type `http` in the context and hands the request to
`ngx_http_read_client_request_body`. -/
def http_publisher_ctx (ctx : nchan_request_ctx_t) : nchan_request_ctx_t :=
  { ctx with publisher_type := some ['h', 't', 't', 'p'] }

/-- The statements that create a subscriber with `fn` and subscribe it to
`channel_id`; `nchan_subscriber_get_msg_id(r)`, whose result is handed to the create
function, does not influence the actions. -/
def pubsub_subscribe (r : pubsub_request_t) (fn : sub_create_t) (channel_id : ngx_str_t)
    (ctx : nchan_request_ctx_t) : pubsub_result_t :=
  if ¬ r.created then ⟨(NGX_HTTP_INTERNAL_SERVER_ERROR : Int), [.create fn], some ctx⟩
  else ⟨NGX_DONE, [.create fn, .subscribe channel_id], some ctx⟩

/-- The part of `nchan_pubsub_handler` that follows the resolution of the channel ID:
the test of `nchan_detect_websocket_request(r)` and the `switch(r->method)`, with the
actions it takes. -/
def pubsub_dispatch (cf : nchan_loc_conf_t) (r : pubsub_request_t) (channel_id : ngx_str_t)
    (ctx : nchan_request_ctx_t) : pubsub_result_t :=
  if r.detect_websocket then
    if cf.sub.websocket then pubsub_subscribe r .websocket_subscriber_create channel_id ctx
    else if cf.pub.websocket then ⟨NGX_DONE, [.websocket_publisher], some ctx⟩
    else pubsub_forbidden [] (some ctx)
  else if r.method = NGX_HTTP_GET then
    if cf.sub.eventsource ∧ r.detect_eventsource then
      pubsub_subscribe r .eventsource_subscriber_create channel_id ctx
    else if cf.sub.http_chunked ∧ r.detect_chunked then
      pubsub_subscribe r .http_chunked_subscriber_create channel_id ctx
    else if cf.sub.http_multipart ∧ r.detect_multipart then
      pubsub_subscribe r .http_multipart_subscriber_create channel_id ctx
    else if cf.sub.poll then
      pubsub_subscribe r .intervalpoll_subscriber_create channel_id ctx
    else if cf.sub.longpoll then
      pubsub_subscribe r .longpoll_subscriber_create channel_id ctx
    else if cf.pub.http then ⟨NGX_DONE, [.http_publisher], some (http_publisher_ctx ctx)⟩
    else pubsub_forbidden [] (some ctx)
  else if r.method = NGX_HTTP_POST ∨ r.method = NGX_HTTP_PUT then
    if cf.pub.http then ⟨NGX_DONE, [.http_publisher], some (http_publisher_ctx ctx)⟩
    else pubsub_forbidden [] (some ctx)
  else if r.method = NGX_HTTP_DELETE then
    if cf.pub.http then ⟨NGX_DONE, [.http_publisher], some (http_publisher_ctx ctx)⟩
    else pubsub_forbidden [] (some ctx)
  else if r.method = NGX_HTTP_OPTIONS then
    if cf.pub.http then ⟨NGX_DONE, [.options_respond true], some ctx⟩
    else if cf.sub.poll ∨ cf.sub.longpoll ∨ cf.sub.eventsource ∨ cf.sub.websocket then
      ⟨NGX_DONE, [.options_respond false], some ctx⟩
    else pubsub_forbidden [] (some ctx)
  else
    -- the switch has no default: return rc;
    ⟨NGX_DONE, [], some ctx⟩

/-- The request context after the first statements of `nchan_pubsub_handler`: zeroed by
`ngx_pcalloc`, with the `Origin` header of the request recorded. -/
def pubsub_ctx (r : pubsub_request_t) : nchan_request_ctx_t :=
  { request_origin_header := nchan_get_header_value r.headers NCHAN_HEADER_ORIGIN }

/-- `nchan_pubsub_handler(r)` for the location configuration `cf`. `none`: the channel
ID has not been resolved within `r.fuel` iterations of a split loop. -/
def nchan_pubsub_handler (cf : nchan_loc_conf_t) (r : pubsub_request_t) :
    Option (Except nchan_abort pubsub_result_t) :=
  if ¬ r.pcalloc then some (.ok ⟨(NGX_HTTP_INTERNAL_SERVER_ERROR : Int), [], none⟩)
  else
    let ctx := pubsub_ctx r
    let origin_fails :=
      match nchan_get_header_value r.headers NCHAN_HEADER_ORIGIN with
      | some o => origin_forbidden cf.allow_origin o
      | none => false
    if origin_fails then some (.ok (pubsub_forbidden [] (some ctx)))
    else
      match nchan_get_channel_id r.sep r.fuel r.palloc r.vv cf (some ctx) .SUB true with
      | none => none
      | some (.error e) => some (.error e)
      | some (.ok got) =>
        let sent : List pubsub_event_t :=
          match got.response with
          | some resp => [.respond resp]
          | none => []
        match got.id, got.ctx with
        | none, _ =>
          -- return r->headers_out.status ? NGX_OK : NGX_HTTP_INTERNAL_SERVER_ERROR;
          some (.ok ⟨if got.response ≠ none then NGX_OK
            else (NGX_HTTP_INTERNAL_SERVER_ERROR : Int), .get_channel_id :: sent, got.ctx⟩)
        | some _, none => some (.error .fault)
        | some channel_id, some ctx =>
          let res := pubsub_dispatch cf r channel_id ctx
          some (.ok { res with events := .get_channel_id :: res.events })

/-! ## Dispatcher: the priority of the subscriber variants -/

/-- A location with long-poll and interval-poll subscribers, an HTTP publisher and the
channel ID template of value `a`. -/
def sample_conf_pubsub : nchan_loc_conf_t :=
  { sub := { poll := true, longpoll := true }, pub := { http := true },
    channel_group := ['g'], max_channel_id_length := 10, sub_chid := [.script ['a']],
    allow_origin := ['*'] }

/-- A location with a WebSocket subscriber only, the channel ID template of value `a`
and the allowed origin `http://a`. -/
def sample_conf_closed : nchan_loc_conf_t :=
  { sub := { websocket := true },
    channel_group := ['g'], max_channel_id_length := 10, sub_chid := [.script ['a']],
    allow_origin := ['h', 't', 't', 'p', ':', '/', '/', 'a'] }

/-- A location whose allowed origin is the empty text. -/
def sample_conf_empty_origin : nchan_loc_conf_t :=
  { sub := { longpoll := true },
    channel_group := ['g'], max_channel_id_length := 10, sub_chid := [.script ['a']],
    allow_origin := [] }

/-! ## Request body: `nchan_request_body_to_single_buffer` -/

/-- A buffer of a request body (`ngx_buf_t`): whether it is in a file (`in_file`), its
bytes (those from `pos` to `last` for a buffer in memory, those of the file from
`file_pos` to `file_last` otherwise; `ngx_buf_size` is their number), and whether
`ngx_read_file` fails on its file. -/
structure ngx_buf_t where
  in_file : Bool
  data : List Char
  read_error : Bool := false
deriving DecidableEq, Repr

/-- The buffer made by `ngx_create_temp_buf` while the loop of
`nchan_request_body_to_single_buffer` fills it: the bytes of its block `mem` and the
offsets `start`, `pos`, `last` in it. -/
structure temp_buf_t where
  mem : List Char
  start : Nat
  pos : Nat
  last : Nat
deriving DecidableEq, Repr

/-- Writing the bytes `src` into `mem` from the offset `at_` on; a write past the end of
the block stops the call. -/
def mem_write (mem : List Char) (at_ : Nat) (src : List Char) : Except nchan_abort (List Char) :=
  if at_ + src.length ≤ mem.length then
    .ok (mem.take at_ ++ src ++ mem.drop (at_ + src.length))
  else .error .fault

/-- The loop `while ((chain != NULL) && (chain->buf != NULL))` of
`nchan_request_body_to_single_buffer` over the links of the chain that are left;
`none` is the `return NULL` after a failed `ngx_read_file`. -/
def body_copy_loop (content_length_n : Int) :
    List ngx_buf_t → temp_buf_t → Except nchan_abort (Option temp_buf_t)
  | [], buf => .ok (some buf)
  | b :: chain, buf =>
    let len : Int := b.data.length
    -- if (len >= r->headers_in.content_length_n) { buf->start = buf->pos; buf->last = buf->pos; len = ...; }
    let reset : Bool := decide (len ≥ content_length_n)
    let buf := if reset then { buf with start := buf.pos, last := buf.pos } else buf
    let len : Int := if reset then content_length_n else len
    if len < 0 then .error .fault
    else
      if b.in_file then
        if b.read_error then .ok none
        else
          match mem_write buf.mem buf.start (b.data.take len.toNat) with
          | .error e => .error e
          | .ok mem =>
            let last := buf.last + len.toNat
            body_copy_loop content_length_n chain { buf with mem := mem, last := last, start := last }
      else
        match mem_write buf.mem buf.start (b.data.take len.toNat) with
        | .error e => .error e
        | .ok mem =>
          let last := buf.start + len.toNat
          body_copy_loop content_length_n chain { buf with mem := mem, last := last, start := last }

/-- `nchan_request_body_to_single_buffer(r)`: `bufs` is the chain `r->request_body->bufs`
(not empty), `content_length_n` is `r->headers_in.content_length_n` and `alloc` tells
whether `ngx_create_temp_buf` returns a buffer. The result is the returned buffer
(`none`: NULL), a buffer in memory holding the bytes from `pos` to `last` when it is
the new one. -/
def nchan_request_body_to_single_buffer (alloc : Bool) (content_length_n : Int)
    (bufs : List ngx_buf_t) : Except nchan_abort (Option ngx_buf_t) :=
  match bufs with
  | [] => .error .fault
  | [b] => .ok (some b)
  | b :: rest =>
    if b.in_file then .ok (some b)
    else if content_length_n + 1 < 0 then .error .fault
    else if ¬ alloc then .ok none
    else
      let size := (content_length_n + 1).toNat
      match body_copy_loop content_length_n (b :: rest) ⟨List.replicate size (Char.ofNat 0), 0, 0, 0⟩ with
      | .error e => .error e
      | .ok none => .ok none
      | .ok (some buf) =>
        .ok (some ⟨false, (buf.mem.drop buf.pos).take (buf.last - buf.pos), false⟩)

/-- A body of two buffers in memory, `ab` and `cde`. -/
def sample_body : List ngx_buf_t := [⟨false, ['a', 'b'], false⟩, ⟨false, ['c', 'd', 'e'], false⟩]

/-- A three-tag ID at second 1 with tags `[6, -1, 7]`. -/
def sample_three : nchan_msg_id_t := ⟨1, .fixed [6, -1, 7, 0], 0, 3⟩

/-! ## Channel events: `nchan_maybe_send_channel_event_message` -/

/-- The argument `event_type` of `nchan_maybe_send_channel_event_message`. -/
inductive channel_event_type_t where
  | SUB_ENQUEUE
  | SUB_DEQUEUE
  | SUB_RECEIVE_MESSAGE
  | SUB_RECEIVE_STATUS
  | CHAN_PUBLISH
  | CHAN_DELETE
deriving DecidableEq, Repr

/-- The text `channel_publish`. -/
def evt_chan_publish : List Char :=
  ['c', 'h', 'a', 'n', 'n', 'e', 'l', '_', 'p', 'u', 'b', 'l', 'i', 's', 'h']

/-- The text `channel_delete`. -/
def evt_chan_delete : List Char :=
  ['c', 'h', 'a', 'n', 'n', 'e', 'l', '_', 'd', 'e', 'l', 'e', 't', 'e']

/-- The name the `switch(event_type)` stores in `ctx->channel_event_name`. -/
def channel_event_name : channel_event_type_t → List Char
  | .SUB_ENQUEUE =>
    ['s', 'u', 'b', 's', 'c', 'r', 'i', 'b', 'e', 'r', '_', 'e', 'n', 'q', 'u', 'e', 'u', 'e']
  | .SUB_DEQUEUE =>
    ['s', 'u', 'b', 's', 'c', 'r', 'i', 'b', 'e', 'r', '_', 'd', 'e', 'q', 'u', 'e', 'u', 'e']
  | .SUB_RECEIVE_MESSAGE =>
    ['s', 'u', 'b', 's', 'c', 'r', 'i', 'b', 'e', 'r', '_', 'r', 'e', 'c', 'e', 'i', 'v', 'e',
      '_', 'm', 'e', 's', 's', 'a', 'g', 'e']
  | .SUB_RECEIVE_STATUS =>
    ['s', 'u', 'b', 's', 'c', 'r', 'i', 'b', 'e', 'r', '_', 'r', 'e', 'c', 'e', 'i', 'v', 'e',
      '_', 's', 't', 'a', 't', 'u', 's']
  | .CHAN_PUBLISH => evt_chan_publish
  | .CHAN_DELETE => evt_chan_delete

/-- The call `evcf->storage_engine->publish(id, &msg, evcf, NULL, NULL)` that emits a
meta event: the channel ID, the event name held by the context, the body and time of
the message, and the configuration `*evcf` it is published with. -/
structure event_publish_t where
  id : List Char
  name : List Char
  body : List Char
  time : Int
  evcf : nchan_loc_conf_t
deriving DecidableEq, Repr

/-- What `nchan_maybe_send_channel_event_message` leaves: the return code, the request
context, the static `evcf` (`none`: NULL; otherwise the content of `evcf_data`) and the
event published, if any. -/
structure event_result_t where
  rc : Int
  ctx : Option nchan_request_ctx_t
  evcf : Option nchan_loc_conf_t
  published : Option event_publish_t
deriving DecidableEq, Repr

/-- `nchan_maybe_send_channel_event_message(r, event_type)` for the location `cf` and
the request context `ctx`. `evcf` is the static pointer of the function as earlier
calls left it, `palloc` tells whether `ngx_palloc` succeeds and `now` is the second
`ngx_gettimeofday` reports. The storage engine of a location is taken not to be
NULL. -/
def nchan_maybe_send_channel_event_message (palloc : Bool) (now : Int) (cf : nchan_loc_conf_t)
    (ctx : Option nchan_request_ctx_t) (event_type : channel_event_type_t)
    (evcf : Option nchan_loc_conf_t) : Except nchan_abort event_result_t :=
  match cf.channel_events_channel_id with
  | none => .ok ⟨NGX_OK, ctx, evcf, none⟩
  | some cv =>
    match ctx with
    | none => .error .fault
    | some c =>
      let c := { c with channel_event_name := some (channel_event_name event_type) }
      let tmpid := ngx_http_complex_value cv
      if ¬ palloc then .ok ⟨NGX_ERROR, some c, evcf, none⟩
      else
        let id := ['m', 'e', 't', 'a'] ++ '/' :: tmpid
        match cf.channel_event_string with
        | none => .error .fault
        | some es =>
          let evstr := ngx_http_complex_value es
          -- if(evcf == NULL) { evcf = &evcf_data; ngx_memzero(evcf, sizeof(*evcf)); ... }
          let d : nchan_loc_conf_t :=
            match evcf with
            | none =>
              { buffer_timeout := 10, max_messages := NGX_MAX_INT_T_VALUE,
                subscriber_start_at_oldest_message := false, channel_timeout := 30 }
            | some d => d
          let d := { d with storage_engine := cf.storage_engine, use_redis := cf.use_redis }
          .ok ⟨NGX_OK, some c, some d, some ⟨id, channel_event_name event_type, evstr, now, d⟩⟩

/-- One call of `nchan_maybe_send_channel_event_message`: its inputs other than the
static `evcf`. -/
structure event_call_t where
  palloc : Bool
  now : Int
  cf : nchan_loc_conf_t
  ctx : Option nchan_request_ctx_t
  event_type : channel_event_type_t
deriving DecidableEq, Repr

/-- The static `evcf` after a sequence of calls of
`nchan_maybe_send_channel_event_message` that all return. -/
def event_calls : List event_call_t → Option nchan_loc_conf_t →
    Except nchan_abort (Option nchan_loc_conf_t)
  | [], evcf => .ok evcf
  | k :: rest, evcf =>
    match nchan_maybe_send_channel_event_message k.palloc k.now k.cf k.ctx k.event_type evcf with
    | .error e => .error e
    | .ok res => event_calls rest res.evcf

/-! ## Publisher: `publish_callback`, `nchan_publisher_body_authorize_handler` -/

/-- The nginx status code `NGX_HTTP_OK`. -/
def NGX_HTTP_OK : Int := 200

/-- The nginx status code `NGX_HTTP_CREATED`. -/
def NGX_HTTP_CREATED : Int := 201

/-- The nginx status code `NGX_HTTP_ACCEPTED`. -/
def NGX_HTTP_ACCEPTED : Int := 202

/-- The text `CREATED_LINE`, "201 Created". -/
def CREATED_LINE : List Char := ['2', '0', '1', ' ', 'C', 'r', 'e', 'a', 't', 'e', 'd']

/-- The text `ACCEPTED_LINE`, "202 Accepted". -/
def ACCEPTED_LINE : List Char := ['2', '0', '2', ' ', 'A', 'c', 'c', 'e', 'p', 't', 'e', 'd']

/-- Modelled from the spec: `nchan_channel_t` is declared in a header that is not part
of the sources; these are the fields `nchan_response_channel_ptr_info` reads. -/
structure nchan_channel_t where
  subscribers : Nat
  last_seen : Int
  messages : Nat
  last_published_msg_id : nchan_msg_id_t
deriving DecidableEq, Repr

/-- The argument `status` of `publish_callback`: one of the two constants
`NCHAN_MESSAGE_QUEUED` and `NCHAN_MESSAGE_RECEIVED`, which are defined in a header that
is not part of the sources, or any other number (among them `NGX_ERROR` and
`NGX_HTTP_INTERNAL_SERVER_ERROR`). -/
inductive publish_status_t where
  | NCHAN_MESSAGE_QUEUED
  | NCHAN_MESSAGE_RECEIVED
  | other (status : Int)
deriving DecidableEq, Repr

/-- The message `nchan_publisher_body_handler_continued` hands to the storage engine:
its ID and its body. -/
structure publish_msg_t where
  id : nchan_msg_id_t
  buf : Option ngx_buf_t
deriving DecidableEq, Repr

/-- What the publisher functions do to the request, in order: the channel information
sent by `nchan_channel_info` after `r->headers_out.status` and, when `some`, the status
line have been set to the given values; a response sent by `nchan_respond_status`;
`ngx_http_finalize_request(r, rc)`; a meta event published; and the calls
`find_channel`, `publish` and `delete_channel` of the storage engine. -/
inductive publisher_event_t where
  | channel_info (status : Int) (status_line : Option (List Char))
  | respond (response : nchan_response_t)
  | finalize (rc : Int)
  | event_publish (e : event_publish_t)
  | find_channel
  | publish (msg : publish_msg_t)
  | delete_channel
deriving DecidableEq, Repr

/-- `nchan_response_channel_ptr_info(channel, r, status_code)`: the return code and what
it does to the request. -/
def nchan_response_channel_ptr_info (channel : Option nchan_channel_t) (status_code : Int) :
    Int × List publisher_event_t :=
  match channel with
  | some _ =>
    let status := if status_code = 0 then NGX_HTTP_OK else status_code
    let status_line :=
      if status_code = NGX_HTTP_CREATED then some CREATED_LINE
      else if status_code = NGX_HTTP_ACCEPTED then some ACCEPTED_LINE
      else none
    (NGX_OK, [.channel_info status status_line])
  | none =>
    -- 404!
    (NGX_OK, [.respond (.status NGX_HTTP_NOT_FOUND)])

/-- What a publisher function leaves: the return code, the request context, the static
`evcf` of `nchan_maybe_send_channel_event_message`, and what was done to the
request. -/
structure publisher_result_t where
  rc : Int
  ctx : Option nchan_request_ctx_t
  evcf : Option nchan_loc_conf_t
  events : List publisher_event_t
deriving DecidableEq, Repr

/-- The events of a call of `nchan_maybe_send_channel_event_message`. -/
def event_published (res : event_result_t) : List publisher_event_t :=
  match res.published with
  | some e => [.event_publish e]
  | none => []

/-- `publish_callback(status, rptr, r)`: `ch` is the channel `rptr` points to (`none`:
NULL); `palloc`, `now` and `evcf` are as in
`nchan_maybe_send_channel_event_message`. -/
def publish_callback (palloc : Bool) (now : Int) (cf : nchan_loc_conf_t)
    (status : publish_status_t) (ch : Option nchan_channel_t)
    (ctx : Option nchan_request_ctx_t) (evcf : Option nchan_loc_conf_t) :
    Except nchan_abort publisher_result_t :=
  match ctx with
  | none => .error .fault
  | some c =>
    let empty_msgid := NCHAN_ZERO_MSGID
    let published (status_code : Int) : Except nchan_abort publisher_result_t :=
      let c := { c with prev_msg_id := c.msg_id }
      let c := { c with
        msg_id := match ch with
          | some ch => ch.last_published_msg_id
          | none => empty_msgid }
      match nchan_maybe_send_channel_event_message palloc now cf (some c) .CHAN_PUBLISH evcf with
      | .error e => .error e
      | .ok ev =>
        let info := nchan_response_channel_ptr_info ch status_code
        .ok ⟨NGX_OK, ev.ctx, ev.evcf, event_published ev ++ info.2 ++ [.finalize info.1]⟩
    match status with
    | .NCHAN_MESSAGE_QUEUED => published NGX_HTTP_ACCEPTED
    | .NCHAN_MESSAGE_RECEIVED => published NGX_HTTP_CREATED
    | .other _ =>
      let c := { c with prev_msg_id := empty_msgid, msg_id := empty_msgid }
      .ok ⟨NGX_ERROR, some c, evcf, [.finalize (NGX_HTTP_INTERNAL_SERVER_ERROR : Int)]⟩

/-- The parts of a publisher request that `nchan_publisher_body_handler_continued`
reads: the method, whether `ngx_pcalloc` returns a message, `content_length_n`, the
chain of the body (`none`: NULL), whether the temporary buffers can be allocated, and
the second `ngx_gettimeofday` reports. -/
structure publisher_request_t where
  method : Nat := NGX_HTTP_POST
  msg_alloc : Bool := true
  content_length_n : Int := 0
  bufs : Option (List ngx_buf_t) := none
  buf_alloc : Bool := true
  now : Int := 0
  palloc : Bool := true
deriving DecidableEq, Repr

/-- `nchan_publisher_body_handler_continued(r, channel_id, cf)`. -/
def nchan_publisher_body_handler_continued (r : publisher_request_t) (cf : nchan_loc_conf_t)
    (ctx : Option nchan_request_ctx_t) (evcf : Option nchan_loc_conf_t) :
    Except nchan_abort publisher_result_t :=
  if r.method = NGX_HTTP_GET then .ok ⟨NGX_OK, ctx, evcf, [.find_channel]⟩
  else if r.method = NGX_HTTP_PUT ∨ r.method = NGX_HTTP_POST then
    -- msg = ngx_pcalloc(...); msg->shared = 0;
    if ¬ r.msg_alloc then .error .fault
    else
      let body : Except nchan_abort (Option (Option ngx_buf_t)) :=
        if r.content_length_n = -1 ∨ r.content_length_n = 0 then
          .ok (some (if r.buf_alloc then some ⟨false, [], false⟩ else none))
        else
          match r.bufs with
          | some bufs =>
            match nchan_request_body_to_single_buffer r.buf_alloc r.content_length_n bufs with
            | .error e => .error e
            | .ok b => .ok (some b)
          | none => .ok none
      match body with
      | .error e => .error e
      | .ok none =>
        .ok ⟨NGX_OK, ctx, evcf, [.finalize (NGX_HTTP_INTERNAL_SERVER_ERROR : Int)]⟩
      | .ok (some buf) =>
        .ok ⟨NGX_OK, ctx, evcf, [.publish ⟨⟨r.now, .fixed [0, 0, 0, 0], 0, 1⟩, buf⟩]⟩
  else if r.method = NGX_HTTP_DELETE then
    match nchan_maybe_send_channel_event_message r.palloc r.now cf ctx .CHAN_DELETE evcf with
    | .error e => .error e
    | .ok ev => .ok ⟨NGX_OK, ev.ctx, ev.evcf, .delete_channel :: event_published ev⟩
  else .ok ⟨NGX_OK, ctx, evcf, [.respond (.status NGX_HTTP_FORBIDDEN)]⟩

/-- `nchan_publisher_body_authorize_handler(r, data, rc)`: `rc` is the result of the
authorization sub-request and `code` its `r->headers_out.status`; the other
arguments are those of `nchan_publisher_body_handler_continued` for the main
request. -/
def nchan_publisher_body_authorize_handler (rc code : Int) (r : publisher_request_t)
    (cf : nchan_loc_conf_t) (ctx : Option nchan_request_ctx_t)
    (evcf : Option nchan_loc_conf_t) : Except nchan_abort publisher_result_t :=
  if rc = NGX_OK then
    if code ≥ 200 ∧ code < 299 then
      -- authorized. proceed as planned
      match nchan_publisher_body_handler_continued r cf ctx evcf with
      | .error e => .error e
      | .ok res => .ok { res with rc := NGX_OK }
    else .ok ⟨NGX_OK, ctx, evcf, [.finalize (NGX_HTTP_FORBIDDEN : Int)]⟩
  else .ok ⟨NGX_OK, ctx, evcf, [.finalize (NGX_HTTP_INTERNAL_SERVER_ERROR : Int)]⟩

/-! ## Values used in the statements about events and publishing -/

/-- The fields of the broadcast-event configuration other than `storage_engine` and
`use_redis` are the same in `d` and `e`. -/
def evcf_frame (d e : nchan_loc_conf_t) : Prop :=
  { e with storage_engine := d.storage_engine, use_redis := d.use_redis } = d

instance evcf_frame_decidable (d e : nchan_loc_conf_t) : Decidable (evcf_frame d e) := by
  unfold evcf_frame
  infer_instance

/-- The events by which `publish_callback` answers the request, for a status and a
channel. -/
def publish_response (status : publish_status_t) (ch : Option nchan_channel_t) :
    List publisher_event_t :=
  match status, ch with
  | .NCHAN_MESSAGE_RECEIVED, some _ =>
    [.channel_info NGX_HTTP_CREATED (some CREATED_LINE), .finalize NGX_OK]
  | .NCHAN_MESSAGE_QUEUED, some _ =>
    [.channel_info NGX_HTTP_ACCEPTED (some ACCEPTED_LINE), .finalize NGX_OK]
  | .NCHAN_MESSAGE_RECEIVED, none => [.respond (.status NGX_HTTP_NOT_FOUND), .finalize NGX_OK]
  | .NCHAN_MESSAGE_QUEUED, none => [.respond (.status NGX_HTTP_NOT_FOUND), .finalize NGX_OK]
  | .other _, _ => [.finalize (NGX_HTTP_INTERNAL_SERVER_ERROR : Int)]

/-- A location with the meta channel `ev` for channel events, stored with engine 1. -/
def sample_conf_events : nchan_loc_conf_t :=
  { channel_events_channel_id := some (.literal ['e', 'v']),
    channel_event_string := some (.script ['x']), storage_engine := 1 }

/-- A location with the meta channel `ev` for channel events, stored with engine 2 in
Redis. -/
def sample_conf_events_redis : nchan_loc_conf_t :=
  { channel_events_channel_id := some (.literal ['e', 'v']),
    channel_event_string := some (.script ['x']), storage_engine := 2, use_redis := true }

/-- A channel with one message and no subscriber. -/
def sample_channel : nchan_channel_t := ⟨0, 0, 1, ⟨5, .fixed [0, 0, 0, 0], 0, 1⟩⟩

/-! ## Further sample inputs: split IDs and entity tags -/

/-- A location with the group `g`, the split delimiter `,` and one template for the
channel ID, whose value for the request is `n` commas. -/
def sample_conf_commas (n : Nat) : nchan_loc_conf_t :=
  { channel_group := ['g'], max_channel_id_length := 1024,
    sub_chid := [.script (List.replicate n ',')], channel_id_split_delimiter := [','] }

/-- A request with an `If-Modified-Since` line and the entity tag `1,[2`. -/
def sample_request_etag_active : msgid_request_t :=
  ⟨[⟨NCHAN_HEADER_IF_NONE_MATCH, ['1', ',', '[', '2']⟩], some ['x']⟩

/-! ## Channel IDs: the calls of the split loop -/

/-- The calls `nchan_strsplit(&cur, delim, last)` that the loop
`while ((cur_last = nchan_strsplit(&cur, delim, last)) != NULL)` of
`nchan_process_multi_channel_id` makes on the string `s` from the cursor `cur`; the body
of the loop does not write `cur`. The result is the number of calls made, the last of
which is the one that returns NULL. `none`: none of the first `fuel` calls returns
NULL. -/
def strsplit_calls (s delim : List Char) :
    (fuel : Nat) → (cur : Nat) → Option (Except nchan_abort Nat)
  | 0, _ => none
  | k + 1, cur =>
    match nchan_strsplit s cur delim with
    | .error e => some (.error e)
    | .ok (none, _) => some (.ok 1)
    | .ok (some _, cur_next) =>
      match strsplit_calls s delim k cur_next with
      | none => none
      | some (.error e) => some (.error e)
      | some (.ok n) => some (.ok (n + 1))

/-! ## Further sample inputs: cursors and previous IDs -/

/-- A three-tag previous ID at second 1 with tags `[5, -1, 7]`. -/
def sample_prev_three : nchan_msg_id_t := ⟨1, .fixed [5, -1, 7, 0], 0, 3⟩

/-- A three-tag cursor at second 1 with tags `[5, 0, 3]`. -/
def sample_cursor_three : nchan_msg_id_t := ⟨1, .fixed [5, 0, 3, 0], 0, 3⟩

/-- A subscriber whose cursor is `(2, [0, -1])`, the ID of `sample_msg`. -/
def sample_sub_delivered : subscriber_t := ⟨sample_next_second⟩

/-! ## Channel IDs: the number of sub-IDs of a template -/

/-- The number of sub-IDs the first loop of `nchan_process_multi_channel_id` stores for
the evaluated ID `s`: one when the location has no split delimiter, and otherwise one
for each call of `nchan_strsplit` in the split loop that returns a pointer. -/
def sub_id_count (cf : nchan_loc_conf_t) (s : List Char) : Nat :=
  if cf.channel_id_split_delimiter.length > 0 then
    match strsplit_calls s cf.channel_id_split_delimiter (s.length + 1) 0 with
    | some (.ok n) => n - 1
    | _ => 0
  else 1

/-- The number of sub-IDs of the templates `cvs` together. -/
def sub_id_total (cf : nchan_loc_conf_t) (cvs : List ngx_http_complex_value_t) : Nat :=
  (cvs.map (fun cv => sub_id_count cf (ngx_http_complex_value cv))).sum

/-- A location whose `max_channel_id_length` is 2^32 + 1, with one template for the
channel ID, of value `ab` for the request. -/
def sample_conf_wide : nchan_loc_conf_t :=
  { channel_group := ['g'], max_channel_id_length := 4294967297,
    sub_chid := [.script ['a', 'b']] }

/-- A location without templates for the channel ID. -/
def sample_conf_legacy : nchan_loc_conf_t :=
  { channel_group := ['g'], max_channel_id_length := 10 }

/-! ## Lemmas: reading tags -/

theorem tag_read_nat (a : List Int) (k : Nat) (h : k < a.length) :
    tag_read (some a) (k : Int) = .ok (a[k]) := by
  simp [tag_read, List.getElem?_eq_getElem h]

theorem tag_read_ofNat_zero (a : List Int) (h : 0 < a.length) :
    tag_read (some a) 0 = .ok (a[0]) := by
  simpa using tag_read_nat a 0 h

theorem msgid_wf_tags (id : nchan_msg_id_t) (h : msgid_wf id = true) :
    ∃ a, msgid_tags id = some a ∧ id.tagcount ≤ a.length ∧ 0 < a.length := by
  unfold msgid_wf at h
  unfold msgid_tags
  cases ht : id.tag with
  | fixed a =>
    simp only [ht, Bool.and_eq_true, decide_eq_true_eq] at h
    refine ⟨a, by simp [h.1], by omega, by simp [h.2, NCHAN_MULTITAG_MAX]⟩
  | allocd p =>
    cases p with
    | none => simp [ht] at h
    | some b =>
      simp only [ht, Bool.and_eq_true, decide_eq_true_eq] at h
      refine ⟨b, by simp [Nat.not_le.mpr h.1], h.2, by omega⟩

theorem msgid_tag_of_tags (id : nchan_msg_id_t) (a : List Int) (h : msgid_tags id = some a)
    (i : Nat) : msgid_tag id i = a[i]? := by
  simp [msgid_tag, h]

theorem msgid_slots_tags (id : nchan_msg_id_t) (n : Nat) (hn : 0 < n) (h : n ≤ msgid_slots id) :
    ∃ a, msgid_tags id = some a ∧ n ≤ a.length := by
  unfold msgid_slots at h
  cases ht : msgid_tags id with
  | none => simp [ht] at h; omega
  | some a => exact ⟨a, rfl, by simpa [ht] using h⟩

/-- The equal-times multi-tag loop on arrays that cover its range. -/
theorem verify_match_spec (a1 a2 : List Int) :
    ∀ (fuel i : Nat), i + fuel ≤ a1.length → i + fuel ≤ a2.length →
      (verify_match (some a1) (some a2) fuel i = .ok NGX_OK ∨
        verify_match (some a1) (some a2) fuel i = .ok NGX_ERROR) ∧
      (verify_match (some a1) (some a2) fuel i = .ok NGX_OK ↔
        ∀ k, i ≤ k → k < i + fuel → a2[k]? ≠ some (-1) → a1[k]? = a2[k]?) := by
  intro fuel
  induction fuel with
  | zero =>
    intro i _ _
    refine ⟨Or.inl (by simp [verify_match]), ?_⟩
    simp only [verify_match, true_iff]
    intro k h1 h2; omega
  | succ n ih =>
    intro i h1 h2
    have hi1 : i < a1.length := by omega
    have hi2 : i < a2.length := by omega
    have ih' := ih (i + 1) (by omega) (by omega)
    have e1 := tag_read_nat a1 i hi1
    have e2 := tag_read_nat a2 i hi2
    simp only [verify_match, e1, e2, bind, Except.bind]
    by_cases c2 : a2[i] = -1
    · simp only [c2, ne_eq, not_true_eq_false, if_false]
      refine ⟨ih'.1, ih'.2.trans ⟨?_, ?_⟩⟩
      · intro h k hk1 hk2 hk3
        rcases Nat.eq_or_lt_of_le hk1 with e | l
        · subst e; exfalso; apply hk3; simp [List.getElem?_eq_getElem hi2, c2]
        · exact h k l (by omega) hk3
      · intro h k hk1 hk2 hk3
        exact h k (by omega) (by omega) hk3
    · simp only [ne_eq, c2, not_false_eq_true, if_true]
      by_cases c1 : a1[i] = a2[i]
      · simp only [c1, not_true_eq_false, if_false]
        refine ⟨ih'.1, ih'.2.trans ⟨?_, ?_⟩⟩
        · intro h k hk1 hk2 hk3
          rcases Nat.eq_or_lt_of_le hk1 with e | l
          · subst e; simp [List.getElem?_eq_getElem hi2, List.getElem?_eq_getElem hi1, c1]
          · exact h k l (by omega) hk3
        · intro h k hk1 hk2 hk3
          exact h k (by omega) (by omega) hk3
      · simp only [c1, not_false_eq_true, if_true]
        refine ⟨Or.inr trivial, ?_⟩
        constructor
        · intro h; exact absurd h (by simp [NGX_OK, NGX_ERROR])
        · intro h
          exfalso
          have := h i (le_refl _) (by omega)
            (by simp [List.getElem?_eq_getElem hi2, c2])
          simp [List.getElem?_eq_getElem hi2, List.getElem?_eq_getElem hi1] at this
          exact c1 this

theorem verify_scan_step (a : List Int) (n j : Nat) (i : Int) (hj : j < a.length) :
    verify_scan (some a) (n + 1) j i =
      if a[j] ≠ -1 then (if i ≠ -1 then .ok none else verify_scan (some a) n (j + 1) j)
      else verify_scan (some a) n (j + 1) i := by
  simp only [verify_scan, tag_read_nat a j hj, bind, Except.bind]

theorem verify_scan_all_unset (a : List Int) :
    ∀ (fuel j : Nat) (i : Int), j + fuel ≤ a.length →
      (∀ k, j ≤ k → k < j + fuel → a[k]? = some (-1)) →
      verify_scan (some a) fuel j i = .ok (some i) := by
  intro fuel
  induction fuel with
  | zero => intro j i _ _; simp [verify_scan]
  | succ n ih =>
    intro j i hlen hall
    have hj : j < a.length := by omega
    have hv : a[j] = -1 := by
      have := hall j (le_refl _) (by omega)
      simpa [List.getElem?_eq_getElem hj] using this
    rw [verify_scan_step a n j i hj]
    simp only [hv, ne_eq, not_true_eq_false, if_false]
    exact ih (j + 1) i (by omega) (fun k h1 h2 => hall k (by omega) (by omega))

theorem verify_scan_second (a : List Int) :
    ∀ (fuel j : Nat) (i : Int), j + fuel ≤ a.length → i ≠ -1 →
      (∃ k, j ≤ k ∧ k < j + fuel ∧ a[k]? ≠ some (-1)) →
      verify_scan (some a) fuel j i = .ok none := by
  intro fuel
  induction fuel with
  | zero => intro j i _ _ h; obtain ⟨k, h1, h2, _⟩ := h; omega
  | succ n ih =>
    intro j i hlen hi hex
    have hj : j < a.length := by omega
    rw [verify_scan_step a n j i hj]
    by_cases hv : a[j] = -1
    · simp only [hv, ne_eq, not_true_eq_false, if_false]
      obtain ⟨k, h1, h2, h3⟩ := hex
      refine ih (j + 1) i (by omega) hi ⟨k, ?_, by omega, h3⟩
      rcases Nat.eq_or_lt_of_le h1 with e | l
      · subst e; exfalso; apply h3; simp [List.getElem?_eq_getElem hj, hv]
      · exact l
    · simp [hv, hi]

theorem verify_scan_unique (a : List Int) :
    ∀ (fuel j p : Nat), j + fuel ≤ a.length → j ≤ p → p < j + fuel →
      a[p]? ≠ some (-1) →
      (∀ k, j ≤ k → k < j + fuel → k ≠ p → a[k]? = some (-1)) →
      verify_scan (some a) fuel j (-1) = .ok (some (p : Int)) := by
  intro fuel
  induction fuel with
  | zero => intro j p _ h1 h2; omega
  | succ n ih =>
    intro j p hlen h1 h2 hp hall
    have hj : j < a.length := by omega
    rw [verify_scan_step a n j (-1) hj]
    by_cases e : j = p
    · subst e
      have hv : a[j] ≠ -1 := by
        simpa [List.getElem?_eq_getElem hj] using hp
      simp only [ne_eq, hv, not_false_eq_true, if_true, not_true_eq_false, if_false]
      exact verify_scan_all_unset a n (j + 1) j (by omega)
        (fun k k1 k2 => hall k (by omega) (by omega) (by omega))
    · have hv : a[j] = -1 := by
        have := hall j (le_refl _) (by omega) e
        simpa [List.getElem?_eq_getElem hj] using this
      simp only [hv, ne_eq, not_true_eq_false, if_false]
      exact ih (j + 1) p (by omega) (by omega) (by omega) hp
        (fun k k1 k2 k3 => hall k (by omega) (by omega) k3)

theorem verify_scan_two (a : List Int) :
    ∀ (fuel j : Nat) (i : Int) (p q : Nat), j + fuel ≤ a.length → j ≤ p → p < q →
      q < j + fuel → a[p]? ≠ some (-1) → a[q]? ≠ some (-1) →
      verify_scan (some a) fuel j i = .ok none := by
  intro fuel
  induction fuel with
  | zero => intro j i p q _ h1 h2 h3; omega
  | succ n ih =>
    intro j i p q hlen h1 h2 h3 hp hq
    have hj : j < a.length := by omega
    rw [verify_scan_step a n j i hj]
    by_cases hv : a[j] = -1
    · simp only [hv, ne_eq, not_true_eq_false, if_false]
      have : j ≠ p := by
        intro e; subst e; apply hp; simp [List.getElem?_eq_getElem hj, hv]
      exact ih (j + 1) i p q (by omega) (by omega) h2 (by omega) hp hq
    · simp only [ne_eq, hv, not_false_eq_true, if_true]
      by_cases hi : i = -1
      · simp only [hi, not_true_eq_false, if_false]
        exact verify_scan_second a n (j + 1) j (by omega) (by omega)
          ⟨q, by omega, by omega, hq⟩
      · simp [hi]


theorem verify_msg_id_mismatch_eq (last prev msgid : nchan_msg_id_t)
    (hpos1 : 0 < last.time) (hpos2 : 0 < prev.time) (hne : last.time ≠ prev.time)
    (hm : 1 < prev.tagcount) :
    verify_msg_id last prev msgid =
      match verify_scan (msgid_tags prev) prev.tagcount 0 (-1) with
      | .error e => .error e
      | .ok none => .ok NGX_ERROR
      | .ok (some i) =>
        match tag_read (msgid_tags msgid) i with
        | .error e => .error e
        | .ok t => if t = 0 then .ok NGX_OK else .ok NGX_ERROR := by
  simp only [verify_msg_id, hpos1, hpos2, hne, hm, and_self, if_true, ne_eq, not_false_eq_true,
    bind, Except.bind]
  cases verify_scan (msgid_tags prev) prev.tagcount 0 (-1) with
  | error e => rfl
  | ok r =>
    cases r with
    | none => rfl
    | some i =>
      simp only
      cases tag_read (msgid_tags msgid) i with
      | error e => rfl
      | ok t => by_cases h : t = 0 <;> simp [h]


/-- The equal-times branch for a cursor whose tag count is not 1. -/
theorem verify_multi_spec (last prev msgid : nchan_msg_id_t)
    (hwf : msgid_wf last = true) (hne : last.tagcount ≠ 1)
    (hslots : last.tagcount ≤ msgid_slots prev)
    (htime : last.time = prev.time) (hpos : 0 < last.time) :
    (verify_msg_id last prev msgid = .ok NGX_OK ∨
      verify_msg_id last prev msgid = .ok NGX_ERROR) ∧
    (verify_msg_id last prev msgid = .ok NGX_OK ↔
      ∀ i, i < last.tagcount → msgid_tag prev i ≠ some (-1) →
        msgid_tag last i = msgid_tag prev i) := by
  obtain ⟨a1, ha1, hl1, -⟩ := msgid_wf_tags last hwf
  have hpos2 : 0 < prev.time := htime ▸ hpos
  by_cases hz : last.tagcount = 0
  · have hv : verify_msg_id last prev msgid = .ok NGX_OK := by
      simp [verify_msg_id, hpos, hpos2, htime, hz, verify_match]
    rw [hv]
    exact ⟨Or.inl rfl, fun _ i hi => absurd hi (by omega), fun _ => rfl⟩
  obtain ⟨a2, ha2, hl2⟩ := msgid_slots_tags prev last.tagcount (by omega) hslots
  have key := verify_match_spec a1 a2 last.tagcount 0 (by omega) (by omega)
  have hv : verify_msg_id last prev msgid = verify_match (some a1) (some a2) last.tagcount 0 := by
    simp [verify_msg_id, hpos, hpos2, htime, hne, ha1, ha2]
  rw [hv]
  refine ⟨key.1, key.2.trans ?_⟩
  simp only [msgid_tag_of_tags last a1 ha1, msgid_tag_of_tags prev a2 ha2]
  constructor
  · intro h i hi; exact h i (Nat.zero_le _) (by omega)
  · intro h k _ hk; exact h k (by omega)

/-- The equal-times branch for a single-tag cursor. -/
theorem verify_single_spec (last prev msgid : nchan_msg_id_t)
    (hwf1 : msgid_wf last = true) (hwf2 : msgid_wf prev = true)
    (hsingle : last.tagcount = 1)
    (htime : last.time = prev.time) (hpos : 0 < last.time) :
    (verify_msg_id last prev msgid = .ok NGX_OK ∨
      verify_msg_id last prev msgid = .ok NGX_ERROR) ∧
    (verify_msg_id last prev msgid = .ok NGX_OK ↔ msgid_tag last 0 = msgid_tag prev 0) := by
  obtain ⟨a1, ha1, -, hl1⟩ := msgid_wf_tags last hwf1
  obtain ⟨a2, ha2, -, hl2⟩ := msgid_wf_tags prev hwf2
  have hpos2 : 0 < prev.time := htime ▸ hpos
  have e1 := tag_read_ofNat_zero a1 hl1
  have e2 := tag_read_ofNat_zero a2 hl2
  have hv : verify_msg_id last prev msgid =
      .ok (if a1[0] ≠ a2[0] then NGX_ERROR else NGX_OK) := by
    simp only [verify_msg_id, hpos, hpos2, htime, hsingle, ha1, ha2, e1, e2, bind, Except.bind]
    simp
    split <;> rfl
  rw [hv, msgid_tag_of_tags last a1 ha1, msgid_tag_of_tags prev a2 ha2,
    List.getElem?_eq_getElem hl1, List.getElem?_eq_getElem hl2]
  by_cases c : a1[0] = a2[0]
  · simp [c]
  · simp [c, NGX_OK, NGX_ERROR]


/-- The differing-times branch, when some tag of `prev` is set or `prev` is single-tag. -/
theorem verify_mismatch_spec (last prev msgid : nchan_msg_id_t)
    (hwf : msgid_wf prev = true) (hslots : prev.tagcount ≤ msgid_slots msgid)
    (hpos1 : 0 < last.time) (hpos2 : 0 < prev.time) (hne : prev.time ≠ last.time)
    (hset : 1 < prev.tagcount → ∃ i, i < prev.tagcount ∧ msgid_tag prev i ≠ some (-1)) :
    (verify_msg_id last prev msgid = .ok NGX_OK ∨
      verify_msg_id last prev msgid = .ok NGX_ERROR) ∧
    (verify_msg_id last prev msgid = .ok NGX_OK ↔
      1 < prev.tagcount ∧ ∃ i, i < prev.tagcount ∧ msgid_tag prev i ≠ some (-1) ∧
        (∀ j, j < prev.tagcount → msgid_tag prev j ≠ some (-1) → j = i) ∧
        msgid_tag msgid i = some 0) := by
  have hne' : last.time ≠ prev.time := fun e => hne e.symm
  have hcodes : (Except.ok NGX_ERROR : Except nchan_abort Int) ≠ .ok NGX_OK := by
    simp [NGX_OK, NGX_ERROR]
  by_cases hm : 1 < prev.tagcount
  · obtain ⟨a2, ha2, hl2, -⟩ := msgid_wf_tags prev hwf
    obtain ⟨am, ham, hlm⟩ := msgid_slots_tags msgid prev.tagcount (by omega) hslots
    obtain ⟨p, hp1, hp2⟩ := hset hm
    simp only [msgid_tag_of_tags prev a2 ha2, msgid_tag_of_tags msgid am ham] at hp2 ⊢
    have hv := verify_msg_id_mismatch_eq last prev msgid hpos1 hpos2 hne' hm
    rw [ha2, ham] at hv
    by_cases hu : ∀ j, j < prev.tagcount → a2[j]? ≠ some (-1) → j = p
    · have hscan := verify_scan_unique a2 prev.tagcount 0 p (by omega) (Nat.zero_le _)
        (by omega) hp2 (fun k _ k2 k3 => by
          by_contra c
          exact k3 (hu k (by omega) c))
      have hpm : p < am.length := by omega
      rw [hscan] at hv
      simp only [tag_read_nat am p hpm] at hv
      by_cases h0 : am[p] = 0
      · rw [if_pos h0] at hv
        rw [hv]
        refine ⟨Or.inl rfl, fun _ => ⟨hm, p, hp1, hp2, hu, ?_⟩, fun _ => rfl⟩
        rw [List.getElem?_eq_getElem hpm, h0]
      · rw [if_neg h0] at hv
        rw [hv]
        refine ⟨Or.inr rfl, fun h => absurd h hcodes, ?_⟩
        rintro ⟨-, i, hi1, hi2, hi3, hi4⟩
        have : p = i := hi3 p hp1 hp2
        subst this
        rw [List.getElem?_eq_getElem hpm] at hi4
        exact absurd (Option.some.inj hi4) h0
    · have hu' : ∃ q, q < prev.tagcount ∧ a2[q]? ≠ some (-1) ∧ q ≠ p := by
        by_contra c
        apply hu
        intro j j1 j2
        by_contra c2
        exact c ⟨j, j1, j2, c2⟩
      obtain ⟨q, hq1, hq2, hq3⟩ := hu'
      have hscan : verify_scan (some a2) prev.tagcount 0 (-1) = .ok none := by
        rcases Nat.lt_or_gt_of_ne hq3 with l | l
        · exact verify_scan_two a2 prev.tagcount 0 (-1) q p (by omega) (Nat.zero_le _) l
            (by omega) hq2 hp2
        · exact verify_scan_two a2 prev.tagcount 0 (-1) p q (by omega) (Nat.zero_le _) l
            (by omega) hp2 hq2
      rw [hscan] at hv
      rw [hv]
      refine ⟨Or.inr rfl, fun h => absurd h hcodes, ?_⟩
      rintro ⟨-, i, hi1, hi2, hi3, -⟩
      have e1 : p = i := hi3 p hp1 hp2
      have e2 : q = i := hi3 q hq1 hq2
      exact absurd (e2.trans e1.symm) hq3
  · have hv : verify_msg_id last prev msgid = .ok NGX_ERROR := by
      simp [verify_msg_id, hpos1, hpos2, hne', hm]
    rw [hv]
    exact ⟨Or.inr rfl, fun h => absurd h hcodes, fun h => absurd h.1 hm⟩

/-! ## Lemmas: cursor update -/

/-- One iteration of the merge loop on arrays that have slot `i`. -/
theorem update_merge_step (ta : Nat) (n o : List Int) (k i : Nat)
    (hn : i < n.length) (ho : i < o.length) :
    update_merge ta (some n) (k + 1) i (some o) =
      if ta = i ∧ n[i] ≠ -1 ∧ o[i] ≠ -1 ∧ ¬ o[i] < n[i] then .error .assertion
      else update_merge ta (some n) k (i + 1)
        (some (if n[i] ≠ -1 then o.set i n[i] else o)) := by
  simp only [update_merge, tag_read_nat n i hn, tag_read_nat o i ho, tag_write, ho, bind,
    Except.bind, pure, Except.pure, throw, throwThe, MonadExceptOf.throw]
  by_cases h1 : ta = i <;> by_cases h2 : n[i] = -1 <;> by_cases h3 : o[i] = -1 <;>
    by_cases h4 : o[i] < n[i] <;> simp [h1, h2, h3, h4]

theorem update_merge_ok (ta : Nat) (n : List Int) :
    ∀ (fuel i : Nat) (o : List Int), i + fuel ≤ o.length → i + fuel ≤ n.length →
      (i ≤ ta → ta < i + fuel → ∀ v w, n[ta]? = some v → o[ta]? = some w →
        v ≠ -1 → w ≠ -1 → w < v) →
      ∃ r, update_merge ta (some n) fuel i (some o) = .ok (some r) ∧ r.length = o.length ∧
        ∀ k, r[k]? = if i ≤ k ∧ k < i + fuel ∧ n[k]? ≠ some (-1) then n[k]? else o[k]? := by
  intro fuel
  induction fuel with
  | zero =>
    intro i o _ _ _
    refine ⟨o, by simp [update_merge], rfl, fun k => ?_⟩
    rw [if_neg]; omega
  | succ m ih =>
    intro i o ho hn hgap
    have hi1 : i < n.length := by omega
    have hi2 : i < o.length := by omega
    rw [update_merge_step ta n o m i hi1 hi2]
    have hcond : ¬ (ta = i ∧ n[i] ≠ -1 ∧ o[i] ≠ -1 ∧ ¬ o[i] < n[i]) := by
      rintro ⟨e, c1, c2, c3⟩
      subst e
      exact c3 (hgap (le_refl _) (by omega) n[ta] o[ta]
        (List.getElem?_eq_getElem hi1) (List.getElem?_eq_getElem hi2) c1 c2)
    rw [if_neg hcond]
    have hlen : (if n[i] ≠ -1 then o.set i n[i] else o).length = o.length := by
      split <;> simp
    have hother : ∀ k, k ≠ i → (if n[i] ≠ -1 then o.set i n[i] else o)[k]? = o[k]? := by
      intro k hk
      split
      · exact List.getElem?_set_ne (Ne.symm hk)
      · rfl
    obtain ⟨r, hr1, hr2, hr3⟩ := ih (i + 1) (if n[i] ≠ -1 then o.set i n[i] else o)
      (by rw [hlen]; omega) (by omega) (by
        intro h1 h2 v w hv hw
        rw [hother ta (by omega)] at hw
        exact hgap (by omega) (by omega) v w hv hw)
    refine ⟨r, hr1, hr2.trans hlen, fun k => ?_⟩
    rw [hr3 k]
    by_cases hk : k = i
    · subst hk
      rw [if_neg (by omega)]
      by_cases c : n[k] = -1
      · rw [if_neg (by simp [c]), if_neg]
        rw [List.getElem?_eq_getElem hi1, c]; simp
      · rw [if_pos c, if_pos]
        · rw [List.getElem?_eq_getElem hi1]; simp [hi2]
        · refine ⟨le_refl _, by omega, ?_⟩
          rw [List.getElem?_eq_getElem hi1]; simpa using c
    · rw [hother k hk]
      by_cases c : i + 1 ≤ k ∧ k < i + 1 + m ∧ n[k]? ≠ some (-1)
      · rw [if_pos c, if_pos ⟨by omega, by omega, c.2.2⟩]
      · rw [if_neg c, if_neg]
        rintro ⟨c1, c2, c3⟩
        exact c ⟨by omega, by omega, c3⟩

theorem update_merge_fail (ta : Nat) (n : List Int) :
    ∀ (fuel i : Nat) (o : List Int), i + fuel ≤ o.length → i + fuel ≤ n.length →
      i ≤ ta → ta < i + fuel →
      ¬ (∀ v w, n[ta]? = some v → o[ta]? = some w → v ≠ -1 → w ≠ -1 → w < v) →
      update_merge ta (some n) fuel i (some o) = .error .assertion := by
  intro fuel
  induction fuel with
  | zero => intro i o _ _ h1 h2; omega
  | succ m ih =>
    intro i o ho hn h1 h2 hgap
    have hi1 : i < n.length := by omega
    have hi2 : i < o.length := by omega
    rw [update_merge_step ta n o m i hi1 hi2]
    by_cases e : ta = i
    · subst e
      rw [if_pos]
      refine ⟨rfl, ?_⟩
      by_contra c
      apply hgap
      intro v w hv hw hv1 hw1
      rw [List.getElem?_eq_getElem hi1] at hv
      rw [List.getElem?_eq_getElem hi2] at hw
      cases hv; cases hw
      by_contra c2
      exact c ⟨hv1, hw1, c2⟩
    · rw [if_neg (fun c => e c.1)]
      have hlen : (if n[i] ≠ -1 then o.set i n[i] else o).length = o.length := by
        split <;> simp
      have hother : (if n[i] ≠ -1 then o.set i n[i] else o)[ta]? = o[ta]? := by
        split
        · exact List.getElem?_set_ne (Ne.symm e)
        · rfl
      refine ih (i + 1) _ (by rw [hlen]; omega) (by omega) (by omega) (by omega) ?_
      intro c
      apply hgap
      intro v w hv hw
      rw [← hother] at hw
      exact c v w hv hw

theorem grow_fill_ok (rd : Nat → Except nchan_abort Int) (old_n : Nat)
    (hrd : ∀ i, i < old_n → ∃ v, rd i = .ok v) :
    ∀ (fuel i : Nat), ∃ blk, grow_fill rd old_n fuel i = .ok blk ∧ blk.length = fuel := by
  intro fuel
  induction fuel with
  | zero => intro i; exact ⟨[], rfl, rfl⟩
  | succ m ih =>
    intro i
    obtain ⟨rest, h1, h2⟩ := ih (i + 1)
    by_cases c : i < old_n
    · obtain ⟨v, hv⟩ := hrd i c
      exact ⟨v :: rest, by simp [grow_fill, c, hv, h1, bind, Except.bind], by simp [h2]⟩
    · exact ⟨-1 :: rest, by simp [grow_fill, c, h1, bind, Except.bind], by simp [h2]⟩

theorem msgid_wf_fixed (id : nchan_msg_id_t) (h : msgid_wf id = true)
    (hs : id.tagcount ≤ NCHAN_MULTITAG_MAX) :
    ∃ a, id.tag = .fixed a ∧ a.length = NCHAN_MULTITAG_MAX := by
  unfold msgid_wf at h
  cases ht : id.tag with
  | fixed a =>
    simp only [ht, Bool.and_eq_true, decide_eq_true_eq] at h
    exact ⟨a, rfl, h.2⟩
  | allocd p =>
    cases p with
    | none => simp [ht] at h
    | some b =>
      simp only [ht, Bool.and_eq_true, decide_eq_true_eq] at h
      omega

theorem msgid_wf_allocd (id : nchan_msg_id_t) (h : msgid_wf id = true)
    (hs : NCHAN_MULTITAG_MAX < id.tagcount) :
    ∃ b, id.tag = .allocd (some b) ∧ id.tagcount ≤ b.length := by
  unfold msgid_wf at h
  cases ht : id.tag with
  | fixed a =>
    simp only [ht, Bool.and_eq_true, decide_eq_true_eq] at h
    omega
  | allocd p =>
    cases p with
    | none => simp [ht] at h
    | some b =>
      simp only [ht, Bool.and_eq_true, decide_eq_true_eq] at h
      exact ⟨b, rfl, h.2⟩

/-- `nchan_copy_msg_id` with a NULL `largetags`, on a well-formed source and a
destination whose block, when its tag count calls for one, is large enough. -/
theorem nchan_copy_msg_id_ok (alloc : Option (List Int)) (dst src : nchan_msg_id_t)
    (hsrc : msgid_wf src = true)
    (hdst : NCHAN_MULTITAG_MAX < dst.tagcount →
      ∃ b, dst.tag = .allocd (some b) ∧ dst.tagcount ≤ b.length)
    (halloc : NCHAN_MULTITAG_MAX < src.tagcount → src.tagcount ≠ dst.tagcount → alloc ≠ none) :
    ∃ cur, nchan_copy_msg_id alloc dst src none = .ok (NGX_OK, cur) ∧
      cur.time = src.time ∧ cur.tagcount = src.tagcount ∧ cur.tagactive = src.tagactive ∧
      msgid_wf cur = true ∧ ∀ i, i < src.tagcount → msgid_tag cur i = msgid_tag src i := by
  by_cases hs : src.tagcount ≤ NCHAN_MULTITAG_MAX
  · -- the union is copied
    by_cases hfree : NCHAN_MULTITAG_MAX < dst.tagcount ∧ src.tagcount < dst.tagcount
    · obtain ⟨b, hb, -⟩ := hdst hfree.1
      refine ⟨⟨src.time, src.tag, src.tagactive, src.tagcount⟩, ?_, rfl, rfl, rfl, ?_, fun i _ => ?_⟩
      · simp [nchan_copy_msg_id, hfree, hb, hs, bind, Except.bind]
      · simpa [msgid_wf] using hsrc
      · simp [msgid_tag, msgid_tags]
    · refine ⟨⟨src.time, src.tag, src.tagactive, src.tagcount⟩, ?_, rfl, rfl, rfl, ?_, fun i _ => ?_⟩
      · simp [nchan_copy_msg_id, hfree, hs, bind, Except.bind]
      · simpa [msgid_wf] using hsrc
      · simp [msgid_tag, msgid_tags]
  · have hs' : NCHAN_MULTITAG_MAX < src.tagcount := Nat.lt_of_not_le hs
    obtain ⟨sb, hsb, hsl⟩ := msgid_wf_allocd src hsrc hs'
    have hfin : ∀ db : List Int, src.tagcount ≤ db.length →
        msgid_wf ⟨src.time, .allocd (some (sb.take src.tagcount ++ db.drop src.tagcount)),
          src.tagactive, src.tagcount⟩ = true ∧
        ∀ i, i < src.tagcount →
          msgid_tag ⟨src.time, .allocd (some (sb.take src.tagcount ++ db.drop src.tagcount)),
            src.tagactive, src.tagcount⟩ i = msgid_tag src i := by
      intro db hdb
      constructor
      · simp only [msgid_wf, Bool.and_eq_true, decide_eq_true_eq]
        refine ⟨hs', ?_⟩
        simp only [List.length_append, List.length_take, List.length_drop]
        omega
      · intro i hi
        simp only [msgid_tag, msgid_tags, hs, if_false, hsb]
        rw [List.getElem?_append_left (by simp; omega)]
        rw [List.getElem?_take_of_lt hi]
    by_cases hfree : NCHAN_MULTITAG_MAX < dst.tagcount ∧ src.tagcount < dst.tagcount
    · obtain ⟨b, hb, -⟩ := hdst hfree.1
      obtain ⟨w, hw⟩ := Option.ne_none_iff_exists'.mp (halloc hs' (by omega))
      obtain ⟨h1, h2⟩ := hfin (List.replicate src.tagcount 0) (by simp)
      refine ⟨⟨src.time, .allocd (some (sb.take src.tagcount ++
        (List.replicate src.tagcount 0).drop src.tagcount)), src.tagactive, src.tagcount⟩,
        ?_, rfl, rfl, rfl, h1, h2⟩
      simp [nchan_copy_msg_id, hfree, hb, hs, hs', hw, hsb, hsl, bind, Except.bind]
    · by_cases hlt : dst.tagcount < src.tagcount
      · obtain ⟨w, hw⟩ := Option.ne_none_iff_exists'.mp (halloc hs' (by omega))
        obtain ⟨h1, h2⟩ := hfin (List.replicate src.tagcount 0) (by simp)
        refine ⟨⟨src.time, .allocd (some (sb.take src.tagcount ++
          (List.replicate src.tagcount 0).drop src.tagcount)), src.tagactive, src.tagcount⟩,
          ?_, rfl, rfl, rfl, h1, h2⟩
        simp [nchan_copy_msg_id, hfree, hs, hlt, hw, hsb, hsl, bind, Except.bind]
      · have heq : dst.tagcount = src.tagcount := by omega
        obtain ⟨b, hb, hbl⟩ := hdst (by omega)
        obtain ⟨h1, h2⟩ := hfin b (by omega)
        refine ⟨⟨src.time, .allocd (some (sb.take src.tagcount ++ b.drop src.tagcount)),
          src.tagactive, src.tagcount⟩, ?_, rfl, rfl, rfl, h1, h2⟩
        have hbl' : src.tagcount ≤ b.length := by omega
        simp [nchan_copy_msg_id, hfree, hs, hlt, hb, hsb, hsl, hbl', bind, Except.bind]

theorem update_grow_noop (g : Option (List Int)) (oldid newid : nchan_msg_id_t)
    (h : ¬ (NCHAN_MULTITAG_MAX < newid.tagcount ∧ oldid.tagcount < newid.tagcount)) :
    update_grow g oldid newid = .ok oldid := by
  simp only [update_grow, h, if_false]

/-- Whatever the growth step returns has the cursor's time, tag count and
active index. -/
theorem update_grow_fields (g : Option (List Int)) (oldid newid o : nchan_msg_id_t)
    (h : update_grow g oldid newid = .ok o) :
    o.time = oldid.time ∧ o.tagcount = oldid.tagcount ∧ o.tagactive = oldid.tagactive := by
  unfold update_grow at h
  split at h
  · cases g with
    | none => simp at h
    | some w =>
      simp only [bind, Except.bind] at h
      split at h
      · simp at h
      · simp only [Except.ok.injEq] at h
        subst h
        exact ⟨rfl, rfl, rfl⟩
  · simp only [Except.ok.injEq] at h
    subst h
    exact ⟨rfl, rfl, rfl⟩

theorem update_grow_ok (g : Option (List Int)) (oldid newid : nchan_msg_id_t)
    (hwf : msgid_wf oldid = true) (hg : g ≠ none)
    (h : NCHAN_MULTITAG_MAX < newid.tagcount ∧ oldid.tagcount < newid.tagcount) :
    ∃ blk, update_grow g oldid newid = .ok { oldid with tag := .allocd (some blk) } ∧
      blk.length = newid.tagcount := by
  obtain ⟨w, hw⟩ := Option.ne_none_iff_exists'.mp hg
  by_cases hl : NCHAN_MULTITAG_MAX < oldid.tagcount
  · obtain ⟨b, hb, hbl⟩ := msgid_wf_allocd oldid hwf hl
    obtain ⟨blk, h1, h2⟩ := grow_fill_ok (fun i => tag_read (some b) (i : Int)) oldid.tagcount
      (fun i hi => ⟨_, tag_read_nat b i (by omega)⟩) newid.tagcount 0
    refine ⟨blk, ?_, h2⟩
    simp only [update_grow, h, and_self, if_true, hw, hl, hb, bind, Except.bind, h1]
  · obtain ⟨blk, h1, h2⟩ := grow_fill_ok (fun i => .ok (w.getD i 0)) oldid.tagcount
      (fun i _ => ⟨_, rfl⟩) newid.tagcount 0
    refine ⟨blk, ?_, h2⟩
    simp only [update_grow, h, and_self, if_true, hw, hl, if_false, bind, Except.bind, h1]

/-- The replacing paths of `nchan_update_multi_msgid`: a single-tag `newid`,
or a different time. -/
theorem update_replace_ok (g c : Option (List Int)) (oldid newid : nchan_msg_id_t)
    (hwf1 : msgid_wf oldid = true) (hwf2 : msgid_wf newid = true)
    (halloc : NCHAN_MULTITAG_MAX < newid.tagcount → g ≠ none ∧ c ≠ none)
    (h : newid.tagcount = 1 ∨ newid.time ≠ oldid.time) :
    ∃ cur, nchan_update_multi_msgid g c oldid newid = .ok cur ∧
      cur.time = newid.time ∧ cur.tagcount = newid.tagcount ∧
      cur.tagactive = newid.tagactive ∧ msgid_wf cur = true ∧
      ∀ i, i < newid.tagcount → msgid_tag cur i = msgid_tag newid i := by
  by_cases h1 : newid.tagcount = 1
  · exact ⟨newid, by simp [nchan_update_multi_msgid, h1], rfl, rfl, rfl, hwf2, fun _ _ => rfl⟩
  · have ht : newid.time ≠ oldid.time := h.resolve_left h1
    have hdone : ∀ o : nchan_msg_id_t, update_grow g oldid newid = .ok o →
        (NCHAN_MULTITAG_MAX < o.tagcount →
          ∃ b, o.tag = .allocd (some b) ∧ o.tagcount ≤ b.length) →
        o.tagcount = oldid.tagcount → o.time = oldid.time →
        ∃ cur, nchan_update_multi_msgid g c oldid newid = .ok cur ∧
          cur.time = newid.time ∧ cur.tagcount = newid.tagcount ∧
          cur.tagactive = newid.tagactive ∧ msgid_wf cur = true ∧
          ∀ i, i < newid.tagcount → msgid_tag cur i = msgid_tag newid i := by
      intro o ho hdst hcnt htime
      obtain ⟨cur, hc, rest⟩ := nchan_copy_msg_id_ok c o newid hwf2 hdst
        (fun hl _ => (halloc hl).2)
      refine ⟨cur, ?_, rest⟩
      have ht' : o.time ≠ newid.time := by rw [htime]; exact fun e => ht e.symm
      simp only [nchan_update_multi_msgid, h1, if_false, ho, bind, Except.bind, ht', ne_eq,
        not_false_eq_true, if_true, hc]
    by_cases hg : NCHAN_MULTITAG_MAX < newid.tagcount ∧ oldid.tagcount < newid.tagcount
    · obtain ⟨blk, hb1, hb2⟩ := update_grow_ok g oldid newid hwf1 (halloc hg.1).1 hg
      exact hdone _ hb1 (fun _ => ⟨blk, rfl, by simp only [hb2]; omega⟩) rfl rfl
    · exact hdone oldid (update_grow_noop g oldid newid hg)
        (fun hl => msgid_wf_allocd oldid hwf1 hl) rfl rfl

theorem msgid_store_tags_spec (id : nchan_msg_id_t) (o r : List Int) (ta : Nat)
    (hwf : msgid_wf id = true) (ho : msgid_tags id = some o) (hr : r.length = o.length) :
    msgid_tags { id with tag := msgid_store_tags id (some r), tagactive := ta } = some r ∧
    msgid_wf { id with tag := msgid_store_tags id (some r), tagactive := ta } = true := by
  by_cases hs : id.tagcount ≤ NCHAN_MULTITAG_MAX
  · obtain ⟨a, ha, hal⟩ := msgid_wf_fixed id hwf hs
    have : o = a := by
      simp only [msgid_tags, hs, if_true, ha, Option.some.injEq] at ho
      exact ho.symm
    subst this
    simp [msgid_tags, msgid_store_tags, msgid_wf, hs, hr, hal]
  · have hs' : NCHAN_MULTITAG_MAX < id.tagcount := Nat.lt_of_not_le hs
    obtain ⟨b, hb, hbl⟩ := msgid_wf_allocd id hwf hs'
    have : o = b := by
      simp only [msgid_tags, hs, if_false, hb, Option.some.injEq] at ho
      exact ho.symm
    subst this
    simp only [msgid_tags, msgid_store_tags, msgid_wf, hs, if_false, Bool.and_eq_true,
      decide_eq_true_eq, true_and]
    exact ⟨hs', by omega⟩

/-- The equal-times path of `nchan_update_multi_msgid` reduces to the merge loop. -/
theorem update_same_eq (g c : Option (List Int)) (oldid newid : nchan_msg_id_t)
    (hne1 : newid.tagcount ≠ 1) (hcount : newid.tagcount = oldid.tagcount)
    (htime : newid.time = oldid.time) :
    nchan_update_multi_msgid g c oldid newid =
      match update_merge newid.tagactive (msgid_tags newid) newid.tagcount 0
          (msgid_tags oldid) with
      | .error e => .error e
      | .ok written => .ok { oldid with tag := msgid_store_tags oldid written,
                                        tagactive := newid.tagactive } := by
  have hg := update_grow_noop g oldid newid (by omega)
  have hne1' : oldid.tagcount ≠ 1 := hcount ▸ hne1
  simp only [nchan_update_multi_msgid, hg, bind, Except.bind, htime, ne_eq,
    not_true_eq_false, hcount, hne1', if_false]
  cases update_merge newid.tagactive (msgid_tags newid) oldid.tagcount 0 (msgid_tags oldid) <;> rfl

theorem update_same_ok (g c : Option (List Int)) (oldid newid : nchan_msg_id_t)
    (hwf1 : msgid_wf oldid = true) (hwf2 : msgid_wf newid = true)
    (hne1 : newid.tagcount ≠ 1) (hcount : newid.tagcount = oldid.tagcount)
    (htime : newid.time = oldid.time)
    (hgap : newid.tagactive < newid.tagcount → ∀ v w,
      msgid_tag newid newid.tagactive = some v → msgid_tag oldid newid.tagactive = some w →
      v ≠ -1 → w ≠ -1 → w < v) :
    ∃ cur, nchan_update_multi_msgid g c oldid newid = .ok cur ∧
      cur.time = oldid.time ∧ cur.tagcount = oldid.tagcount ∧
      cur.tagactive = newid.tagactive ∧ msgid_wf cur = true ∧
      ∀ i, msgid_tag cur i =
        if i < newid.tagcount ∧ msgid_tag newid i ≠ some (-1) then msgid_tag newid i
        else msgid_tag oldid i := by
  obtain ⟨o, ho, hol, -⟩ := msgid_wf_tags oldid hwf1
  obtain ⟨n, hn, hnl, -⟩ := msgid_wf_tags newid hwf2
  simp only [msgid_tag_of_tags oldid o ho, msgid_tag_of_tags newid n hn] at hgap ⊢
  obtain ⟨r, hr1, hr2, hr3⟩ := update_merge_ok newid.tagactive n newid.tagcount 0 o
    (by omega) (by omega) (fun _ h2 => hgap (by omega))
  obtain ⟨hs1, hs2⟩ := msgid_store_tags_spec oldid o r newid.tagactive hwf1 ho hr2
  refine ⟨{ oldid with tag := msgid_store_tags oldid (some r), tagactive := newid.tagactive },
    ?_, rfl, rfl, rfl, hs2, fun i => ?_⟩
  · rw [update_same_eq g c oldid newid hne1 hcount htime, hn, ho, hr1]
  · rw [msgid_tag_of_tags _ r hs1, hr3 i]
    simp only [Nat.zero_le, true_and, Nat.zero_add]

theorem update_same_fail (g c : Option (List Int)) (oldid newid : nchan_msg_id_t)
    (hwf1 : msgid_wf oldid = true) (hwf2 : msgid_wf newid = true)
    (hne1 : newid.tagcount ≠ 1) (hcount : newid.tagcount = oldid.tagcount)
    (htime : newid.time = oldid.time) (hact : newid.tagactive < newid.tagcount)
    (v w : Int) (hv : msgid_tag newid newid.tagactive = some v)
    (hw : msgid_tag oldid newid.tagactive = some w)
    (hv1 : v ≠ -1) (hw1 : w ≠ -1) (hle : ¬ w < v) :
    nchan_update_multi_msgid g c oldid newid = .error .assertion := by
  obtain ⟨o, ho, hol, -⟩ := msgid_wf_tags oldid hwf1
  obtain ⟨n, hn, hnl, -⟩ := msgid_wf_tags newid hwf2
  simp only [msgid_tag_of_tags oldid o ho, msgid_tag_of_tags newid n hn] at hv hw
  have := update_merge_fail newid.tagactive n newid.tagcount 0 o (by omega) (by omega)
    (Nat.zero_le _) (by omega) (fun hg => hle (hg v w hv hw hv1 hw1))
  rw [update_same_eq g c oldid newid hne1 hcount htime, hn, ho, this]

/-- With equal times and different tag counts a multi-tag update never returns. -/
theorem update_count_mismatch (g c : Option (List Int)) (oldid newid cur : nchan_msg_id_t)
    (hne1 : newid.tagcount ≠ 1) (hcount : newid.tagcount ≠ oldid.tagcount)
    (htime : newid.time = oldid.time) :
    nchan_update_multi_msgid g c oldid newid ≠ .ok cur := by
  intro h
  simp only [nchan_update_multi_msgid, hne1, if_false, bind, Except.bind] at h
  cases hg : update_grow g oldid newid with
  | error e => simp [hg] at h
  | ok o =>
    obtain ⟨e1, e2, -⟩ := update_grow_fields g oldid newid o hg
    simp [hg, e1, e2, htime, hcount] at h

/-- The miss detector returns, with `NGX_OK` or `NGX_ERROR`, on IDs whose arrays
cover the positions it reads. -/
theorem verify_msg_id_returns (last prev msgid : nchan_msg_id_t)
    (hwf1 : msgid_wf last = true) (hwf2 : msgid_wf prev = true)
    (hs1 : last.tagcount ≤ msgid_slots prev) (hs2 : prev.tagcount ≤ msgid_slots msgid)
    (hset : 1 < prev.tagcount → ∃ i, i < prev.tagcount ∧ msgid_tag prev i ≠ some (-1)) :
    verify_msg_id last prev msgid = .ok NGX_OK ∨
      verify_msg_id last prev msgid = .ok NGX_ERROR := by
  by_cases hpos : 0 < last.time ∧ 0 < prev.time
  · by_cases ht : last.time = prev.time
    · by_cases h1 : last.tagcount = 1
      · exact (verify_single_spec last prev msgid hwf1 hwf2 h1 ht hpos.1).1
      · exact (verify_multi_spec last prev msgid hwf1 h1 hs1 ht hpos.1).1
    · exact (verify_mismatch_spec last prev msgid hwf2 hs2 hpos.1 hpos.2
        (fun e => ht e.symm) hset).1
  · exact Or.inl (by simp [verify_msg_id, hpos])

theorem update_subscriber_eq (g c : Option (List Int)) (now : Int) (sub : subscriber_t)
    (msg : nchan_msg_t) (rc : Int)
    (hv : verify_msg_id sub.last_msgid msg.prev_id msg.id = .ok rc) :
    ∃ log, update_subscriber_last_msg_id g c now sub (some msg) =
      match nchan_update_multi_msgid g c sub.last_msgid msg.id with
      | .error e => .error e
      | .ok cur => .ok (NGX_OK, { last_msgid := cur }, log) := by
  refine ⟨if rc = NGX_ERROR then
      (if sub.last_msgid.time + wrap32 (msg.expires - msg.id.time) ≤ now
        then some miss_log.probably_expired else some miss_log.unknown_reason)
    else none, ?_⟩
  simp only [update_subscriber_last_msg_id, hv, bind, Except.bind]
  cases nchan_update_multi_msgid g c sub.last_msgid msg.id <;> rfl

theorem update_subscriber_ok_inv (g c : Option (List Int)) (now : Int) (sub : subscriber_t)
    (msg : nchan_msg_t) (r : Int × subscriber_t × Option miss_log)
    (h : update_subscriber_last_msg_id g c now sub (some msg) = .ok r) :
    nchan_update_multi_msgid g c sub.last_msgid msg.id = .ok r.2.1.last_msgid := by
  simp only [update_subscriber_last_msg_id, bind, Except.bind] at h
  cases hv : verify_msg_id sub.last_msgid msg.prev_id msg.id with
  | error e => simp [hv] at h
  | ok rc =>
    cases hu : nchan_update_multi_msgid g c sub.last_msgid msg.id with
    | error e => simp [hv, hu] at h
    | ok cur =>
      simp only [hv, hu, Except.ok.injEq] at h
      rw [← h]

theorem msgid_tag_ext (a b : nchan_msg_id_t) (ha : msgid_wf a = true) (hb : msgid_wf b = true)
    (hc : a.tagcount = b.tagcount) (h : ∀ i, msgid_tag a i = msgid_tag b i) :
    a.tag = b.tag := by
  by_cases hs : a.tagcount ≤ NCHAN_MULTITAG_MAX
  · obtain ⟨x, hx, -⟩ := msgid_wf_fixed a ha hs
    obtain ⟨y, hy, -⟩ := msgid_wf_fixed b hb (hc ▸ hs)
    have hs' : b.tagcount ≤ NCHAN_MULTITAG_MAX := hc ▸ hs
    have : x = y := by
      apply List.ext_getElem?
      intro i
      simpa [msgid_tag, msgid_tags, hs, hs', hx, hy] using h i
    rw [hx, hy, this]
  · have hs1 : NCHAN_MULTITAG_MAX < a.tagcount := Nat.lt_of_not_le hs
    have hs' : ¬ b.tagcount ≤ NCHAN_MULTITAG_MAX := hc ▸ hs
    obtain ⟨x, hx, -⟩ := msgid_wf_allocd a ha hs1
    obtain ⟨y, hy, -⟩ := msgid_wf_allocd b hb (hc ▸ hs1)
    have : x = y := by
      apply List.ext_getElem?
      intro i
      simpa [msgid_tag, msgid_tags, hs, hs', hx, hy] using h i
    rw [hx, hy, this]

/-- What a returned multi-tag update leaves in the cursor, on well-formed IDs and
with the allocations it needs. -/
theorem update_ok_inv (g c : Option (List Int)) (oldid newid cur : nchan_msg_id_t)
    (hwf1 : msgid_wf oldid = true) (hwf2 : msgid_wf newid = true)
    (halloc : NCHAN_MULTITAG_MAX < newid.tagcount → g ≠ none ∧ c ≠ none)
    (h : nchan_update_multi_msgid g c oldid newid = .ok cur) :
    cur.time = newid.time ∧ cur.tagcount = newid.tagcount ∧
    cur.tagactive = newid.tagactive ∧ msgid_wf cur = true ∧
    ∀ i, i < newid.tagcount → msgid_tag newid i ≠ some (-1) →
      msgid_tag cur i = msgid_tag newid i := by
  by_cases hr : newid.tagcount = 1 ∨ newid.time ≠ oldid.time
  · obtain ⟨cur', h0, h1, h2, h3, h4, h5⟩ :=
      update_replace_ok g c oldid newid hwf1 hwf2 halloc hr
    rw [h] at h0
    cases h0
    exact ⟨h1, h2, h3, h4, fun i hi _ => h5 i hi⟩
  · have hne1 : newid.tagcount ≠ 1 := fun e => hr (Or.inl e)
    have htime : newid.time = oldid.time := by
      by_contra e; exact hr (Or.inr e)
    have hcount : newid.tagcount = oldid.tagcount := by
      by_contra e
      exact update_count_mismatch g c oldid newid cur hne1 e htime h
    by_cases hgap : newid.tagactive < newid.tagcount → ∀ v w,
        msgid_tag newid newid.tagactive = some v → msgid_tag oldid newid.tagactive = some w →
        v ≠ -1 → w ≠ -1 → w < v
    · obtain ⟨cur', h0, h1, h2, h3, h4, h5⟩ :=
        update_same_ok g c oldid newid hwf1 hwf2 hne1 hcount htime hgap
      rw [h] at h0
      cases h0
      refine ⟨h1.trans htime.symm, h2.trans hcount.symm, h3, h4, fun i hi hv => ?_⟩
      rw [h5 i, if_pos ⟨hi, hv⟩]
    · exfalso
      simp only [not_forall] at hgap
      obtain ⟨hact, v, w, hv, hw, hv1, hw1, hle⟩ := hgap
      have := update_same_fail g c oldid newid hwf1 hwf2 hne1 hcount htime hact v w hv hw
        hv1 hw1 hle
      rw [h] at this
      cases this

/-- A second update by the same multi-tag ID, on a cursor that already holds its
time, tag count, active index and set tags. -/
theorem update_again (g c : Option (List Int)) (cur newid : nchan_msg_id_t)
    (hwf1 : msgid_wf cur = true) (hwf2 : msgid_wf newid = true)
    (hne1 : newid.tagcount ≠ 1)
    (htime : cur.time = newid.time) (hcount : cur.tagcount = newid.tagcount)
    (hact : cur.tagactive = newid.tagactive)
    (htags : ∀ i, i < newid.tagcount → msgid_tag newid i ≠ some (-1) →
      msgid_tag cur i = msgid_tag newid i) :
    if newid.tagactive < newid.tagcount ∧ msgid_tag newid newid.tagactive ≠ some (-1)
    then nchan_update_multi_msgid g c cur newid = .error .assertion
    else nchan_update_multi_msgid g c cur newid = .ok cur := by
  split
  next hset =>
    obtain ⟨n, hn, hnl, -⟩ := msgid_wf_tags newid hwf2
    have hlt : newid.tagactive < n.length := by omega
    have hv : msgid_tag newid newid.tagactive = some n[newid.tagactive] := by
      simp only [msgid_tag, hn]
      exact List.getElem?_eq_getElem hlt
    have hv1 : n[newid.tagactive] ≠ -1 := by
      intro e
      apply hset.2
      rw [hv, e]
    exact update_same_fail g c cur newid hwf1 hwf2 hne1 hcount.symm htime.symm hset.1
      _ _ hv ((htags _ hset.1 hset.2).trans hv) hv1 hv1 (lt_irrefl _)
  next hset =>
    obtain ⟨cur2, h0, h1, h2, h3, h4, h5⟩ :=
      update_same_ok g c cur newid hwf1 hwf2 hne1 hcount.symm htime.symm
        (fun hlt v w hv _ hv1 _ => absurd ⟨hlt, by rw [hv]; simpa using hv1⟩ hset)
    have htag : cur2.tag = cur.tag := by
      apply msgid_tag_ext cur2 cur h4 hwf1 h2
      intro i
      rw [h5 i]
      split
      next hc => exact (htags i hc.1 hc.2).symm
      next => rfl
    have : cur2 = cur := by
      cases cur2; cases cur
      simp only at h1 h2 h3 htag hact
      simp [h1, h2, h3, htag, hact]
    rw [h0, this]

/-! ## Lemmas: parsing -/

theorem char_zero_toNat : '0'.toNat = 48 := rfl
theorem char_nine_toNat : '9'.toNat = 57 := rfl

theorem decimal_from_ge (p : List Char) :
    ∀ v : Int, 0 ≤ v → (∀ c ∈ p, 48 ≤ c.toNat ∧ c.toNat ≤ 57) → v ≤ decimal_from v p := by
  induction p with
  | nil => intro v _ _; exact le_refl _
  | cons c rest ih =>
    intro v hv hd
    have hc := hd c (List.mem_cons_self _ _)
    have := ih (v * 10 + ((c.toNat : Int) - 48)) (by omega)
      (fun x hx => hd x (List.mem_cons_of_mem _ hx))
    simp only [decimal_from, List.foldl_cons] at this ⊢
    omega

theorem ngx_atoi_loop_spec (p : List Char) :
    ∀ v : Int, 0 ≤ v → v ≤ NGX_MAX_INT_T_VALUE →
      ngx_atoi_loop p v =
        if (∀ c ∈ p, 48 ≤ c.toNat ∧ c.toNat ≤ 57) ∧ decimal_from v p ≤ NGX_MAX_INT_T_VALUE
        then decimal_from v p else NGX_ERROR := by
  induction p with
  | nil =>
    intro v _ h2
    simp [ngx_atoi_loop, decimal_from, h2]
  | cons c rest ih =>
    intro v h1 h2
    simp only [ngx_atoi_loop, char_zero_toNat, char_nine_toNat, NGX_MAX_INT_T_VALUE] at *
    by_cases hd : c.toNat < 48 ∨ c.toNat > 57
    · rw [if_pos hd, if_neg]
      rintro ⟨h, -⟩
      have := h c (List.mem_cons_self _ _)
      omega
    · rw [if_neg hd]
      by_cases ho : v ≥ 9223372036854775807 / 10 ∧
          (v > 9223372036854775807 / 10 ∨ (c.toNat : Int) - (48 : Nat) > 9223372036854775807 % 10)
      · rw [if_pos ho, if_neg]
        rintro ⟨h, hle⟩
        have hge := decimal_from_ge rest (v * 10 + ((c.toNat : Int) - 48)) (by omega)
          (fun x hx => h x (List.mem_cons_of_mem _ hx))
        simp only [decimal_from, List.foldl_cons] at hge hle
        omega
      · rw [if_neg ho]
        rw [ih (v * 10 + ((c.toNat : Int) - (48 : Nat))) (by omega) (by omega)]
        simp only [decimal_from, List.foldl_cons, List.mem_cons, forall_eq_or_imp, Nat.cast_ofNat]
        have hcd : 48 ≤ c.toNat ∧ c.toNat ≤ 57 := by omega
        simp only [hcd, and_self, true_and]

theorem decimal_value_nonneg (p : List Char) (h : ∀ c ∈ p, 48 ≤ c.toNat ∧ c.toNat ≤ 57) :
    0 ≤ decimal_value p :=
  decimal_from_ge p 0 (le_refl _) h

theorem ngx_atoi_spec (p : List Char) :
    ngx_atoi p = if decimal_in_range p then decimal_value p else NGX_ERROR := by
  by_cases he : p = []
  · subst he
    rw [if_neg (fun h => h.1 rfl)]
    rfl
  · have hl : ¬ p.length = 0 := fun h => he (List.length_eq_zero.mp h)
    have hloop := ngx_atoi_loop_spec p 0 (le_refl _) (by simp [NGX_MAX_INT_T_VALUE])
    unfold ngx_atoi
    rw [if_neg hl, hloop]
    by_cases hd : decimal_in_range p
    · rw [if_pos hd, if_pos ⟨hd.2.1, hd.2.2⟩]
      rfl
    · rw [if_neg hd, if_neg (fun h => hd ⟨he, h.1, h.2⟩)]

theorem ngx_atoi_ok_iff (p : List Char) : ngx_atoi p ≠ NGX_ERROR ↔ decimal_in_range p := by
  rw [ngx_atoi_spec]
  by_cases h : decimal_in_range p
  · rw [if_pos h]
    have := decimal_value_nonneg p h.2.1
    simp only [NGX_ERROR, ne_eq, h, iff_true]
    omega
  · rw [if_neg h]
    simp [h]

theorem ngx_strlchr_none (s : List Char) (c : Char) : ngx_strlchr s c = none ↔ c ∉ s := by
  induction s with
  | nil => simp [ngx_strlchr]
  | cons x rest ih =>
    by_cases h : x = c
    · simp [ngx_strlchr, h]
    · have h' : ¬ c = x := fun e => h e.symm
      simp [ngx_strlchr, h, h', ih]

theorem ngx_strlchr_some (s : List Char) (c : Char) :
    ∀ k, ngx_strlchr s c = some k →
      s.take k = s.takeWhile (fun x => x != c) ∧
      s.drop (k + 1) = (s.dropWhile (fun x => x != c)).tail := by
  induction s with
  | nil => intro k h; simp [ngx_strlchr] at h
  | cons x rest ih =>
    intro k h
    by_cases hx : x = c
    · simp only [ngx_strlchr, hx, if_true, Option.some.injEq] at h
      subst h
      simp [hx]
    · simp only [ngx_strlchr, hx, if_false, Option.map_eq_some'] at h
      obtain ⟨j, hj, rfl⟩ := h
      obtain ⟨h1, h2⟩ := ih j hj
      simp [hx, h1, h2]

/-- The three outcomes of `nchan_parse_compound_msgid`. -/
theorem nchan_parse_compound_msgid_cases (tags : List Int) (id : nchan_msg_id_t)
    (str : List Char) :
    (':' ∉ str ∧ nchan_parse_compound_msgid tags id str = (NGX_DECLINED, tags, id)) ∨
    (':' ∈ str ∧ ¬ decimal_in_range (str.takeWhile (fun x => x != ':')) ∧
      nchan_parse_compound_msgid tags id str = (NGX_ERROR, tags, id)) ∨
    (':' ∈ str ∧ decimal_in_range (str.takeWhile (fun x => x != ':')) ∧
      nchan_parse_compound_msgid tags id str =
        (NGX_OK, nchan_parse_msg_tag tags ((str.dropWhile (fun x => x != ':')).tail)
          { id with time := decimal_value (str.takeWhile (fun x => x != ':')) })) := by
  cases hk : ngx_strlchr str ':' with
  | none =>
    left
    exact ⟨(ngx_strlchr_none str ':').mp hk, by simp only [nchan_parse_compound_msgid, hk]⟩
  | some k =>
    right
    have hmem : ':' ∈ str := by
      by_contra h
      rw [(ngx_strlchr_none str ':').mpr h] at hk
      cases hk
    obtain ⟨htake, hdrop⟩ := ngx_strlchr_some str ':' k hk
    by_cases hd : decimal_in_range (str.takeWhile (fun x => x != ':'))
    · right
      have hne : ngx_atoi (str.take k) ≠ NGX_ERROR := by
        rw [htake]; exact (ngx_atoi_ok_iff _).mpr hd
      have hval : ngx_atoi (str.take k) = decimal_value (str.takeWhile (fun x => x != ':')) := by
        rw [htake, ngx_atoi_spec, if_pos hd]
      refine ⟨hmem, hd, ?_⟩
      rw [hval] at hne
      simp only [nchan_parse_compound_msgid, hk, hval, hdrop]
      rw [if_pos hne]
    · left
      have he : ngx_atoi (str.take k) = NGX_ERROR := by
        rw [htake, ngx_atoi_spec, if_neg hd]
      refine ⟨hmem, hd, ?_⟩
      simp only [nchan_parse_compound_msgid, hk, he, ne_eq, not_true_eq_false, if_false]

theorem parse_tag_step_i (c : Char) (st : parse_tag_state) :
    (parse_tag_step c st).i = st.i + (if c = ',' then 1 else 0) := by
  unfold parse_tag_step
  by_cases hc : c = ','
  · subst hc
    rw [if_neg (by decide), if_neg (by decide), if_neg (by decide), if_pos rfl, if_pos rfl]
  · rw [if_neg hc]
    split_ifs <;> rfl

/-- The number of tags the loop of `nchan_parse_msg_tag` counts: one more than the
number of commas, and never more than 255. -/
theorem parse_tag_loop_i (s : List Char) :
    ∀ st : parse_tag_state, st.i ≤ 255 →
      (parse_tag_loop s st).i = min (st.i + s.count ',' + 1) 255 := by
  induction s with
  | nil =>
    intro st h
    by_cases hlt : st.i < 255
    · simp only [parse_tag_loop, hlt, if_true, List.count_nil]
      omega
    · simp only [parse_tag_loop, hlt, if_false, List.count_nil]
      omega
  | cons c rest ih =>
    intro st h
    by_cases hlt : st.i < 255
    · have hstep := parse_tag_step_i c st
      simp only [parse_tag_loop, hlt, if_true]
      rw [ih (parse_tag_step c st) (by rw [hstep]; split <;> omega), hstep]
      by_cases hc : c = ','
      · subst hc
        simp only [if_true, List.count_cons_self]
        omega
      · have hc' : (c == ',') = false := by simpa using hc
        simp only [hc, if_false, List.count_cons, hc', Bool.false_eq_true]
        omega
    · simp only [parse_tag_loop, hlt, if_false]
      omega

theorem nchan_parse_msg_tag_tagcount (tags : List Int) (s : List Char) (mid : nchan_msg_id_t) :
    (nchan_parse_msg_tag tags s mid).2.tagcount = min (s.count ',' + 1) 255 := by
  simp only [nchan_parse_msg_tag]
  rw [parse_tag_loop_i s _ (by simp)]
  simp

theorem decimal_in_range_no_colon (t : List Char) (h : decimal_in_range t) : ':' ∉ t := by
  intro hm
  have := h.2.1 ':' hm
  revert this
  decide

theorem takeWhile_append_colon (t s : List Char) (h : ':' ∉ t) :
    (t ++ ':' :: s).takeWhile (fun x => x != ':') = t ∧
    ((t ++ ':' :: s).dropWhile (fun x => x != ':')).tail = s := by
  induction t with
  | nil => simp
  | cons x rest ih =>
    have hx : x ≠ ':' := fun e => h (e ▸ List.mem_cons_self _ _)
    have hr : ':' ∉ rest := fun m => h (List.mem_cons_of_mem _ m)
    obtain ⟨h1, h2⟩ := ih hr
    simp [hx, h1, h2]

/-- A compound ID `t:s` with a valid time text `t`. -/
theorem nchan_parse_compound_msgid_ok (tags : List Int) (id : nchan_msg_id_t)
    (t s : List Char) (ht : ngx_atoi t ≠ NGX_ERROR) :
    nchan_parse_compound_msgid tags id (t ++ ':' :: s) =
      (NGX_OK, nchan_parse_msg_tag tags s { id with time := decimal_value t }) := by
  have hd : decimal_in_range t := (ngx_atoi_ok_iff t).mp ht
  obtain ⟨h1, h2⟩ := takeWhile_append_colon t s (decimal_in_range_no_colon t hd)
  rcases nchan_parse_compound_msgid_cases tags id (t ++ ':' :: s) with
    ⟨k1, -⟩ | ⟨-, k2, -⟩ | ⟨-, -, k3⟩
  · exact absurd (by simp) k1
  · rw [h1] at k2; exact absurd hd k2
  · rw [k3, h1, h2]

theorem count_comma_repeat (n : Nat) :
    ((List.replicate n ['0', ',']).flatten ++ ['0']).count ',' = n := by
  induction n with
  | zero => decide
  | succ k ih =>
    rw [List.replicate_succ, List.flatten_cons, List.append_assoc, List.count_append, ih]
    have : List.count ',' ['0', ','] = 1 := by decide
    rw [this]
    omega

/-! ## Lemmas: `nchan_expand_msg_id_multi_tag` -/

theorem expand_loop_spec (n out_n : Nat) (v fill : Int) (hn : n ≤ 255) :
    ∀ (fuel i : Nat) (a : List Int), i ≤ n → n ≤ a.length → n - i < fuel →
      ∃ r, expand_loop n out_n v fill fuel i (some a) = some (.ok (some r)) ∧
        r.length = a.length ∧
        ∀ k, r[k]? = if i ≤ k ∧ k < n then some (if k = out_n then v else fill) else a[k]? := by
  intro fuel
  induction fuel with
  | zero => intro i a _ _ h; omega
  | succ m ih =>
    intro i a hi ha hf
    by_cases hlt : i < n
    · have hia : i < a.length := by omega
      have hmod : (i + 1) % 256 = i + 1 := Nat.mod_eq_of_lt (by omega)
      obtain ⟨r, hr1, hr2, hr3⟩ := ih (i + 1) (a.set i (if i = out_n then v else fill))
        (by omega) (by simp; omega) (by omega)
      refine ⟨r, ?_, by simpa using hr2, fun k => ?_⟩
      · simp only [expand_loop, hlt, if_true, tag_write, hia, hmod]
        exact hr1
      · rw [hr3 k]
        by_cases hk : k = i
        · subst hk
          have c1 : ¬ (k + 1 ≤ k ∧ k < n) := by omega
          have c2 : k ≤ k ∧ k < n := ⟨le_refl _, hlt⟩
          simp only [c1, c2, if_true, if_false]
          simp [hia]
        · have hne : i ≠ k := Ne.symm hk
          by_cases c : i + 1 ≤ k ∧ k < n
          · have c2 : i ≤ k ∧ k < n := ⟨by omega, c.2⟩
            simp only [c, c2, if_true, and_self]
          · have c2 : ¬ (i ≤ k ∧ k < n) := fun h => c ⟨by omega, h.2⟩
            simp only [c, c2, if_false]
            exact List.getElem?_set_ne hne
    · have : i = n := by omega
      subst this
      refine ⟨a, by simp [expand_loop], rfl, fun k => ?_⟩
      have c1 : ¬ (i ≤ k ∧ k < i) := by omega
      simp only [c1, if_false]

/-- `nchan_expand_msg_id_multi_tag` on a well-formed ID with both indices below the
tag count. -/
theorem nchan_expand_msg_id_multi_tag_ok (fuel : Nat) (id : nchan_msg_id_t) (in_n out_n : Nat)
    (fill : Int) (hwf : msgid_wf id = true) (hn : id.tagcount ≤ 255)
    (hin : in_n < id.tagcount) (hout : out_n < id.tagcount) (hfuel : id.tagcount < fuel) :
    ∃ r, nchan_expand_msg_id_multi_tag fuel id in_n out_n fill = some (.ok r) ∧
      r.time = id.time ∧ r.tagcount = id.tagcount ∧ r.tagactive = id.tagactive ∧
      msgid_wf r = true ∧
      msgid_tag r out_n = msgid_tag id in_n ∧
      ∀ i, i < id.tagcount → i ≠ out_n → msgid_tag r i = some fill := by
  obtain ⟨a, ha, hal, -⟩ := msgid_wf_tags id hwf
  have hia : in_n < a.length := by omega
  obtain ⟨w, hw1, hw2, hw3⟩ :=
    expand_loop_spec id.tagcount out_n (a[in_n]) fill hn fuel 0 a (Nat.zero_le _) hal (by omega)
  have hst := msgid_store_tags_spec id a w id.tagactive hwf ha hw2
  have hcond : ¬ ¬ (in_n < id.tagcount ∧ out_n < id.tagcount) := not_not.mpr ⟨hin, hout⟩
  refine ⟨{ id with tag := msgid_store_tags id (some w) }, ?_, rfl, rfl, rfl, hst.2, ?_, ?_⟩
  · unfold nchan_expand_msg_id_multi_tag
    simp only [hcond, if_false, ha, tag_read_nat a in_n hia, hw1]
  · rw [msgid_tag_of_tags _ w hst.1, msgid_tag_of_tags id a ha, hw3 out_n]
    have c : 0 ≤ out_n ∧ out_n < id.tagcount := ⟨Nat.zero_le _, hout⟩
    simp only [c, and_self, if_true]
    exact (List.getElem?_eq_getElem hia).symm
  · intro i hi hne
    rw [msgid_tag_of_tags _ w hst.1, hw3 i]
    have c : 0 ≤ i ∧ i < id.tagcount := ⟨Nat.zero_le _, hi⟩
    simp only [c, and_self, if_true, hne, if_false]

/-! ## Lemmas: tag lists -/

theorem parse_tag_loop_nil (st : parse_tag_state) (h : st.i < 255) :
    parse_tag_loop [] st = { st with tags := parse_tag_store st, i := st.i + 1 } := by
  simp only [parse_tag_loop, h, if_true]

theorem parse_tag_loop_cons (c : Char) (rest : List Char) (st : parse_tag_state)
    (h : st.i < 255) : parse_tag_loop (c :: rest) st = parse_tag_loop rest (parse_tag_step c st) := by
  simp only [parse_tag_loop, h, if_true]

/-- The loop of `nchan_parse_msg_tag` over a run of bytes without a comma is the
fold of its body over the run. -/
theorem parse_tag_loop_append (p rest : List Char) (hp : ',' ∉ p) :
    ∀ st : parse_tag_state, st.i < 255 →
      parse_tag_loop (p ++ rest) st =
        parse_tag_loop rest (p.foldl (fun s c => parse_tag_step c s) st) ∧
      (p.foldl (fun s c => parse_tag_step c s) st).i = st.i := by
  induction p with
  | nil => intro st _; exact ⟨rfl, rfl⟩
  | cons c p ih =>
    intro st h
    have hc : c ≠ ',' := fun e => hp (e ▸ List.mem_cons_self _ _)
    have hi : (parse_tag_step c st).i = st.i := by
      rw [parse_tag_step_i, if_neg hc]; rfl
    obtain ⟨h1, h2⟩ := ih (fun hm => hp (List.mem_cons_of_mem _ hm)) (parse_tag_step c st)
      (by rw [hi]; exact h)
    refine ⟨?_, ?_⟩
    · rw [List.cons_append, parse_tag_loop_cons c _ st h, h1]
      rfl
    · rw [List.foldl_cons, h2, hi]

theorem parse_tag_step_comma (st : parse_tag_state) :
    parse_tag_step ',' st =
      { st with tags := parse_tag_store st, sign := 1, val := 0, i := st.i + 1 } := by
  unfold parse_tag_step
  rw [if_neg (by decide), if_neg (by decide), if_neg (by decide), if_pos rfl]

theorem digit_ne_of_toNat (c d : Char) (hc : 48 ≤ c.toNat ∧ c.toNat ≤ 57)
    (hd : d.toNat < 48 ∨ 57 < d.toNat) : c ≠ d := by
  intro e
  subst e
  omega

theorem parse_tag_step_digit (c : Char) (st : parse_tag_state)
    (hc : 48 ≤ c.toNat ∧ c.toNat ≤ 57) :
    parse_tag_step c st = { st with val := wrap16 (10 * st.val + ((c.toNat : Int) - 48)) } := by
  have h1 : c ≠ '-' := digit_ne_of_toNat c '-' hc (Or.inl (by decide))
  have h2 : '0'.toNat ≤ c.toNat ∧ c.toNat ≤ '9'.toNat := by
    rw [char_zero_toNat, char_nine_toNat]; exact hc
  unfold parse_tag_step
  rw [if_neg h1, if_pos h2, char_zero_toNat]
  rfl

theorem wrap16_id (x : Int) (h0 : -32768 ≤ x) (h1 : x ≤ 32767) : wrap16 x = x := by
  unfold wrap16
  omega

/-- The digits of a field: the loop accumulates their decimal value. -/
theorem parse_digits_fold (ds : List Char) :
    ∀ st : parse_tag_state, (∀ c ∈ ds, 48 ≤ c.toNat ∧ c.toNat ≤ 57) → 0 ≤ st.val →
      decimal_from st.val ds ≤ 32767 →
      ds.foldl (fun s c => parse_tag_step c s) st = { st with val := decimal_from st.val ds } := by
  induction ds with
  | nil => intro st _ _ _; rfl
  | cons c ds ih =>
    intro st hd h0 hle
    have hc := hd c (List.mem_cons_self _ _)
    have hds : ∀ x ∈ ds, 48 ≤ x.toNat ∧ x.toNat ≤ 57 := fun x hx => hd x (List.mem_cons_of_mem _ hx)
    have hstep : decimal_from st.val (c :: ds) =
        decimal_from (st.val * 10 + ((c.toNat : Int) - 48)) ds := by
      simp only [decimal_from, List.foldl_cons]
    rw [hstep] at hle
    have hge := decimal_from_ge ds (st.val * 10 + ((c.toNat : Int) - 48)) (by omega) hds
    have hw : wrap16 (10 * st.val + ((c.toNat : Int) - 48)) =
        st.val * 10 + ((c.toNat : Int) - 48) := by
      rw [wrap16_id _ (by omega) (by omega)]; ring
    rw [List.foldl_cons, parse_tag_step_digit c st hc, hw, hstep]
    exact ih _ hds (by show 0 ≤ st.val * 10 + ((c.toNat : Int) - 48); omega) hle

theorem no_comma_digits (ds : List Char) (hd : ∀ c ∈ ds, 48 ≤ c.toNat ∧ c.toNat ≤ 57) :
    ',' ∉ ds := by
  intro hm
  have := hd _ hm
  have h : ','.toNat = 44 := rfl
  omega

theorem no_comma_field (f : tag_field) (hf : tag_field_ok f) : ',' ∉ field_text f := by
  unfold field_text
  have hd := no_comma_digits f.digits hf.1
  cases f.active <;> cases f.neg <;> simp [hd]

/-- The fold of the loop body over the bytes of one field, from a state at the
start of a field. -/
theorem parse_field_fold (f : tag_field) (hf : tag_field_ok f) (st : parse_tag_state)
    (hs : st.sign = 1) (hv : st.val = 0) :
    (field_text f).foldl (fun s c => parse_tag_step c s) st =
      { st with
        sign := if f.neg then -1 else 1
        val := decimal_value f.digits
        tagactive := if f.active then st.i else st.tagactive } := by
  obtain ⟨hd, hle⟩ := hf
  obtain ⟨i, sign, val, tags, ta⟩ := st
  simp only at hs hv
  subst hs
  subst hv
  unfold field_text
  have key : ∀ st : parse_tag_state, st.val = 0 →
      f.digits.foldl (fun s c => parse_tag_step c s) st =
        { st with val := decimal_value f.digits } := by
    intro st h0
    have := parse_digits_fold f.digits st hd (by omega) (by rw [h0]; exact hle)
    rw [this, h0]
    rfl
  cases ha : f.active <;> cases hn : f.neg <;>
    simp only [List.foldl_append, List.foldl_cons, List.foldl_nil, List.nil_append, if_true,
      if_false, Bool.false_eq_true, List.append_nil]
  · rw [key _ rfl]
  · have : parse_tag_step '-' ⟨i, 1, 0, tags, ta⟩ = ⟨i, -1, 0, tags, ta⟩ := rfl
    rw [this, key _ rfl]
  · have : parse_tag_step '[' ⟨i, 1, 0, tags, ta⟩ = ⟨i, 1, 0, tags, i⟩ := rfl
    rw [this, key _ rfl]
    rfl
  · have h1 : parse_tag_step '[' ⟨i, 1, 0, tags, ta⟩ = ⟨i, 1, 0, tags, i⟩ := rfl
    have h2 : parse_tag_step '-' ⟨i, 1, 0, tags, i⟩ = ⟨i, -1, 0, tags, i⟩ := rfl
    rw [h1, h2, key _ rfl]
    rfl

theorem decimal_value_nonneg_ok (f : tag_field) (hf : tag_field_ok f) :
    0 ≤ decimal_value f.digits := decimal_value_nonneg f.digits hf.1

/-- The value the loop stores for a field it has just read. -/
theorem parse_tag_store_field (f : tag_field) (hf : tag_field_ok f) (st : parse_tag_state) :
    parse_tag_store { st with sign := if f.neg then -1 else 1, val := decimal_value f.digits } =
      st.tags.set st.i (field_value f) := by
  have h0 := decimal_value_nonneg_ok f hf
  have hle := hf.2
  unfold parse_tag_store field_value
  cases hn : f.neg
  · simp only [Bool.false_eq_true, if_false, and_false, mul_one]
    have : ¬ (decimal_value f.digits = 0 ∧ (1 : Int) = -1) := by omega
    rw [if_neg this, wrap16_id _ (by omega) hle]
  · simp only [if_true, and_true]
    by_cases hz : decimal_value f.digits = 0
    · simp [hz]
    · simp only [hz, if_false]
      rw [wrap16_id _ (by omega) (by omega), mul_neg_one]

/-- The loop of `nchan_parse_msg_tag` over a tag list of valid fields, from a state at
the start of a field: every field is counted, its value stored at its position, and
the last bracketed field becomes the active one. -/
theorem parse_fields (fs : List tag_field) :
    ∀ st : parse_tag_state, fs ≠ [] → (∀ f ∈ fs, tag_field_ok f) → st.sign = 1 → st.val = 0 →
      st.i + fs.length ≤ 255 →
      (parse_tag_loop (fields_text fs) st).i = st.i + fs.length ∧
      (parse_tag_loop (fields_text fs) st).tags = fields_store st.tags st.i fs ∧
      (parse_tag_loop (fields_text fs) st).tagactive = fields_active st.tagactive st.i fs := by
  induction fs with
  | nil => intro st h; exact absurd rfl h
  | cons f fs ih =>
    intro st _ hok hs hv hlen
    have hf := hok f (List.mem_cons_self _ _)
    have hi : st.i < 255 := by simp only [List.length_cons] at hlen; omega
    have hfold := parse_field_fold f hf st hs hv
    cases fs with
    | nil =>
      have h1 := (parse_tag_loop_append (field_text f) [] (no_comma_field f hf) st hi).1
      rw [List.append_nil] at h1
      have h2 := parse_tag_loop_nil
        { st with
          sign := if f.neg then -1 else 1
          val := decimal_value f.digits
          tagactive := if f.active then st.i else st.tagactive } hi
      have h3 := parse_tag_store_field f hf
        { st with tagactive := if f.active then st.i else st.tagactive }
      have hft : fields_text [f] = field_text f := rfl
      rw [hft, h1, hfold, h2]
      exact ⟨rfl, h3, rfl⟩
    | cons g gs =>
      have h1 := (parse_tag_loop_append (field_text f) (',' :: fields_text (g :: gs))
        (no_comma_field f hf) st hi).1
      have h2 := parse_tag_loop_cons ',' (fields_text (g :: gs))
        { st with
          sign := if f.neg then -1 else 1
          val := decimal_value f.digits
          tagactive := if f.active then st.i else st.tagactive } hi
      have hft : fields_text (f :: g :: gs) = field_text f ++ ',' :: fields_text (g :: gs) := rfl
      rw [hft, h1, hfold, h2]
      have hstep : parse_tag_step ','
          { st with
            sign := if f.neg then -1 else 1
            val := decimal_value f.digits
            tagactive := if f.active then st.i else st.tagactive } =
          ⟨st.i + 1, 1, 0, st.tags.set st.i (field_value f),
            if f.active then st.i else st.tagactive⟩ := by
        have := parse_tag_store_field f hf
          { st with tagactive := if f.active then st.i else st.tagactive }
        rw [parse_tag_step_comma]
        exact congrArg (fun t => parse_tag_state.mk (st.i + 1) 1 0 t
          (if f.active then st.i else st.tagactive)) this
      rw [hstep]
      obtain ⟨r1, r2, r3⟩ := ih ⟨st.i + 1, 1, 0, st.tags.set st.i (field_value f),
        if f.active then st.i else st.tagactive⟩ (by simp)
        (fun x hx => hok x (List.mem_cons_of_mem _ hx)) rfl rfl
        (by simp only [List.length_cons] at hlen ⊢; omega)
      refine ⟨?_, ?_, ?_⟩
      · rw [r1]; simp only [List.length_cons]; omega
      · rw [r2]; rfl
      · rw [r3]; rfl

theorem fields_store_length (fs : List tag_field) :
    ∀ (T : List Int) (k : Nat), (fields_store T k fs).length = T.length := by
  induction fs with
  | nil => intro T k; rfl
  | cons f fs ih => intro T k; simp only [fields_store]; rw [ih]; simp

theorem fields_store_get (fs : List tag_field) :
    ∀ (T : List Int) (k j : Nat), k + fs.length ≤ T.length →
      (fields_store T k fs)[j]? =
        if k ≤ j ∧ j < k + fs.length then (fs[j - k]?).map field_value else T[j]? := by
  induction fs with
  | nil =>
    intro T k j _
    have c : ¬ (k ≤ j ∧ j < k + ([] : List tag_field).length) := by
      simp only [List.length_nil]; omega
    simp only [fields_store, c, if_false]
  | cons f fs ih =>
    intro T k j h
    simp only [List.length_cons] at h
    simp only [fields_store]
    rw [ih (T.set k (field_value f)) (k + 1) j (by simp only [List.length_set]; omega)]
    by_cases hj : j = k
    · subst hj
      have c1 : ¬ (j + 1 ≤ j ∧ j < j + 1 + fs.length) := by omega
      have c2 : j ≤ j ∧ j < j + (f :: fs).length := by
        simp only [List.length_cons]; omega
      rw [if_neg c1, if_pos c2, List.getElem?_set_self (by omega), Nat.sub_self]
      simp
    · by_cases c : k + 1 ≤ j ∧ j < k + 1 + fs.length
      · have c2 : k ≤ j ∧ j < k + (f :: fs).length := by
          simp only [List.length_cons]; omega
        have e : j - k = (j - (k + 1)) + 1 := by omega
        simp only [c, c2, and_self, if_true]
        rw [e, List.getElem?_cons_succ]
      · have c2 : ¬ (k ≤ j ∧ j < k + (f :: fs).length) := by
          simp only [List.length_cons]; omega
        simp only [c, c2, if_false]
        exact List.getElem?_set_ne (Ne.symm hj)

/-- `nchan_parse_msg_tag` on a tag list of at most 255 valid fields. -/
theorem nchan_parse_msg_tag_fields (tags : List Int) (fs : List tag_field)
    (mid : nchan_msg_id_t) (ht : tags.length = 255) (hne : fs ≠ [])
    (hok : ∀ f ∈ fs, tag_field_ok f) (hlen : fs.length ≤ 255) :
    (nchan_parse_msg_tag tags (fields_text fs) mid).1 = fields_store tags 0 fs ∧
    (nchan_parse_msg_tag tags (fields_text fs) mid).2.time = mid.time ∧
    (nchan_parse_msg_tag tags (fields_text fs) mid).2.tagcount = fs.length ∧
    (nchan_parse_msg_tag tags (fields_text fs) mid).2.tagactive =
      fields_active mid.tagactive 0 fs ∧
    msgid_wf (nchan_parse_msg_tag tags (fields_text fs) mid).2 = true ∧
    ∀ j, j < fs.length →
      msgid_tag (nchan_parse_msg_tag tags (fields_text fs) mid).2 j =
        (fs[j]?).map field_value := by
  obtain ⟨h1, h2, h3⟩ := parse_fields fs ⟨0, 1, 0, tags, mid.tagactive⟩ hne hok rfl rfl
    (by simp only [Nat.zero_add]; exact hlen)
  simp only [Nat.zero_add] at h1 h2 h3
  have hT : (fields_store tags 0 fs).length = 255 := by rw [fields_store_length, ht]
  have hpos : 0 < fs.length := List.length_pos.mpr hne
  have hM : NCHAN_MULTITAG_MAX = 4 := rfl
  have hres : nchan_parse_msg_tag tags (fields_text fs) mid =
      (fields_store tags 0 fs,
        ⟨mid.time,
          if fs.length ≤ 4 then .fixed ((fields_store tags 0 fs).take 4)
          else .allocd (some (fields_store tags 0 fs)),
          fields_active mid.tagactive 0 fs, fs.length⟩) := by
    simp only [nchan_parse_msg_tag, hM]
    rw [h1, h2, h3]
  rw [hres]
  refine ⟨rfl, rfl, rfl, rfl, ?_, ?_⟩
  · by_cases hs : fs.length ≤ 4
    · simp only [msgid_wf, if_pos hs, hM, Bool.and_eq_true, decide_eq_true_eq,
        List.length_take, hT]
      exact ⟨hs, rfl⟩
    · simp only [msgid_wf, if_neg hs, hM, Bool.and_eq_true, decide_eq_true_eq, hT]
      exact ⟨Nat.lt_of_not_le hs, hlen⟩
  · intro j hj
    have hget := fields_store_get fs tags 0 j (by rw [ht]; omega)
    have c : 0 ≤ j ∧ j < 0 + fs.length := ⟨Nat.zero_le _, by omega⟩
    rw [if_pos c, Nat.sub_zero] at hget
    by_cases hs : fs.length ≤ 4
    · simp only [msgid_tag, msgid_tags, hM, if_pos hs]
      rw [List.getElem?_take_of_lt (by omega), hget]
    · simp only [msgid_tag, msgid_tags, hM, if_neg hs]
      exact hget

theorem nchan_parse_msg_tag_field_spec (tags : List Int) (fs : List tag_field)
    (mid : nchan_msg_id_t) (ht : tags.length = 255) (hne : fs ≠ [])
    (hok : ∀ f ∈ fs, tag_field_ok f) (hlen : fs.length ≤ 255) :
    (nchan_parse_msg_tag tags (fields_text fs) mid).2.tagcount = fs.length ∧
    ∀ (j : Nat) (hj : j < fs.length),
      (fs[j].digits = [] → fs[j].neg = true →
        msgid_tag (nchan_parse_msg_tag tags (fields_text fs) mid).2 j = some (-1)) ∧
      (¬ (fs[j].neg = true ∧ decimal_value fs[j].digits = 0) →
        msgid_tag (nchan_parse_msg_tag tags (fields_text fs) mid).2 j =
          some (if fs[j].neg then - decimal_value fs[j].digits
                else decimal_value fs[j].digits)) := by
  obtain ⟨-, -, h3, -, -, h6⟩ := nchan_parse_msg_tag_fields tags fs mid ht hne hok hlen
  refine ⟨h3, fun j hj => ?_⟩
  have hg : (fs[j]?).map field_value = some (field_value fs[j]) := by
    rw [List.getElem?_eq_getElem hj]; rfl
  rw [h6 j hj, hg]
  refine ⟨fun hd hn => ?_, fun hz => ?_⟩
  · have : decimal_value fs[j].digits = 0 := by rw [hd]; rfl
    simp only [field_value, this, hn, and_self, if_true]
  · have c : ¬ (decimal_value fs[j].digits = 0 ∧ fs[j].neg = true) := fun h => hz ⟨h.2, h.1⟩
    simp only [field_value, c, if_false]

/-! ## Lemmas: wire form -/

theorem digit_char_toNat (d : Nat) (h : d < 10) : (Char.ofNat (48 + d)).toNat = 48 + d := by
  interval_cases d <;> rfl

theorem decimal_value_digits (L : List Nat) (h : ∀ d ∈ L, d < 10) :
    decimal_value (L.reverse.map (fun d => Char.ofNat (48 + d))) = ((Nat.ofDigits 10 L : Nat) : Int) := by
  unfold decimal_value decimal_from
  rw [List.foldl_map, List.foldl_reverse]
  induction L with
  | nil => simp
  | cons d L ih =>
    have hd := h d (List.mem_cons_self _ _)
    rw [List.foldr_cons, ih (fun x hx => h x (List.mem_cons_of_mem _ hx)), digit_char_toNat d hd,
      Nat.ofDigits_cons]
    push_cast
    ring

theorem nat_decimal_value (n : Nat) : decimal_value (nat_decimal n) = n := by
  unfold nat_decimal
  by_cases h : n = 0
  · subst h; rfl
  · rw [if_neg h, decimal_value_digits _ (fun d hd => Nat.digits_lt_base (by norm_num) hd),
      Nat.ofDigits_digits]

theorem nat_decimal_digits (n : Nat) : ∀ c ∈ nat_decimal n, 48 ≤ c.toNat ∧ c.toNat ≤ 57 := by
  unfold nat_decimal
  by_cases h : n = 0
  · subst h
    intro c hc
    simp only [if_true, List.mem_singleton] at hc
    subst hc
    decide
  · rw [if_neg h]
    intro c hc
    simp only [List.mem_map, List.mem_reverse] at hc
    obtain ⟨d, hd, rfl⟩ := hc
    have hlt : d < 10 := Nat.digits_lt_base (by norm_num) hd
    rw [digit_char_toNat d hlt]
    omega

theorem nat_decimal_ne_nil (n : Nat) : nat_decimal n ≠ [] := by
  unfold nat_decimal
  by_cases h : n = 0
  · rw [if_pos h]; simp
  · rw [if_neg h]
    have : Nat.digits 10 n ≠ [] := Nat.digits_ne_nil_iff_ne_zero.mpr h
    simpa using this

/-- The field written for a tag in [-1, 32767] is valid and has the tag as its value. -/
theorem format_field_ok (short active : Bool) (v : Int) (h0 : -1 ≤ v) (h1 : v ≤ 32767) :
    tag_field_ok (format_field short active v) ∧
      field_value (format_field short active v) = v ∧
      (format_field short active v).active = active := by
  unfold format_field
  by_cases hneg : v < 0
  · have hv : v = -1 := by omega
    subst hv
    rw [if_pos hneg]
    have h1v : decimal_value (nat_decimal 1) = 1 := by
      rw [nat_decimal_value]; rfl
    cases short
    · have e : (if (-1 : Int) = -1 ∧ false = true then ([] : List Char)
          else nat_decimal (- (-1 : Int)).toNat) = nat_decimal 1 := by
        simp
      rw [e]
      refine ⟨⟨nat_decimal_digits 1, ?_⟩, ?_, rfl⟩
      · show decimal_value (nat_decimal 1) ≤ 32767
        rw [h1v]; decide
      · simp only [field_value, h1v, and_true, if_true]
        decide
    · have e : (if (-1 : Int) = -1 ∧ true = true then ([] : List Char)
          else nat_decimal (- (-1 : Int)).toNat) = [] := by
        simp
      rw [e]
      refine ⟨⟨fun c hc => absurd hc (List.not_mem_nil c),
        (by decide : decimal_value [] ≤ 32767)⟩, ?_, rfl⟩
      simp only [field_value]
      decide
  · rw [if_neg hneg]
    have hval : decimal_value (nat_decimal v.toNat) = v := by
      rw [nat_decimal_value]; omega
    refine ⟨⟨nat_decimal_digits _, ?_⟩, ?_, rfl⟩
    · show decimal_value (nat_decimal v.toNat) ≤ 32767
      rw [hval]; exact h1
    · simp only [field_value, Bool.false_eq_true, and_false, if_false]
      exact hval

theorem format_fields_length (short : Bool) (a : Nat) (vs : List Int) :
    ∀ k, (format_fields short a k vs).length = vs.length := by
  induction vs with
  | nil => intro k; rfl
  | cons v vs ih => intro k; simp only [format_fields, List.length_cons, ih]

theorem format_fields_ok (short : Bool) (a : Nat) (vs : List Int)
    (h : ∀ v ∈ vs, -1 ≤ v ∧ v ≤ 32767) :
    ∀ k, ∀ f ∈ format_fields short a k vs, tag_field_ok f := by
  induction vs with
  | nil => intro k f hf; simp [format_fields] at hf
  | cons v vs ih =>
    intro k f hf
    simp only [format_fields, List.mem_cons] at hf
    have hv := h v (List.mem_cons_self _ _)
    rcases hf with rfl | hf
    · exact (format_field_ok short _ v hv.1 hv.2).1
    · exact ih (fun x hx => h x (List.mem_cons_of_mem _ hx)) (k + 1) f hf

theorem format_fields_value (short : Bool) (a : Nat) (vs : List Int)
    (h : ∀ v ∈ vs, -1 ≤ v ∧ v ≤ 32767) :
    ∀ (k j : Nat), ((format_fields short a k vs)[j]?).map field_value = vs[j]? := by
  induction vs with
  | nil => intro k j; simp [format_fields]
  | cons v vs ih =>
    intro k j
    have hv := h v (List.mem_cons_self _ _)
    cases j with
    | zero =>
      simp only [format_fields, List.getElem?_cons_zero, Option.map_some']
      rw [(format_field_ok short _ v hv.1 hv.2).2.1]
    | succ j =>
      simp only [format_fields, List.getElem?_cons_succ]
      exact ih (fun x hx => h x (List.mem_cons_of_mem _ hx)) (k + 1) j

theorem format_fields_active (short : Bool) (a : Nat) (vs : List Int)
    (h : ∀ v ∈ vs, -1 ≤ v ∧ v ≤ 32767) :
    ∀ k ta, fields_active ta k (format_fields short a k vs) =
      if k ≤ a ∧ a < k + vs.length then a else ta := by
  induction vs with
  | nil =>
    intro k ta
    have c : ¬ (k ≤ a ∧ a < k + ([] : List Int).length) := by
      simp only [List.length_nil]; omega
    simp only [format_fields, fields_active, c, if_false]
  | cons v vs ih =>
    intro k ta
    have hv := h v (List.mem_cons_self _ _)
    simp only [format_fields, fields_active, (format_field_ok short _ v hv.1 hv.2).2.2,
      List.length_cons]
    rw [ih (fun x hx => h x (List.mem_cons_of_mem _ hx))]
    by_cases hk : k = a
    · subst hk
      have c1 : ¬ (k + 1 ≤ k ∧ k < k + 1 + vs.length) := by omega
      have c2 : k ≤ k ∧ k < k + (vs.length + 1) := by omega
      simp only [c1, c2, and_self, if_false, if_true, decide_True]
    · by_cases c : k + 1 ≤ a ∧ a < k + 1 + vs.length
      · have c2 : k ≤ a ∧ a < k + (vs.length + 1) := by omega
        simp only [c, c2, and_self, if_true]
      · have c2 : ¬ (k ≤ a ∧ a < k + (vs.length + 1)) := by omega
        simp only [c, c2, if_false, hk, decide_False, Bool.false_eq_true]

/-- The wire form depends on the time, the two counts and the first `tagcount` tags
only. -/
theorem msgid_to_str_congr (short : Bool) (a b : nchan_msg_id_t) (ht : a.time = b.time)
    (hc : a.tagcount = b.tagcount) (ha : a.tagactive = b.tagactive)
    (hg : ∀ i, i < b.tagcount → msgid_tag a i = msgid_tag b i) :
    msgid_to_str short a = msgid_to_str short b := by
  unfold msgid_to_str
  rw [ht, hc, ha]
  have : (List.range b.tagcount).map (fun i => (msgid_tag a i).getD 0) =
      (List.range b.tagcount).map (fun i => (msgid_tag b i).getD 0) := by
    apply List.map_congr_left
    intro i hi
    rw [hg i (List.mem_range.mp hi)]
  rw [this]

/-- Parsing the wire form of a message ID gives the ID back. -/
theorem msgid_to_str_parse (short : Bool) (tags : List Int) (cur id : nchan_msg_id_t)
    (ht : tags.length = 255) (hwf : msgid_wf id = true)
    (h0 : 0 ≤ id.time) (hmax : id.time ≤ NGX_MAX_INT_T_VALUE)
    (h1 : 1 ≤ id.tagcount) (h255 : id.tagcount ≤ 255) (hact : id.tagactive < id.tagcount)
    (hrange : ∀ i v, i < id.tagcount → msgid_tag id i = some v → -1 ≤ v ∧ v ≤ 32767) :
    (nchan_parse_compound_msgid tags cur (msgid_to_str short id)).1 = NGX_OK ∧
    (nchan_parse_compound_msgid tags cur (msgid_to_str short id)).2.2.time = id.time ∧
    (nchan_parse_compound_msgid tags cur (msgid_to_str short id)).2.2.tagcount = id.tagcount ∧
    (nchan_parse_compound_msgid tags cur (msgid_to_str short id)).2.2.tagactive =
      id.tagactive ∧
    msgid_wf (nchan_parse_compound_msgid tags cur (msgid_to_str short id)).2.2 = true ∧
    (∀ i, i < id.tagcount →
      msgid_tag (nchan_parse_compound_msgid tags cur (msgid_to_str short id)).2.2 i =
        msgid_tag id i) := by
  obtain ⟨a, ha, hal, -⟩ := msgid_wf_tags id hwf
  have hget : ∀ j, j < id.tagcount → msgid_tag id j = some ((msgid_tag id j).getD 0) := by
    intro j hj
    have hja : j < a.length := by omega
    rw [msgid_tag_of_tags id a ha j, List.getElem?_eq_getElem hja]
    rfl
  have hvs : ∀ v ∈ (List.range id.tagcount).map (fun i => (msgid_tag id i).getD 0),
      -1 ≤ v ∧ v ≤ 32767 := by
    intro v hv
    simp only [List.mem_map, List.mem_range] at hv
    obtain ⟨i, hi, rfl⟩ := hv
    exact hrange i _ hi (hget i hi)
  have hvget : ∀ j, j < id.tagcount →
      ((List.range id.tagcount).map (fun i => (msgid_tag id i).getD 0))[j]? = msgid_tag id j := by
    intro j hj
    rw [List.getElem?_map, List.getElem?_range hj, hget j hj]
    rfl
  have hlen : (format_fields short id.tagactive 0
      ((List.range id.tagcount).map (fun i => (msgid_tag id i).getD 0))).length = id.tagcount := by
    rw [format_fields_length]; simp
  have htime : int_decimal id.time = nat_decimal id.time.toNat := by
    unfold int_decimal
    rw [if_neg (by omega)]
  have hval : decimal_value (nat_decimal id.time.toNat) = id.time := by
    rw [nat_decimal_value]; omega
  have hatoi : ngx_atoi (nat_decimal id.time.toNat) ≠ NGX_ERROR :=
    (ngx_atoi_ok_iff _).mpr ⟨nat_decimal_ne_nil _, nat_decimal_digits _, by rw [hval]; exact hmax⟩
  have hne : format_fields short id.tagactive 0
      ((List.range id.tagcount).map (fun i => (msgid_tag id i).getD 0)) ≠ [] := by
    intro e
    rw [e] at hlen
    simp only [List.length_nil] at hlen
    omega
  obtain ⟨-, p2, p3, p4, p5, p6⟩ := nchan_parse_msg_tag_fields tags _
    { cur with time := decimal_value (nat_decimal id.time.toNat) } ht hne
    (format_fields_ok short id.tagactive _ hvs 0) (by rw [hlen]; exact h255)
  have hparse := nchan_parse_compound_msgid_ok tags cur (nat_decimal id.time.toNat)
    (fields_text (format_fields short id.tagactive 0
      ((List.range id.tagcount).map (fun i => (msgid_tag id i).getD 0)))) hatoi
  have hstr : msgid_to_str short id = nat_decimal id.time.toNat ++ ':' ::
      fields_text (format_fields short id.tagactive 0
        ((List.range id.tagcount).map (fun i => (msgid_tag id i).getD 0))) := by
    unfold msgid_to_str
    rw [htime]
  rw [hstr, hparse]
  refine ⟨rfl, ?_, ?_, ?_, p5, ?_⟩
  · exact p2.trans hval
  · exact p3.trans hlen
  · refine p4.trans ?_
    rw [format_fields_active short id.tagactive _ hvs 0]
    have c : 0 ≤ id.tagactive ∧ id.tagactive <
        0 + ((List.range id.tagcount).map (fun i => (msgid_tag id i).getD 0)).length := by
      simp only [List.length_map, List.length_range]
      omega
    rw [if_pos c]
  · intro i hi
    refine (p6 i (by rw [hlen]; exact hi)).trans ?_
    rw [format_fields_value short id.tagactive _ hvs 0 i]
    exact hvget i hi

/-! ## Lemmas: resume point -/

theorem chid_size_append (g : Nat) (ids : List (List Char)) (v : List Char) :
    chid_size g (ids ++ [v]) = chid_size g ids + (v.length + 1 + g) := by
  simp [chid_size]

theorem chid_push_inv (st st' : chid_state) (v : List Char) (g : Nat)
    (h : chid_push st v g = .ok st') (hinv : st.sz = chid_size g st.id) :
    st'.sz = chid_size g st'.id ∧ st'.id = st.id ++ [v] ∧ st.id.length < 255 := by
  unfold chid_push at h
  by_cases h255 : 255 ≤ st.id.length
  · rw [if_pos h255] at h; cases h
  · rw [if_neg h255] at h
    by_cases h4 : st.id.length < NCHAN_MULTITAG_MAX
    · rw [if_pos h4] at h
      cases hc : st.ctx with
      | none => rw [hc] at h; cases h
      | some c =>
        rw [hc] at h
        have := Except.ok.inj h
        subst this
        exact ⟨by simp only [chid_size_append, hinv], rfl, by omega⟩
    · rw [if_neg h4] at h
      have := Except.ok.inj h
      subst this
      exact ⟨by simp only [chid_size_append, hinv], rfl, by omega⟩

theorem split_loop_inv (s delim : List Char) (g : Nat) :
    ∀ (fuel cur : Nat) (st st' : chid_state),
      split_loop s delim g fuel cur st = some (.ok st') → st.sz = chid_size g st.id →
      st'.sz = chid_size g st'.id := by
  intro fuel
  induction fuel with
  | zero => intro cur st st' h; simp [split_loop] at h
  | succ k ih =>
    intro cur st st' h hinv
    unfold split_loop at h
    cases hs : nchan_strsplit s cur delim with
    | error e => rw [hs] at h; simp at h
    | ok r =>
      obtain ⟨ret, nxt⟩ := r
      rw [hs] at h
      cases ret with
      | none =>
        simp only [Option.some.injEq, Except.ok.injEq] at h
        subst h
        exact hinv
      | some cur_last =>
        simp only at h
        cases hp : chid_push st ((s.drop cur).take (cur_last - cur)) g with
        | error e => rw [hp] at h; simp at h
        | ok st1 =>
          rw [hp] at h
          exact ih nxt st1 st' h (chid_push_inv st st1 _ g hp hinv).1

theorem multi_resolve_inv (cf : nchan_loc_conf_t) (fuel : Nat)
    (cvs : List ngx_http_complex_value_t) :
    ∀ (st st' : chid_state) (rc : Int),
      multi_resolve cf fuel cvs st = some (.ok (rc, st')) →
      st.sz = chid_size cf.channel_group.length st.id →
      st'.sz = chid_size cf.channel_group.length st'.id := by
  induction cvs with
  | nil =>
    intro st st' rc h hinv
    simp only [multi_resolve, Option.some.injEq, Except.ok.injEq, Prod.mk.injEq] at h
    rw [← h.2]; exact hinv
  | cons cv rest ih =>
    intro st st' rc h hinv
    unfold multi_resolve at h
    by_cases hlt : st.id.length < 255
    · rw [if_neg (not_not.mpr hlt)] at h
      simp only at h
      by_cases hv : validate_id (ngx_http_complex_value cv) cf ≠ NGX_OK
      · rw [if_pos hv] at h
        simp only [Option.some.injEq, Except.ok.injEq, Prod.mk.injEq] at h
        rw [← h.2]; exact hinv
      · rw [if_neg hv] at h
        by_cases hd : cf.channel_id_split_delimiter.length > 0
        · rw [if_pos hd] at h
          cases hsl : split_loop (ngx_http_complex_value cv) cf.channel_id_split_delimiter
              cf.channel_group.length fuel 0 st with
          | none => rw [hsl] at h; simp at h
          | some r =>
            rw [hsl] at h
            cases r with
            | error e => simp at h
            | ok st1 =>
              simp only at h
              exact ih st1 st' rc h (split_loop_inv _ _ _ fuel 0 st st1 hsl hinv)
        · rw [if_neg hd] at h
          cases hp : chid_push st (ngx_http_complex_value cv) cf.channel_group.length with
          | error e => rw [hp] at h; simp at h
          | ok st1 =>
            rw [hp] at h
            simp only at h
            exact ih st1 st' rc h (chid_push_inv st st1 _ _ hp hinv).1
    · rw [if_pos hlt] at h
      simp only [Option.some.injEq, Except.ok.injEq, Prod.mk.injEq] at h
      rw [← h.2]; exact hinv

theorem multi_write_length (sep : Char) (g : List Char) (multi : Bool) (ids : List (List Char)) :
    (multi_write sep g multi ids).length =
      chid_size g.length ids + (if multi then ids.length else 0) := by
  induction ids with
  | nil => cases multi <;> rfl
  | cons v rest ih =>
    simp only [multi_write, List.length_append, List.length_cons, ih, chid_size, List.map_cons,
      List.sum_cons]
    cases multi <;> simp <;> omega

theorem multi_write_single (sep : Char) (g v : List Char) :
    multi_write sep g false [v] = g ++ '/' :: v := by
  simp [multi_write]

theorem multi_write_multi (sep : Char) (g : List Char) (ids : List (List Char)) :
    multi_write sep g true ids = (ids.map (fun v => g ++ '/' :: v ++ [sep])).flatten := by
  induction ids with
  | nil => rfl
  | cons v rest ih => simp [multi_write, ih]

theorem flatten_sep_intercalate (sep : Char) (parts : List (List Char)) :
    (parts.map (fun p => p ++ [sep])).flatten = [sep].intercalate (parts ++ [[]]) := by
  induction parts with
  | nil => rfl
  | cons p ps ih =>
    rw [List.map_cons, List.flatten_cons, ih]
    cases ps with
    | nil => simp [List.intercalate]
    | cons q qs => simp [List.intercalate, List.intersperse]

theorem composite_split_join (sep : Char) (parts : List (List Char))
    (h : ∀ p ∈ parts, sep ∉ p) :
    composite_split sep (composite_join sep parts) = parts := by
  unfold composite_split composite_join
  have hd : ('m' :: '/' :: sep :: (parts.map (fun p => p ++ [sep])).flatten).drop 3 =
      (parts.map (fun p => p ++ [sep])).flatten := rfl
  rw [hd, flatten_sep_intercalate, List.splitOn_intercalate _ sep ?_ (by simp)]
  · exact List.dropLast_concat
  · intro l hl
    rcases List.mem_append.mp hl with h1 | h1
    · exact h l h1
    · simp only [List.mem_singleton] at h1
      subst h1
      exact List.not_mem_nil sep

theorem composite_id_join (sep : Char) (g : List Char) (ids : List (List Char)) :
    composite_id sep g ids = composite_join sep (ids.map (fun v => g ++ '/' :: v)) := by
  unfold composite_id composite_join
  simp [List.map_map, Function.comp_def]

/-- `nchan_process_multi_channel_id` after its first loop has ended normally and when
the allocation succeeds. -/
theorem process_multi_ok (sep : Char) (fuel : Nat) (idcf : List ngx_http_complex_value_t)
    (cf : nchan_loc_conf_t) (ctx : Option nchan_request_ctx_t) (st : chid_state)
    (hres : multi_resolve cf fuel idcf ⟨[], 0, ctx⟩ = some (.ok (NGX_OK, st))) :
    ∃ out, nchan_process_multi_channel_id sep fuel true idcf cf ctx =
        some (.ok ⟨NGX_OK, some out,
          st.ctx.map (fun c => { c with channel_id_count := st.id.length })⟩) ∧
      out.len = out.data.length ∧
      (∀ v, st.id = [v] → out.data = cf.channel_group ++ '/' :: v) ∧
      (1 < st.id.length → out.data = composite_id sep cf.channel_group st.id) := by
  have hinv := multi_resolve_inv cf fuel idcf ⟨[], 0, ctx⟩ st NGX_OK hres rfl
  have hok : ¬ (NGX_OK ≠ NGX_OK) := fun h => h rfl
  by_cases hn : st.id.length > 1
  · have hlen : st.sz + (3 + st.id.length) =
        (['m', '/', sep] ++ multi_write sep cf.channel_group true st.id).length := by
      rw [List.length_append, multi_write_length, hinv]
      simp only [List.length_cons, List.length_nil, if_true]
      omega
    refine ⟨⟨st.sz + (3 + st.id.length),
      ['m', '/', sep] ++ multi_write sep cf.channel_group true st.id⟩, ?_, hlen, ?_, ?_⟩
    · unfold nchan_process_multi_channel_id
      simp only [hres, hok, if_false, hn, if_true, decide_True, not_true_eq_false,
        hlen, lt_self_iff_false]
    · intro v hv
      rw [hv] at hn
      simp at hn
    · intro _
      rw [multi_write_multi]
      rfl
  · have hlen : st.sz = (multi_write sep cf.channel_group false st.id).length := by
      rw [multi_write_length, hinv]
      simp
    refine ⟨⟨st.sz, multi_write sep cf.channel_group false st.id⟩, ?_, hlen, ?_, ?_⟩
    · unfold nchan_process_multi_channel_id
      simp only [hres, hok, if_false, hn, decide_False, not_true_eq_false, List.nil_append]
      rw [if_neg (by rw [← hlen]; exact lt_irrefl _)]
    · intro v hv
      rw [hv, multi_write_single]
    · intro h
      exact absurd h hn

theorem validate_id_spec (id : List Char) (cf : nchan_loc_conf_t)
    (h0 : 0 ≤ cf.max_channel_id_length) (h1 : cf.max_channel_id_length < 4294967296) :
    validate_id id cf ≠ NGX_OK ↔ cf.max_channel_id_length < (id.length : Int) := by
  unfold validate_id
  rw [Int.emod_eq_of_lt h0 h1]
  by_cases h : (id.length : Int) > cf.max_channel_id_length
  · rw [if_pos h]
    exact ⟨fun _ => h, fun _ => by decide⟩
  · rw [if_neg h]
    exact ⟨fun hh => absurd rfl hh, fun hh => absurd hh h⟩

/-- The first loop of `nchan_process_multi_channel_id` without split delimiter, with a
request context, when the templates fit the array `id`. -/
theorem multi_resolve_plain (cf : nchan_loc_conf_t) (fuel : Nat)
    (hd : cf.channel_id_split_delimiter = []) (cvs : List ngx_http_complex_value_t) :
    ∀ st : chid_state, st.ctx ≠ none → st.id.length + cvs.length ≤ 255 →
      ∃ st', multi_resolve cf fuel cvs st =
          some (.ok (if ∀ cv ∈ cvs, validate_id (ngx_http_complex_value cv) cf = NGX_OK
            then NGX_OK else NGX_DECLINED, st')) ∧
        st'.ctx ≠ none ∧
        ((∀ cv ∈ cvs, validate_id (ngx_http_complex_value cv) cf = NGX_OK) →
          st'.id = st.id ++ cvs.map ngx_http_complex_value) := by
  induction cvs with
  | nil =>
    intro st hc _
    refine ⟨st, ?_, hc, fun _ => by simp⟩
    simp [multi_resolve]
  | cons cv rest ih =>
    intro st hc hlen
    simp only [List.length_cons] at hlen
    have hlt : st.id.length < 255 := by omega
    have hdl : ¬ cf.channel_id_split_delimiter.length > 0 := by rw [hd]; simp
    by_cases hv : validate_id (ngx_http_complex_value cv) cf = NGX_OK
    · have hpush : ∃ st1, chid_push st (ngx_http_complex_value cv) cf.channel_group.length =
          .ok st1 ∧ st1.ctx ≠ none ∧ st1.id = st.id ++ [ngx_http_complex_value cv] := by
        unfold chid_push
        rw [if_neg (by omega)]
        cases hctx : st.ctx with
        | none => exact absurd hctx hc
        | some c =>
          by_cases h4 : st.id.length < NCHAN_MULTITAG_MAX
          · rw [if_pos h4]
            exact ⟨_, rfl, by simp, rfl⟩
          · rw [if_neg h4]
            exact ⟨_, rfl, by simp [hctx], rfl⟩
      obtain ⟨st1, hp, hc1, hid1⟩ := hpush
      obtain ⟨st', h1, h2, h3⟩ := ih st1 hc1 (by rw [hid1]; simp; omega)
      refine ⟨st', ?_, h2, ?_⟩
      · unfold multi_resolve
        rw [if_neg (not_not.mpr hlt)]
        simp only [hv, ne_eq, not_true_eq_false, if_false, hdl, hp, h1]
        congr 3
        simp [hv]
      · intro hall
        rw [h3 (fun x hx => hall x (List.mem_cons_of_mem _ hx)), hid1]
        simp
    · refine ⟨st, ?_, hc, fun hall => absurd (hall cv (List.mem_cons_self _ _)) hv⟩
      unfold multi_resolve
      rw [if_neg (not_not.mpr hlt)]
      have hne : ¬ ∀ x ∈ cv :: rest, validate_id (ngx_http_complex_value x) cf = NGX_OK :=
        fun hall => hv (hall cv (List.mem_cons_self _ _))
      simp only [ne_eq, hv, not_false_eq_true, if_true, hne, if_false]

/-- `nchan_get_channel_id` with `fail_hard` on the templates of a location without
split delimiter. -/
theorem get_channel_id_multi (sep : Char) (fuel : Nat) (palloc : Bool)
    (vv : Option ngx_http_variable_value_t) (cf : nchan_loc_conf_t) (c : nchan_request_ctx_t)
    (what : pub_or_sub_t) (hd : cf.channel_id_split_delimiter = [])
    (hn : 0 < (channel_id_conf cf what).length) (hlen : (channel_id_conf cf what).length ≤ 255)
    (h0 : 0 ≤ cf.max_channel_id_length) (h1 : cf.max_channel_id_length < 4294967296) :
    ∃ res, nchan_get_channel_id sep fuel palloc vv cf (some c) what true = some (.ok res) ∧
      (res.response = some (.status NGX_HTTP_FORBIDDEN) ↔
        ∃ cv ∈ channel_id_conf cf what,
          cf.max_channel_id_length < ((ngx_http_complex_value cv).length : Int)) ∧
      (res.response = some (.status NGX_HTTP_FORBIDDEN) → res.id = none) ∧
      ((∀ cv ∈ channel_id_conf cf what,
          ((ngx_http_complex_value cv).length : Int) ≤ cf.max_channel_id_length) →
        (palloc = false →
          res.id = none ∧ res.response = some (.status NGX_HTTP_INTERNAL_SERVER_ERROR)) ∧
        (palloc = true → res.id ≠ none ∧ res.response = none)) := by
  obtain ⟨st, hres, -, -⟩ := multi_resolve_plain cf fuel hd (channel_id_conf cf what)
    ⟨[], 0, some c⟩ (by simp) (by simpa using hlen)
  have hiff : (∀ cv ∈ channel_id_conf cf what,
      validate_id (ngx_http_complex_value cv) cf = NGX_OK) ↔
      ∀ cv ∈ channel_id_conf cf what,
        ((ngx_http_complex_value cv).length : Int) ≤ cf.max_channel_id_length := by
    constructor
    · intro h cv hcv
      by_contra hc
      exact (validate_id_spec _ cf h0 h1).mpr (lt_of_not_le hc) (h cv hcv)
    · intro h cv hcv
      by_contra hc
      exact absurd ((validate_id_spec _ cf h0 h1).mp hc) (not_lt.mpr (h cv hcv))
  by_cases hall : ∀ cv ∈ channel_id_conf cf what,
      validate_id (ngx_http_complex_value cv) cf = NGX_OK
  · rw [if_pos hall] at hres
    have hex : ¬ ∃ cv ∈ channel_id_conf cf what,
        cf.max_channel_id_length < ((ngx_http_complex_value cv).length : Int) := by
      rintro ⟨cv, hcv, hlt⟩
      exact absurd hlt (not_lt.mpr (hiff.mp hall cv hcv))
    cases palloc with
    | false =>
      refine ⟨⟨none, st.ctx.map (fun c => { c with channel_id_count := st.id.length }),
        some (.status NGX_HTTP_INTERNAL_SERVER_ERROR)⟩, ?_, ?_, ?_, ?_⟩
      · unfold nchan_get_channel_id nchan_process_multi_channel_id
        simp only [hn, gt_iff_lt, if_true, hres]
        rfl
      · exact ⟨(fun h => by cases h), fun h => absurd h hex⟩
      · intro h; cases h
      · intro _
        exact ⟨fun _ => ⟨rfl, rfl⟩, fun h => by cases h⟩
    | true =>
      obtain ⟨out, hout, -, -, -⟩ := process_multi_ok sep fuel _ cf (some c) st hres
      refine ⟨⟨some out, st.ctx.map (fun c => { c with channel_id_count := st.id.length }),
        none⟩, ?_, ?_, ?_, ?_⟩
      · unfold nchan_get_channel_id
        simp only [hn, gt_iff_lt, if_true, hout]
        rfl
      · exact ⟨(fun h => by cases h), fun h => absurd h hex⟩
      · intro h; cases h
      · intro _
        exact ⟨(fun h => by cases h), fun _ => ⟨by simp, rfl⟩⟩
  · rw [if_neg hall] at hres
    have hex : ∃ cv ∈ channel_id_conf cf what,
        cf.max_channel_id_length < ((ngx_http_complex_value cv).length : Int) := by
      by_contra hc
      apply hall
      apply hiff.mpr
      intro cv hcv
      by_contra hle
      exact hc ⟨cv, hcv, lt_of_not_le hle⟩
    refine ⟨⟨none, st.ctx, some (.status NGX_HTTP_FORBIDDEN)⟩, ?_, ?_, ?_, ?_⟩
    · unfold nchan_get_channel_id nchan_process_multi_channel_id
      simp only [hn, gt_iff_lt, if_true, hres]
      rfl
    · exact ⟨fun _ => hex, fun _ => rfl⟩
    · intro _; rfl
    · intro h
      exact absurd (hiff.mpr h) hall

/-- `nchan_get_channel_id` with `fail_hard` on a location without templates for the
channel ID: the legacy variable decides. -/
theorem get_channel_id_legacy (sep : Char) (fuel : Nat) (palloc : Bool)
    (vv : Option ngx_http_variable_value_t) (cf : nchan_loc_conf_t) (c : nchan_request_ctx_t)
    (what : pub_or_sub_t) (hn : (channel_id_conf cf what).length = 0)
    (h0 : 0 ≤ cf.max_channel_id_length) (h1 : cf.max_channel_id_length < 4294967296) :
    ∃ res, nchan_get_channel_id sep fuel palloc vv cf (some c) what true = some (.ok res) ∧
      ((vv = none ∨ ∃ v, vv = some v ∧ (v.not_found = true ∨ v.data = [])) →
        res.id = none ∧
          res.response = some (.string NGX_HTTP_NOT_FOUND TEXT_PLAIN NO_CHANNEL_ID_MESSAGE)) ∧
      (∀ v, vv = some v → v.not_found = false → v.data ≠ [] →
        (res.response = some (.status NGX_HTTP_FORBIDDEN) ↔
          cf.max_channel_id_length < (v.data.length : Int)) ∧
        (res.response = some (.status NGX_HTTP_FORBIDDEN) → res.id = none) ∧
        ((v.data.length : Int) ≤ cf.max_channel_id_length →
          (palloc = false →
            res.id = none ∧ res.response = some (.status NGX_HTTP_INTERNAL_SERVER_ERROR)) ∧
          (palloc = true → res.id ≠ none ∧ res.response = none))) := by
  have hn' : ¬ (channel_id_conf cf what).length > 0 := by omega
  cases hvv : vv with
  | none =>
    refine ⟨⟨none, some { c with channel_id_count := 0 },
      some (.string NGX_HTTP_NOT_FOUND TEXT_PLAIN NO_CHANNEL_ID_MESSAGE)⟩, ?_, ?_, ?_⟩
    · unfold nchan_get_channel_id nchan_process_legacy_channel_id
      simp only [hn', if_false]
      rfl
    · intro _; exact ⟨rfl, rfl⟩
    · intro v hv; cases hv
  | some v =>
    by_cases hbad : v.not_found = true ∨ v.data.length = 0
    · refine ⟨⟨none, some { c with channel_id_count := 0 },
        some (.string NGX_HTTP_NOT_FOUND TEXT_PLAIN NO_CHANNEL_ID_MESSAGE)⟩, ?_, ?_, ?_⟩
      · unfold nchan_get_channel_id nchan_process_legacy_channel_id
        simp only [hn', if_false, hbad, if_true]
        rfl
      · intro _; exact ⟨rfl, rfl⟩
      · intro w hw hnf hne
        have hw' : v = w := Option.some.inj hw
        subst hw'
        rcases hbad with h | h
        · rw [hnf] at h; cases h
        · exact absurd (List.length_eq_zero.mp h) hne
    · have hgood : ¬ (vv = none ∨ ∃ w, vv = some w ∧ (w.not_found = true ∨ w.data = [])) := by
        rw [hvv]
        rintro (h | ⟨w, hw, hb⟩)
        · cases h
        · have hw' : v = w := Option.some.inj hw
          subst hw'
          apply hbad
          rcases hb with h | h
          · exact Or.inl h
          · exact Or.inr (by rw [h]; rfl)
      rw [hvv] at hgood
      by_cases hv : validate_id v.data cf ≠ NGX_OK
      · have hlong := (validate_id_spec _ cf h0 h1).mp hv
        refine ⟨⟨none, some { c with channel_id_count := 0 },
          some (.status NGX_HTTP_FORBIDDEN)⟩, ?_, ?_, ?_⟩
        · unfold nchan_get_channel_id nchan_process_legacy_channel_id
          simp only [hn', if_false, hbad]
          rw [if_pos hv]
          rfl
        · intro h; exact absurd h hgood
        · intro w hw _ _
          have hw' : v = w := Option.some.inj hw
          subst hw'
          exact ⟨⟨fun _ => hlong, fun _ => rfl⟩, fun _ => rfl,
            fun hle => absurd hlong (not_lt.mpr hle)⟩
      · have hshort : ¬ cf.max_channel_id_length < (v.data.length : Int) :=
          fun h => hv ((validate_id_spec _ cf h0 h1).mpr h)
        cases palloc with
        | false =>
          refine ⟨⟨none, some { c with channel_id_count := 0 },
            some (.status NGX_HTTP_INTERNAL_SERVER_ERROR)⟩, ?_, ?_, ?_⟩
          · unfold nchan_get_channel_id nchan_process_legacy_channel_id
            simp only [hn', if_false, hbad]
            rw [if_neg hv]
            rfl
          · intro h; exact absurd h hgood
          · intro w hw _ _
            have hw' : v = w := Option.some.inj hw
            subst hw'
            exact ⟨⟨(fun h => by cases h), fun h => absurd h hshort⟩, (fun h => by cases h),
              fun _ => ⟨fun _ => ⟨rfl, rfl⟩, fun h => by cases h⟩⟩
        | true =>
          refine ⟨⟨some ⟨cf.channel_group.length + 1 + v.data.length,
              cf.channel_group ++ '/' :: v.data⟩,
            some { c with channel_id_count := 1,
                          channel_id := c.channel_id.set 0 (cf.channel_group ++ '/' :: v.data) },
            none⟩, ?_, ?_, ?_⟩
          · unfold nchan_get_channel_id nchan_process_legacy_channel_id
            simp only [hn', if_false, hbad]
            rw [if_neg hv]
            rfl
          · intro h; exact absurd h hgood
          · intro w hw _ _
            have hw' : v = w := Option.some.inj hw
            subst hw'
            exact ⟨⟨(fun h => by cases h), fun h => absurd h hshort⟩, (fun h => by cases h),
              fun _ => ⟨(fun h => by cases h), fun _ => ⟨by simp, rfl⟩⟩⟩

/-! ## Lemmas: dispatcher -/

theorem char_toNat_inj (a b : Char) (h : a.toNat = b.toNat) : a = b := by
  apply Char.ext
  apply UInt32.ext
  exact h

/-- On two texts of the same length, the first without NUL byte, `ngx_strncmp` over
that length is an equality test. -/
theorem ngx_strncmp_eq (a : List Char) :
    ∀ b : List Char, a.length = b.length → (∀ c ∈ a, c.toNat ≠ 0) →
      (ngx_strncmp a b a.length = 0 ↔ a = b) := by
  induction a with
  | nil =>
    intro b hl _
    have : b = [] := List.length_eq_zero.mp hl.symm
    subst this
    simp [ngx_strncmp]
  | cons x a ih =>
    intro b hl hn
    cases b with
    | nil => simp at hl
    | cons y b =>
      simp only [List.length_cons, Nat.add_right_cancel_iff] at hl
      have hx : x.toNat ≠ 0 := hn x (List.mem_cons_self _ _)
      simp only [List.length_cons, ngx_strncmp, List.headD_cons, List.tail_cons]
      by_cases hxy : x = y
      · subst hxy
        simp only [if_true, hx, ne_eq, not_false_eq_true, List.cons.injEq, true_and]
        exact ih b hl (fun c hc => hn c (List.mem_cons_of_mem _ hc))
      · simp only [hxy, if_false, List.cons.injEq, false_and, iff_false]
        intro h
        apply hxy
        apply char_toNat_inj
        omega

/-- The scan of `ngx_strnstr` finds nothing when fewer bytes are left than the pattern
has. -/
theorem strnstr_scan_short (c2 : Char) (rest2 : List Char) (s : List Char) :
    ∀ len, len ≤ rest2.length → strnstr_scan c2 rest2 s len = none := by
  induction s with
  | nil => intro len _; cases len <;> rfl
  | cons c1 rest ih =>
    intro len hlen
    cases len with
    | zero => rfl
    | succ n =>
      have hrec := ih n (by omega)
      simp only [strnstr_scan, hrec, Option.map_none']
      have hgt : rest2.length > n := by omega
      simp only [hgt, if_true, ite_self]

/-- The `Origin` test of `nchan_pubsub_handler` on an `Origin` value without NUL
byte. -/
theorem origin_forbidden_spec (allow o : List Char) (hno : ∀ c ∈ o, c.toNat ≠ 0) :
    origin_forbidden allow o = true ↔ allow ≠ ['*'] ∧ (o = [] ∨ o ≠ allow) := by
  have hstar : (allow.length = 1 ∧ allow.head? = some '*') ↔ allow = ['*'] := by
    constructor
    · rintro ⟨h1, h2⟩
      cases allow with
      | nil => simp at h1
      | cons a t =>
        simp only [List.length_cons, Nat.add_left_eq_self, List.length_eq_zero] at h1
        simp only [List.head?_cons, Option.some.injEq] at h2
        rw [h1, h2]
    · intro h; rw [h]; exact ⟨rfl, rfl⟩
  have hin : (o.length = allow.length ∧ ngx_strnstr o allow o.length ≠ none) ↔
      (o ≠ [] ∧ o = allow) := by
    cases allow with
    | nil =>
      simp only [ngx_strnstr, ne_eq, not_true_eq_false, and_false, false_iff, not_and]
      intro h1 h2
      exact h1 h2
    | cons c2 rest2 =>
      cases o with
      | nil => simp [ngx_strnstr]
      | cons c1 rest =>
        have hc1 : c1.toNat ≠ 0 := hno c1 (List.mem_cons_self _ _)
        simp only [ngx_strnstr, List.length_cons, Nat.add_right_cancel_iff, strnstr_scan, hc1,
          if_false, ne_eq, List.cons.injEq, not_false_eq_true, reduceCtorEq, true_and]
        constructor
        · rintro ⟨hl, hne⟩
          have hshort := strnstr_scan_short c2 rest2 rest rest.length (by omega)
          by_cases hc : c1 = c2
          · refine ⟨hc, ?_⟩
            by_contra hr
            have hcmp : ¬ ngx_strncmp rest rest2 rest2.length = 0 := by
              rw [← hl]
              exact fun h => hr ((ngx_strncmp_eq rest rest2 hl
                (fun c hcm => hno c (List.mem_cons_of_mem _ hcm))).mp h)
            have hng : ¬ rest2.length > rest.length := by omega
            simp [hc, hng, hcmp, hshort] at hne
          · simp [hc, hshort] at hne
        · rintro ⟨hc, hr⟩
          subst hc
          subst hr
          refine ⟨rfl, ?_⟩
          have hcmp : ngx_strncmp rest rest rest.length = 0 :=
            (ngx_strncmp_eq rest rest rfl
              (fun c hcm => hno c (List.mem_cons_of_mem _ hcm))).mpr rfl
          simp [hcmp]
  unfold origin_forbidden
  by_cases h1 : allow.length = 1 ∧ allow.head? = some '*'
  · have := hstar.mp h1
    simp [h1, this]
  · have hne : allow ≠ ['*'] := fun h => h1 (hstar.mpr h)
    rw [if_pos h1]
    by_cases h2 : o.length = allow.length ∧ ngx_strnstr o allow o.length ≠ none
    · have h3 := hin.mp h2
      rw [if_neg (not_not.mpr h2)]
      simp only [Bool.false_eq_true, false_iff, not_and, not_or, not_not]
      intro _
      exact ⟨h3.1, h3.2⟩
    · rw [if_pos h2]
      simp only [true_iff]
      refine ⟨hne, ?_⟩
      by_contra hc
      simp only [not_or, not_not] at hc
      exact h2 (hin.mpr ⟨hc.1, hc.2⟩)

/-- The handler on a request that fails the `Origin` test. -/
theorem pubsub_handler_origin (cf : nchan_loc_conf_t) (r : pubsub_request_t) (o : List Char)
    (hp : r.pcalloc = true)
    (ho : nchan_get_header_value r.headers NCHAN_HEADER_ORIGIN = some o)
    (hf : origin_forbidden cf.allow_origin o = true) :
    nchan_pubsub_handler cf r =
      some (.ok ⟨NGX_OK, [.respond (.status NGX_HTTP_FORBIDDEN)], some (pubsub_ctx r)⟩) := by
  unfold nchan_pubsub_handler
  simp only [hp, not_true_eq_false, if_false, ho, hf, if_true]
  rfl

/-- The handler on a request that passes the `Origin` test: every result it gives
begins with the call of `nchan_get_channel_id`. -/
theorem pubsub_handler_passed (cf : nchan_loc_conf_t) (r : pubsub_request_t)
    (hp : r.pcalloc = true)
    (ho : ∀ o, nchan_get_header_value r.headers NCHAN_HEADER_ORIGIN = some o →
      origin_forbidden cf.allow_origin o = false)
    (res : pubsub_result_t) (h : nchan_pubsub_handler cf r = some (.ok res)) :
    res.events.head? = some .get_channel_id := by
  have hof : (match nchan_get_header_value r.headers NCHAN_HEADER_ORIGIN with
      | some o => origin_forbidden cf.allow_origin o
      | none => false) = false := by
    cases hh : nchan_get_header_value r.headers NCHAN_HEADER_ORIGIN with
    | none => rfl
    | some o => exact ho o hh
  unfold nchan_pubsub_handler at h
  simp only [hp, not_true_eq_false, if_false, hof, Bool.false_eq_true] at h
  cases hg : nchan_get_channel_id r.sep r.fuel r.palloc r.vv cf (some (pubsub_ctx r)) .SUB true with
  | none => rw [hg] at h; simp at h
  | some e =>
    rw [hg] at h
    cases e with
    | error e => simp at h
    | ok got =>
      obtain ⟨gid, gctx, gresp⟩ := got
      cases gid with
      | none =>
        simp only [Option.some.injEq, Except.ok.injEq] at h
        rw [← h]
        rfl
      | some cid =>
        cases gctx with
        | none => simp at h
        | some c =>
          simp only [Option.some.injEq, Except.ok.injEq] at h
          rw [← h]
          rfl

/-! ## Lemmas: request body -/

theorem mem_write_ok (mem : List Char) (k : Nat) (src : List Char)
    (h : k + src.length ≤ mem.length) :
    ∃ m, mem_write mem k src = .ok m ∧ m.length = mem.length ∧
      m.take (k + src.length) = mem.take k ++ src := by
  refine ⟨mem.take k ++ src ++ mem.drop (k + src.length), ?_, ?_, ?_⟩
  · unfold mem_write
    rw [if_pos h]
  · simp only [List.length_append, List.length_take, List.length_drop]
    omega
  · have hl : (mem.take k ++ src).length = k + src.length := by
      simp only [List.length_append, List.length_take]
      omega
    rw [← hl, List.take_left']
    rfl

/-- The copy loop on buffers in memory whose sizes sum to no more than what is left of
the content length: the bytes from `pos` on are extended by the bytes of the
buffers. -/
theorem body_copy_loop_spec (n : Int) (chain : List ngx_buf_t) :
    ∀ buf : temp_buf_t, (∀ b ∈ chain, b.in_file = false) → buf.pos = 0 →
      buf.start = buf.last → ((buf.last : Int) + ((chain.map (fun b => b.data)).flatten.length : Int) = n) →
      n + 1 ≤ buf.mem.length →
      ∃ out, body_copy_loop n chain buf = .ok (some out) ∧ out.pos = 0 ∧
        out.mem.length = buf.mem.length ∧
        out.mem.take out.last = buf.mem.take buf.last ++ (chain.map (fun b => b.data)).flatten := by
  induction chain with
  | nil =>
    intro buf _ hpos _ _ _
    exact ⟨buf, rfl, hpos, rfl, by simp⟩
  | cons b chain ih =>
    intro buf hmem hpos hstart hsum hcap
    have hb : b.in_file = false := hmem b (List.mem_cons_self _ _)
    simp only [List.map_cons, List.flatten_cons, List.length_append, Nat.cast_add] at hsum
    have hrest_nonneg : (0 : Int) ≤ ((chain.map (fun b => b.data)).flatten.length : Int) :=
      Int.natCast_nonneg _
    by_cases hreset : (b.data.length : Int) ≥ n
    · -- the buffer holds the whole content: nothing has been written before it
      have hlast0 : buf.last = 0 := by omega
      have hrest0 : (chain.map (fun b => b.data)).flatten.length = 0 := by omega
      have hlen : (b.data.length : Int) = n := by omega
      have hn : n.toNat = b.data.length := by omega
      obtain ⟨m, hm1, hm2, hm3⟩ := mem_write_ok buf.mem 0 b.data (by omega)
      obtain ⟨out, ho1, ho2, ho3, ho4⟩ := ih
        { buf with mem := m, last := 0 + b.data.length, start := 0 + b.data.length }
        (fun x hx => hmem x (List.mem_cons_of_mem _ hx)) hpos rfl
        (by simp only [Nat.zero_add]; omega) (by simp only [hm2]; exact hcap)
      refine ⟨out, ?_, ho2, by rw [ho3]; exact hm2, ?_⟩
      · unfold body_copy_loop
        simp only [hreset, decide_True, if_true, hb, Bool.false_eq_true, if_false, hpos, hn,
          List.take_length, hm1]
        rw [if_neg (by omega)]
        rw [hpos] at ho1
        exact ho1
      · rw [ho4]
        simp only [Nat.zero_add] at hm3 ⊢
        rw [hm3, hlast0]
        simp
    · have hlen_nonneg : ¬ ((b.data.length : Int) < 0) := by omega
      obtain ⟨m, hm1, hm2, hm3⟩ := mem_write_ok buf.mem buf.start b.data (by omega)
      obtain ⟨out, ho1, ho2, ho3, ho4⟩ := ih
        { buf with mem := m, last := buf.start + b.data.length,
                   start := buf.start + b.data.length }
        (fun x hx => hmem x (List.mem_cons_of_mem _ hx)) hpos rfl
        (by simp only [Nat.cast_add]; omega) (by simp only [hm2]; exact hcap)
      refine ⟨out, ?_, ho2, by rw [ho3]; exact hm2, ?_⟩
      · unfold body_copy_loop
        simp only [hreset, decide_False, Bool.false_eq_true, if_false, hb, hlen_nonneg,
          Int.toNat_ofNat, List.take_length, hm1]
        exact ho1
      · rw [ho4]
        rw [hstart] at hm3
        simp only [hstart, hm3, List.map_cons, List.flatten_cons, List.append_assoc]

/-- `nchan_request_body_to_single_buffer` on a chain of two or more buffers in memory
whose sizes sum to the content length, when the new buffer is allocated. -/
theorem request_body_coalesce (n : Int) (bufs : List ngx_buf_t) (h2 : 2 ≤ bufs.length)
    (hmem : ∀ b ∈ bufs, b.in_file = false)
    (hsum : (((bufs.map (fun b => b.data)).flatten.length : Nat) : Int) = n) :
    nchan_request_body_to_single_buffer true n bufs =
      .ok (some ⟨false, (bufs.map (fun b => b.data)).flatten, false⟩) := by
  cases bufs with
  | nil => simp at h2
  | cons b rest =>
    cases rest with
    | nil => simp at h2
    | cons c rest =>
      have hb : b.in_file = false := hmem b (List.mem_cons_self _ _)
      have hn0 : (0 : Int) ≤ n := by rw [← hsum]; exact Int.natCast_nonneg _
      have hneg : ¬ (n + 1 < 0) := by omega
      obtain ⟨out, ho1, ho2, -, ho4⟩ := body_copy_loop_spec n (b :: c :: rest)
        ⟨List.replicate (n + 1).toNat (Char.ofNat 0), 0, 0, 0⟩ hmem rfl rfl
        (by simp only [Nat.cast_zero, zero_add]; exact hsum)
        (by simp only [List.length_replicate]; omega)
      unfold nchan_request_body_to_single_buffer
      simp only [hb, Bool.false_eq_true, if_false, hneg, not_true_eq_false, ho1]
      simp only [List.take_zero, List.nil_append] at ho4
      rw [ho2, List.drop_zero, Nat.sub_zero, ho4]

/-- The equal-times path of `nchan_update_multi_msgid` after a growth of the tag count:
the debug check `assert(max == oldid->tagcount)` fails. -/
theorem update_grow_assert (g c : Option (List Int)) (oldid newid : nchan_msg_id_t)
    (hwf : msgid_wf oldid = true) (hne1 : newid.tagcount ≠ 1)
    (hgrow : oldid.tagcount < newid.tagcount) (htime : oldid.time = newid.time)
    (hg : NCHAN_MULTITAG_MAX < newid.tagcount → g ≠ none) :
    nchan_update_multi_msgid g c oldid newid = .error .assertion := by
  have hcount : newid.tagcount ≠ oldid.tagcount := by omega
  by_cases hl : NCHAN_MULTITAG_MAX < newid.tagcount
  · obtain ⟨blk, hb, -⟩ := update_grow_ok g oldid newid hwf (hg hl) ⟨hl, hgrow⟩
    simp only [nchan_update_multi_msgid, hne1, if_false, bind, Except.bind, hb, htime,
      ne_eq, not_true_eq_false, hcount, not_false_eq_true, if_true]
  · have hb := update_grow_noop g oldid newid (fun h => hl h.1)
    simp only [nchan_update_multi_msgid, hne1, if_false, bind, Except.bind, hb, htime,
      ne_eq, not_true_eq_false, hcount, not_false_eq_true, if_true]

/-! ## Lemmas: channel events and publishing -/

/-- `nchan_maybe_send_channel_event_message` with a request context, on a location
whose event string is configured with the meta channel. -/
theorem event_message_ok (palloc : Bool) (now : Int) (cf : nchan_loc_conf_t)
    (c : nchan_request_ctx_t) (t : channel_event_type_t) (evcf : Option nchan_loc_conf_t)
    (hs : cf.channel_events_channel_id ≠ none → cf.channel_event_string ≠ none) :
    ∃ res, nchan_maybe_send_channel_event_message palloc now cf (some c) t evcf = .ok res ∧
      res.ctx ≠ none ∧
      (res.published ≠ none ↔ cf.channel_events_channel_id ≠ none ∧ palloc = true) ∧
      (∀ e, res.published = some e → e.name = channel_event_name t) := by
  unfold nchan_maybe_send_channel_event_message
  cases hcv : cf.channel_events_channel_id with
  | none => exact ⟨_, rfl, by simp, by simp, by simp⟩
  | some cv =>
    obtain ⟨es, hes⟩ := Option.ne_none_iff_exists'.mp (hs (by rw [hcv]; simp))
    cases palloc with
    | false => exact ⟨_, rfl, by simp, by simp, by simp⟩
    | true =>
      simp only [hes, not_true_eq_false, if_false]
      refine ⟨_, rfl, by simp, by simp, ?_⟩
      intro e he
      simp only [Option.some.injEq] at he
      rw [← he]

/-- A call of `nchan_maybe_send_channel_event_message` on an initialised configuration
changes none of its fields other than `storage_engine` and `use_redis`. -/
theorem event_message_frame (palloc : Bool) (now : Int) (cf : nchan_loc_conf_t)
    (ctx : Option nchan_request_ctx_t) (t : channel_event_type_t) (d : nchan_loc_conf_t)
    (res : event_result_t)
    (h : nchan_maybe_send_channel_event_message palloc now cf ctx t (some d) = .ok res) :
    ∃ e, res.evcf = some e ∧ evcf_frame d e := by
  unfold nchan_maybe_send_channel_event_message at h
  cases hcv : cf.channel_events_channel_id with
  | none =>
    rw [hcv] at h
    have := Except.ok.inj h
    subst this
    exact ⟨d, rfl, rfl⟩
  | some cv =>
    rw [hcv] at h
    cases ctx with
    | none => simp at h
    | some c =>
      cases palloc with
      | false =>
        have := Except.ok.inj h
        subst this
        exact ⟨d, rfl, rfl⟩
      | true =>
        cases hes : cf.channel_event_string with
        | none => rw [hes] at h; simp at h
        | some es =>
          rw [hes] at h
          have := Except.ok.inj h
          subst this
          exact ⟨_, rfl, rfl⟩

theorem evcf_frame_trans (a b c : nchan_loc_conf_t) (h1 : evcf_frame a b) (h2 : evcf_frame b c) :
    evcf_frame a c := by
  unfold evcf_frame at *
  rw [← h1, ← h2]

theorem event_calls_frame (calls : List event_call_t) :
    ∀ (d : nchan_loc_conf_t) (out : Option nchan_loc_conf_t),
      event_calls calls (some d) = .ok out → ∃ e, out = some e ∧ evcf_frame d e := by
  induction calls with
  | nil =>
    intro d out h
    have := Except.ok.inj h
    exact ⟨d, this.symm, rfl⟩
  | cons k rest ih =>
    intro d out h
    unfold event_calls at h
    cases hk : nchan_maybe_send_channel_event_message k.palloc k.now k.cf k.ctx k.event_type
        (some d) with
    | error e => rw [hk] at h; simp at h
    | ok res =>
      rw [hk] at h
      obtain ⟨e, he, hf⟩ := event_message_frame _ _ _ _ _ d res hk
      simp only at h
      rw [he] at h
      obtain ⟨e', he', hf'⟩ := ih e out h
      exact ⟨e', he', evcf_frame_trans d e e' hf hf'⟩

/-- `publish_callback` with a request context, on a location whose event string is
configured with the meta channel. -/
theorem publish_callback_ok (palloc : Bool) (now : Int) (cf : nchan_loc_conf_t)
    (status : publish_status_t) (ch : Option nchan_channel_t) (c : nchan_request_ctx_t)
    (evcf : Option nchan_loc_conf_t)
    (hs : cf.channel_events_channel_id ≠ none → cf.channel_event_string ≠ none) :
    ∃ res pre, publish_callback palloc now cf status ch (some c) evcf = .ok res ∧
      res.events = pre ++ publish_response status ch ∧
      (∀ x ∈ pre, ∃ e, x = .event_publish e ∧ e.name = evt_chan_publish) ∧
      (pre ≠ [] ↔
        (status = .NCHAN_MESSAGE_QUEUED ∨ status = .NCHAN_MESSAGE_RECEIVED) ∧
          cf.channel_events_channel_id ≠ none ∧ palloc = true) := by
  have key : ∀ c' : nchan_request_ctx_t, ∀ code : Int,
      ∃ ev, nchan_maybe_send_channel_event_message palloc now cf (some c') .CHAN_PUBLISH evcf =
          .ok ev ∧
        (∀ x ∈ event_published ev, ∃ e, x = .event_publish e ∧ e.name = evt_chan_publish) ∧
        (event_published ev ≠ [] ↔ cf.channel_events_channel_id ≠ none ∧ palloc = true) := by
    intro c' _
    obtain ⟨ev, h1, -, h3, h4⟩ := event_message_ok palloc now cf c' .CHAN_PUBLISH evcf hs
    refine ⟨ev, h1, ?_, ?_⟩
    · intro x hx
      unfold event_published at hx
      cases hp : ev.published with
      | none => rw [hp] at hx; simp at hx
      | some e =>
        rw [hp] at hx
        simp only [List.mem_singleton] at hx
        exact ⟨e, hx, h4 e hp⟩
    · rw [← h3]
      unfold event_published
      cases ev.published <;> simp
  cases status with
  | NCHAN_MESSAGE_QUEUED =>
    obtain ⟨ev, h1, h2, h3⟩ := key
      { c with prev_msg_id := c.msg_id,
               msg_id := match ch with
                 | some ch => ch.last_published_msg_id
                 | none => NCHAN_ZERO_MSGID } 0
    refine ⟨⟨NGX_OK, ev.ctx, ev.evcf,
      event_published ev ++ (nchan_response_channel_ptr_info ch NGX_HTTP_ACCEPTED).2 ++
        [.finalize (nchan_response_channel_ptr_info ch NGX_HTTP_ACCEPTED).1]⟩,
      event_published ev, ?_, ?_, h2, ?_⟩
    · simp only [publish_callback, h1]
    · cases ch <;> simp [nchan_response_channel_ptr_info, publish_response, NGX_HTTP_ACCEPTED,
        NGX_HTTP_CREATED]
    · rw [h3]; simp
  | NCHAN_MESSAGE_RECEIVED =>
    obtain ⟨ev, h1, h2, h3⟩ := key
      { c with prev_msg_id := c.msg_id,
               msg_id := match ch with
                 | some ch => ch.last_published_msg_id
                 | none => NCHAN_ZERO_MSGID } 0
    refine ⟨⟨NGX_OK, ev.ctx, ev.evcf,
      event_published ev ++ (nchan_response_channel_ptr_info ch NGX_HTTP_CREATED).2 ++
        [.finalize (nchan_response_channel_ptr_info ch NGX_HTTP_CREATED).1]⟩,
      event_published ev, ?_, ?_, h2, ?_⟩
    · simp only [publish_callback, h1]
    · cases ch <;> simp [nchan_response_channel_ptr_info, publish_response, NGX_HTTP_ACCEPTED,
        NGX_HTTP_CREATED]
    · rw [h3]; simp
  | other n =>
    refine ⟨⟨NGX_ERROR,
      some { c with prev_msg_id := NCHAN_ZERO_MSGID, msg_id := NCHAN_ZERO_MSGID }, evcf,
      [.finalize (NGX_HTTP_INTERNAL_SERVER_ERROR : Int)]⟩, [], rfl, ?_, ?_, ?_⟩
    · simp [publish_response]
    · intro x hx; simp at hx
    · simp

/-! ## Lemmas: evaluated IDs shorter than the split delimiter -/

/-- The first call of `nchan_strsplit` on a string shorter than the delimiter returns
NULL. -/
theorem nchan_strsplit_short (s delim : List Char) (h : s.length < delim.length) :
    nchan_strsplit s 0 delim = .ok (none, s.length) := by
  unfold nchan_strsplit
  have hlast : (s.length : Int) - (delim.length : Int) < 0 := by omega
  have hn : (((s.length : Int) - (delim.length : Int)) - ((0 : Nat) : Int)).toNat = 0 := by
    omega
  simp only [hn, strsplit_scan]
  have hmax : max ((0 : Nat) : Int) ((s.length : Int) - (delim.length : Int)) = 0 := by
    rw [max_eq_left]
    · rfl
    · simp only [Nat.cast_zero]; omega
  rw [hmax]
  have c1 : ¬ ((0 : Int) = (s.length : Int) - (delim.length : Int)) := by omega
  have c2 : (0 : Int) > (s.length : Int) - (delim.length : Int) := by omega
  rw [if_neg c1, if_pos c2]

/-- The first loop of `nchan_process_multi_channel_id` stores nothing when every
evaluated ID is shorter than the split delimiter. -/
theorem multi_resolve_short (cf : nchan_loc_conf_t) (fuel : Nat) (hf : 0 < fuel)
    (st : chid_state) :
    ∀ cvs : List ngx_http_complex_value_t,
      (∀ cv ∈ cvs, validate_id (ngx_http_complex_value cv) cf = NGX_OK ∧
        (ngx_http_complex_value cv).length < cf.channel_id_split_delimiter.length) →
      multi_resolve cf fuel cvs st = some (.ok (NGX_OK, st)) := by
  intro cvs
  induction cvs with
  | nil => intro _; rfl
  | cons cv rest ih =>
    intro h
    obtain ⟨hv, hl⟩ := h cv (List.mem_cons_self _ _)
    unfold multi_resolve
    by_cases hlt : st.id.length < 255
    · rw [if_neg (not_not.mpr hlt)]
      simp only []
      rw [if_neg (not_not.mpr hv), if_pos (by omega)]
      obtain ⟨k, rfl⟩ : ∃ k, fuel = k + 1 := ⟨fuel - 1, by omega⟩
      have hs : split_loop (ngx_http_complex_value cv) cf.channel_id_split_delimiter
          cf.channel_group.length (k + 1) 0 st = some (.ok st) := by
        unfold split_loop
        rw [nchan_strsplit_short _ _ hl]
      rw [hs]
      exact ih (fun cv' hcv => h cv' (List.mem_cons_of_mem _ hcv))
    · rw [if_pos hlt]

/-- With no sub-ID stored and a successful allocation, `nchan_process_multi_channel_id`
returns `NGX_OK` and an ID of no bytes. -/
theorem process_multi_short (sep : Char) (fuel : Nat) (hf : 0 < fuel)
    (idcf : List ngx_http_complex_value_t) (cf : nchan_loc_conf_t)
    (ctx : Option nchan_request_ctx_t)
    (h : ∀ cv ∈ idcf, validate_id (ngx_http_complex_value cv) cf = NGX_OK ∧
      (ngx_http_complex_value cv).length < cf.channel_id_split_delimiter.length) :
    nchan_process_multi_channel_id sep fuel true idcf cf ctx =
      some (.ok ⟨NGX_OK, some ⟨0, []⟩, ctx.map (fun c => { c with channel_id_count := 0 })⟩) := by
  unfold nchan_process_multi_channel_id
  rw [multi_resolve_short cf fuel hf ⟨[], 0, ctx⟩ idcf h]
  rfl

/-! ## Lemmas: the split loop ends -/

theorem strsplit_scan_bound (s delim : List Char) :
    ∀ (n cur c : Nat), strsplit_scan s delim n cur = some c → cur ≤ c ∧ c < cur + n := by
  intro n
  induction n with
  | zero => intro cur c h; simp [strsplit_scan] at h
  | succ k ih =>
    intro cur c h
    unfold strsplit_scan at h
    by_cases hc : ngx_strncmp (s.drop cur) delim delim.length = 0
    · rw [if_pos hc] at h
      have := Option.some.inj h
      omega
    · rw [if_neg hc] at h
      have := ih (cur + 1) c h
      omega

/-- A call of `nchan_strsplit` with a non-empty delimiter does not reach `assert(0)`;
when it returns a pointer, that pointer lies between the cursor and the end of the
string, and the new cursor is greater than the old one and not beyond the end. -/
theorem nchan_strsplit_spec (s delim : List Char) (cur : Nat) (hd : 0 < delim.length) :
    ∃ r nxt, nchan_strsplit s cur delim = .ok (r, nxt) ∧
      (∀ c, r = some c → cur ≤ c ∧ c ≤ s.length ∧ cur < nxt ∧ nxt ≤ s.length) ∧
      (r = none → s.length < cur + delim.length ∧ nxt = s.length) := by
  unfold nchan_strsplit
  simp only []
  cases hs : strsplit_scan s delim (((s.length : Int) - (delim.length : Int)) - (cur : Int)).toNat
      cur with
  | some c =>
    have hb := strsplit_scan_bound s delim _ cur c hs
    refine ⟨some c, c + delim.length, rfl, ?_, fun h => by cases h⟩
    intro c' hc'
    have := Option.some.inj hc'
    subst this
    omega
  | none =>
    simp only []
    by_cases h1 : max (cur : Int) ((s.length : Int) - (delim.length : Int)) =
        (s.length : Int) - (delim.length : Int)
    · rw [if_pos h1]
      refine ⟨some s.length, s.length, rfl, ?_, fun h => by cases h⟩
      intro c' hc'
      have := Option.some.inj hc'
      subst this
      have : (cur : Int) ≤ (s.length : Int) - (delim.length : Int) := by
        rw [← h1]; exact le_max_left _ _
      omega
    · rw [if_neg h1]
      have h2 : max (cur : Int) ((s.length : Int) - (delim.length : Int)) >
          (s.length : Int) - (delim.length : Int) :=
        lt_of_le_of_ne (le_max_right _ _) (Ne.symm h1)
      rw [if_pos h2]
      refine ⟨none, s.length, rfl, (fun c h => by cases h), fun _ => ⟨?_, rfl⟩⟩
      have h3 : (s.length : Int) - (delim.length : Int) < (cur : Int) := by
        rcases max_cases (cur : Int) ((s.length : Int) - (delim.length : Int)) with h | h
        · rw [h.1] at h2; exact h2
        · rw [h.1] at h2; exact absurd h2 (lt_irrefl _)
      omega

/-- The calls of the split loop from the cursor `cur`: one of the first
`s.length + 1 - cur` calls, or the first call, returns NULL. -/
theorem strsplit_calls_spec (s delim : List Char) (hd : 0 < delim.length) :
    ∀ (fuel cur : Nat), 1 ≤ fuel → s.length + 1 ≤ fuel + cur →
      ∃ n, strsplit_calls s delim fuel cur = some (.ok n) ∧ 1 ≤ n ∧
        (n ≤ s.length + 1 - cur ∨ n = 1) := by
  intro fuel
  induction fuel with
  | zero => intro cur h; omega
  | succ k ih =>
    intro cur _ hf
    obtain ⟨r, nxt, hr, h1, h2⟩ := nchan_strsplit_spec s delim cur hd
    unfold strsplit_calls
    rw [hr]
    cases r with
    | none => exact ⟨1, rfl, le_refl _, Or.inr rfl⟩
    | some c =>
      obtain ⟨-, -, h3, h4⟩ := h1 c rfl
      obtain ⟨n, hn, hn1, hn2⟩ := ih nxt (by omega) (by omega)
      simp only [hn]
      exact ⟨n + 1, rfl, by omega, by omega⟩

/-- The split loop ends within `s.length + 1 - cur` iterations (one, if that is 0). -/
theorem split_loop_ends (s delim : List Char) (g : Nat) (hd : 0 < delim.length) :
    ∀ (fuel cur : Nat) (st : chid_state), 1 ≤ fuel → s.length + 1 ≤ fuel + cur →
      ∃ res, split_loop s delim g fuel cur st = some res := by
  intro fuel
  induction fuel with
  | zero => intro cur st h; omega
  | succ k ih =>
    intro cur st _ hf
    obtain ⟨r, nxt, hr, h1, h2⟩ := nchan_strsplit_spec s delim cur hd
    unfold split_loop
    rw [hr]
    cases r with
    | none => exact ⟨_, rfl⟩
    | some c =>
      obtain ⟨-, -, h3, h4⟩ := h1 c rfl
      simp only []
      cases hp : chid_push st ((s.drop cur).take (c - cur)) g with
      | error e => exact ⟨_, rfl⟩
      | ok st1 => exact ih nxt st1 (by omega) (by omega)

/-- The split loop stores one sub-ID for each call but the last. -/
theorem split_loop_calls (s delim : List Char) (g : Nat) :
    ∀ (fuel cur : Nat) (st st' : chid_state),
      split_loop s delim g fuel cur st = some (.ok st') →
      strsplit_calls s delim fuel cur = some (.ok (st'.id.length - st.id.length + 1)) ∧
        st.id.length ≤ st'.id.length := by
  intro fuel
  induction fuel with
  | zero => intro cur st st' h; simp [split_loop] at h
  | succ k ih =>
    intro cur st st' h
    unfold split_loop at h
    unfold strsplit_calls
    cases hs : nchan_strsplit s cur delim with
    | error e => rw [hs] at h; simp at h
    | ok r =>
      obtain ⟨ret, nxt⟩ := r
      rw [hs] at h
      cases ret with
      | none =>
        simp only [Option.some.injEq, Except.ok.injEq] at h
        subst h
        simp
      | some cur_last =>
        simp only at h
        cases hp : chid_push st ((s.drop cur).take (cur_last - cur)) g with
        | error e => rw [hp] at h; simp at h
        | ok st1 =>
          rw [hp] at h
          obtain ⟨h1, h2⟩ := ih nxt st1 st' h
          have hlen : st1.id.length = st.id.length + 1 := by
            unfold chid_push at hp
            by_cases h255 : 255 ≤ st.id.length
            · rw [if_pos h255] at hp; cases hp
            · rw [if_neg h255] at hp
              by_cases h4 : st.id.length < NCHAN_MULTITAG_MAX
              · rw [if_pos h4] at hp
                cases hc : st.ctx with
                | none => rw [hc] at hp; cases hp
                | some c =>
                  rw [hc] at hp
                  have := Except.ok.inj hp
                  subst this
                  simp
              · rw [if_neg h4] at hp
                have := Except.ok.inj hp
                subst this
                simp
          simp only [h1]
          refine ⟨?_, by omega⟩
          have : st'.id.length - st1.id.length + 1 = st'.id.length - st.id.length := by omega
          rw [this]

/-! ## Lemmas: the cursor update of a subscriber -/

/-- On well-formed IDs and with the allocations it needs, `nchan_update_multi_msgid`
returns exactly when the new ID has one tag, or another time, or the same tag count
with the debug check satisfied. -/
theorem update_returns_iff (g c : Option (List Int)) (oldid newid : nchan_msg_id_t)
    (hwf1 : msgid_wf oldid = true) (hwf2 : msgid_wf newid = true)
    (halloc : NCHAN_MULTITAG_MAX < newid.tagcount → g ≠ none ∧ c ≠ none) :
    (∃ cur, nchan_update_multi_msgid g c oldid newid = .ok cur) ↔
      (newid.tagcount = 1 ∨ newid.time ≠ oldid.time ∨
        (newid.tagcount = oldid.tagcount ∧
          (newid.tagactive < newid.tagcount → ∀ v w,
            msgid_tag newid newid.tagactive = some v →
            msgid_tag oldid newid.tagactive = some w → v ≠ -1 → w ≠ -1 → w < v))) := by
  by_cases hr : newid.tagcount = 1 ∨ newid.time ≠ oldid.time
  · obtain ⟨cur, h0, -⟩ := update_replace_ok g c oldid newid hwf1 hwf2 halloc hr
    constructor
    · intro _
      rcases hr with h | h
      · exact Or.inl h
      · exact Or.inr (Or.inl h)
    · intro _
      exact ⟨cur, h0⟩
  · have hne1 : newid.tagcount ≠ 1 := fun e => hr (Or.inl e)
    have htime : newid.time = oldid.time := by
      by_contra e; exact hr (Or.inr e)
    constructor
    · rintro ⟨cur, h⟩
      have hcount : newid.tagcount = oldid.tagcount := by
        by_contra e
        exact update_count_mismatch g c oldid newid cur hne1 e htime h
      refine Or.inr (Or.inr ⟨hcount, ?_⟩)
      by_contra hgap
      simp only [not_forall] at hgap
      obtain ⟨hact, v, w, hv, hw, hv1, hw1, hle⟩ := hgap
      have := update_same_fail g c oldid newid hwf1 hwf2 hne1 hcount htime hact v w hv hw
        hv1 hw1 hle
      rw [h] at this
      cases this
    · rintro (h | h | ⟨hcount, hgap⟩)
      · exact absurd h hne1
      · exact absurd htime h
      · obtain ⟨cur, h0, -⟩ :=
          update_same_ok g c oldid newid hwf1 hwf2 hne1 hcount htime hgap
        exact ⟨cur, h0⟩

/-- What `update_subscriber_last_msg_id` does once `verify_msg_id` has returned `rc`. -/
theorem update_subscriber_cases (g c : Option (List Int)) (now : Int) (sub : subscriber_t)
    (msg : nchan_msg_t) (rc : Int)
    (hv : verify_msg_id sub.last_msgid msg.prev_id msg.id = .ok rc)
    (hrc : rc = NGX_OK ∨ rc = NGX_ERROR) :
    (∀ cur, nchan_update_multi_msgid g c sub.last_msgid msg.id = .ok cur →
      ∃ log, update_subscriber_last_msg_id g c now sub (some msg) =
          .ok (NGX_OK, { last_msgid := cur }, log) ∧ (log = none ↔ rc = NGX_OK)) ∧
    (∀ e, nchan_update_multi_msgid g c sub.last_msgid msg.id = .error e →
      update_subscriber_last_msg_id g c now sub (some msg) = .error e) := by
  constructor
  · intro cur hu
    rcases hrc with h | h
    · refine ⟨none, ?_, fun _ => h, fun _ => rfl⟩
      subst h
      simp only [update_subscriber_last_msg_id, hv, hu, bind, Except.bind]
      rfl
    · subst h
      by_cases ht : sub.last_msgid.time + wrap32 (msg.expires - msg.id.time) ≤ now
      · refine ⟨some .probably_expired, ?_, (fun h => by cases h), (fun h => by cases h)⟩
        simp only [update_subscriber_last_msg_id, hv, hu, bind, Except.bind, ht, if_true]
      · refine ⟨some .unknown_reason, ?_, (fun h => by cases h), (fun h => by cases h)⟩
        simp only [update_subscriber_last_msg_id, hv, hu, bind, Except.bind, ht, if_true,
          if_false]
  · intro e hu
    simp only [update_subscriber_last_msg_id, hv, hu, bind, Except.bind]

/-- The three cases of a field of a tag list: a lone `-`, a minus sign over the value
zero, and the signed decimal value. -/
theorem nchan_parse_msg_tag_field_cases (tags : List Int) (fs : List tag_field)
    (mid : nchan_msg_id_t) (ht : tags.length = 255) (hne : fs ≠ [])
    (hok : ∀ f ∈ fs, tag_field_ok f) (hlen : fs.length ≤ 255) :
    (nchan_parse_msg_tag tags (fields_text fs) mid).2.tagcount = fs.length ∧
    ∀ (j : Nat) (hj : j < fs.length),
      (fs[j].digits = [] → fs[j].neg = true →
        msgid_tag (nchan_parse_msg_tag tags (fields_text fs) mid).2 j = some (-1)) ∧
      (fs[j].neg = true ∧ decimal_value fs[j].digits = 0 →
        msgid_tag (nchan_parse_msg_tag tags (fields_text fs) mid).2 j = some (-1)) ∧
      (¬ (fs[j].neg = true ∧ decimal_value fs[j].digits = 0) →
        msgid_tag (nchan_parse_msg_tag tags (fields_text fs) mid).2 j =
          some (if fs[j].neg then - decimal_value fs[j].digits
                else decimal_value fs[j].digits)) := by
  obtain ⟨-, -, h3, -, -, h6⟩ := nchan_parse_msg_tag_fields tags fs mid ht hne hok hlen
  refine ⟨h3, fun j hj => ?_⟩
  have hg : (fs[j]?).map field_value = some (field_value fs[j]) := by
    rw [List.getElem?_eq_getElem hj]; rfl
  rw [h6 j hj, hg]
  refine ⟨fun hd hn => ?_, fun hz => ?_, fun hz => ?_⟩
  · have : decimal_value fs[j].digits = 0 := by rw [hd]; rfl
    simp only [field_value, this, hn, and_self, if_true]
  · simp only [field_value, hz.1, hz.2, and_self, if_true]
  · have c : ¬ (decimal_value fs[j].digits = 0 ∧ fs[j].neg = true) := fun h => hz ⟨h.2, h.1⟩
    simp only [field_value, c, if_false]

/-! ## Lemmas: channel IDs that fit the array `id` -/

theorem validate_id_iff (id : List Char) (cf : nchan_loc_conf_t) :
    validate_id id cf ≠ NGX_OK ↔ cf.max_channel_id_length % 4294967296 < (id.length : Int) := by
  unfold validate_id
  by_cases h : (id.length : Int) > cf.max_channel_id_length % 4294967296
  · rw [if_pos h]
    exact ⟨fun _ => h, fun _ => by decide⟩
  · rw [if_neg h]
    exact ⟨fun hh => absurd rfl hh, fun hh => absurd hh h⟩

theorem strsplit_calls_pos (s delim : List Char) :
    ∀ (fuel cur n : Nat), strsplit_calls s delim fuel cur = some (.ok n) → 1 ≤ n := by
  intro fuel
  induction fuel with
  | zero => intro cur n h; simp [strsplit_calls] at h
  | succ k ih =>
    intro cur n h
    unfold strsplit_calls at h
    cases hs : nchan_strsplit s cur delim with
    | error e => rw [hs] at h; simp at h
    | ok r =>
      obtain ⟨ret, nxt⟩ := r
      rw [hs] at h
      cases ret with
      | none =>
        simp only [Option.some.injEq, Except.ok.injEq] at h
        omega
      | some c =>
        simp only at h
        cases hk : strsplit_calls s delim k nxt with
        | none => rw [hk] at h; simp at h
        | some r2 =>
          rw [hk] at h
          cases r2 with
          | error e => simp at h
          | ok m =>
            simp only [Option.some.injEq, Except.ok.injEq] at h
            omega

theorem strsplit_calls_mono (s delim : List Char) :
    ∀ (f1 cur n : Nat), strsplit_calls s delim f1 cur = some (.ok n) →
      ∀ f2, f1 ≤ f2 → strsplit_calls s delim f2 cur = some (.ok n) := by
  intro f1
  induction f1 with
  | zero => intro cur n h; simp [strsplit_calls] at h
  | succ k ih =>
    intro cur n h f2 hf
    obtain ⟨j, rfl⟩ : ∃ j, f2 = j + 1 := ⟨f2 - 1, by omega⟩
    unfold strsplit_calls at h
    unfold strsplit_calls
    cases hs : nchan_strsplit s cur delim with
    | error e => rw [hs] at h; simp at h
    | ok r =>
      obtain ⟨ret, nxt⟩ := r
      rw [hs] at h
      cases ret with
      | none => exact h
      | some c =>
        simp only at h ⊢
        cases hk : strsplit_calls s delim k nxt with
        | none => rw [hk] at h; simp at h
        | some r2 =>
          rw [hk] at h
          cases r2 with
          | error e => simp at h
          | ok m =>
            rw [ih nxt m hk j (by omega)]
            exact h

/-- Storing a sub-ID succeeds while the array `id` has a free entry and the request has
a context. -/
theorem chid_push_ok (st : chid_state) (v : List Char) (g : Nat) (hc : st.ctx ≠ none)
    (hlt : st.id.length < 255) :
    ∃ st1, chid_push st v g = .ok st1 ∧ st1.ctx ≠ none ∧ st1.id = st.id ++ [v] := by
  unfold chid_push
  rw [if_neg (by omega)]
  cases hctx : st.ctx with
  | none => exact absurd hctx hc
  | some c =>
    by_cases h4 : st.id.length < NCHAN_MULTITAG_MAX
    · rw [if_pos h4]
      exact ⟨_, rfl, by simp, rfl⟩
    · rw [if_neg h4]
      exact ⟨_, rfl, by simp [hctx], rfl⟩

/-- The split loop ends normally when the sub-IDs it stores fit the array `id`. -/
theorem split_loop_fits (s delim : List Char) (g : Nat) :
    ∀ (fuel cur : Nat) (st : chid_state) (n : Nat),
      strsplit_calls s delim fuel cur = some (.ok n) → st.ctx ≠ none →
      st.id.length + (n - 1) ≤ 255 →
      ∃ st', split_loop s delim g fuel cur st = some (.ok st') ∧ st'.ctx ≠ none ∧
        st'.id.length = st.id.length + (n - 1) := by
  intro fuel
  induction fuel with
  | zero => intro cur st n h; simp [strsplit_calls] at h
  | succ k ih =>
    intro cur st n h hc hcap
    unfold strsplit_calls at h
    unfold split_loop
    cases hs : nchan_strsplit s cur delim with
    | error e => rw [hs] at h; simp at h
    | ok r =>
      obtain ⟨ret, nxt⟩ := r
      rw [hs] at h
      cases ret with
      | none =>
        simp only [Option.some.injEq, Except.ok.injEq] at h
        subst h
        exact ⟨st, rfl, hc, rfl⟩
      | some c =>
        simp only at h ⊢
        cases hk : strsplit_calls s delim k nxt with
        | none => rw [hk] at h; simp at h
        | some r2 =>
          rw [hk] at h
          cases r2 with
          | error e => simp at h
          | ok m =>
            simp only [Option.some.injEq, Except.ok.injEq] at h
            have hm := strsplit_calls_pos s delim k nxt m hk
            obtain ⟨st1, hp, hc1, hid1⟩ :=
              chid_push_ok st ((s.drop cur).take (c - cur)) g hc (by omega)
            rw [hp]
            have hl1 : st1.id.length = st.id.length + 1 := by rw [hid1]; simp
            obtain ⟨st', h1, h2, h3⟩ := ih nxt st1 m hk hc1 (by omega)
            refine ⟨st', h1, h2, ?_⟩
            omega

theorem sub_id_count_split (cf : nchan_loc_conf_t) (s : List Char)
    (hd : 0 < cf.channel_id_split_delimiter.length) :
    ∃ n, strsplit_calls s cf.channel_id_split_delimiter (s.length + 1) 0 = some (.ok n) ∧
      sub_id_count cf s = n - 1 := by
  obtain ⟨n, hn, -, -⟩ :=
    strsplit_calls_spec s cf.channel_id_split_delimiter hd (s.length + 1) 0 (by omega) (by omega)
  refine ⟨n, hn, ?_⟩
  unfold sub_id_count
  rw [if_pos hd, hn]

theorem sub_id_total_cons (cf : nchan_loc_conf_t) (cv : ngx_http_complex_value_t)
    (rest : List ngx_http_complex_value_t) :
    sub_id_total cf (cv :: rest) =
      sub_id_count cf (ngx_http_complex_value cv) + sub_id_total cf rest := by
  simp [sub_id_total]

/-- Without split delimiter every template gives one sub-ID. -/
theorem sub_id_total_plain (cf : nchan_loc_conf_t) (hd : cf.channel_id_split_delimiter = [])
    (cvs : List ngx_http_complex_value_t) : sub_id_total cf cvs = cvs.length := by
  induction cvs with
  | nil => rfl
  | cons cv rest ih =>
    rw [sub_id_total_cons, ih]
    simp only [sub_id_count, hd, List.length_nil, gt_iff_lt, lt_self_iff_false, if_false,
      List.length_cons]
    omega

/-- The first loop of `nchan_process_multi_channel_id`, with a request context, when
the sub-IDs fit the array `id` and fewer than 255 of them precede each template. -/
theorem multi_resolve_fits (cf : nchan_loc_conf_t) (fuel : Nat)
    (cvs : List ngx_http_complex_value_t) :
    ∀ st : chid_state, st.ctx ≠ none →
      (0 < cf.channel_id_split_delimiter.length →
        ∀ cv ∈ cvs, (ngx_http_complex_value cv).length < fuel) →
      (∀ k, k < cvs.length → st.id.length + sub_id_total cf (cvs.take k) < 255) →
      st.id.length + sub_id_total cf cvs ≤ 255 →
      ∃ st', multi_resolve cf fuel cvs st =
          some (.ok (if ∀ cv ∈ cvs, validate_id (ngx_http_complex_value cv) cf = NGX_OK
            then NGX_OK else NGX_DECLINED, st')) ∧
        st'.ctx ≠ none := by
  induction cvs with
  | nil =>
    intro st hc _ _ _
    refine ⟨st, ?_, hc⟩
    simp [multi_resolve]
  | cons cv rest ih =>
    intro st hc hfuel hpre hcap
    have hlt : st.id.length < 255 := by
      have := hpre 0 (by simp)
      simpa [sub_id_total] using this
    rw [sub_id_total_cons] at hcap
    have hpre' : ∀ st1 : chid_state,
        st1.id.length = st.id.length + sub_id_count cf (ngx_http_complex_value cv) →
        ∀ k, k < rest.length → st1.id.length + sub_id_total cf (rest.take k) < 255 := by
      intro st1 h1 k hk
      have := hpre (k + 1) (by simp only [List.length_cons]; omega)
      rw [List.take_succ_cons, sub_id_total_cons] at this
      omega
    have hfuel' : 0 < cf.channel_id_split_delimiter.length →
        ∀ x ∈ rest, (ngx_http_complex_value x).length < fuel :=
      fun hd x hx => hfuel hd x (List.mem_cons_of_mem _ hx)
    by_cases hv : validate_id (ngx_http_complex_value cv) cf = NGX_OK
    · have hstep : ∃ st1, st1.ctx ≠ none ∧
          st1.id.length = st.id.length + sub_id_count cf (ngx_http_complex_value cv) ∧
          multi_resolve cf fuel (cv :: rest) st = multi_resolve cf fuel rest st1 := by
        by_cases hd : cf.channel_id_split_delimiter.length > 0
        · obtain ⟨n, hn, hcnt⟩ := sub_id_count_split cf (ngx_http_complex_value cv) hd
          have hn' := strsplit_calls_mono _ _ _ 0 n hn fuel
            (by have := hfuel hd cv (List.mem_cons_self _ _); omega)
          obtain ⟨st1, h1, h2, h3⟩ := split_loop_fits (ngx_http_complex_value cv)
            cf.channel_id_split_delimiter cf.channel_group.length fuel 0 st n hn' hc
            (by omega)
          refine ⟨st1, h2, by omega, ?_⟩
          conv_lhs => unfold multi_resolve
          rw [if_neg (not_not.mpr hlt)]
          simp only []
          rw [if_neg (not_not.mpr hv), if_pos hd, h1]
        · have hcnt : sub_id_count cf (ngx_http_complex_value cv) = 1 := by
            unfold sub_id_count
            rw [if_neg hd]
          obtain ⟨st1, hp, hc1, hid1⟩ :=
            chid_push_ok st (ngx_http_complex_value cv) cf.channel_group.length hc hlt
          refine ⟨st1, hc1, by rw [hid1, hcnt]; simp, ?_⟩
          conv_lhs => unfold multi_resolve
          rw [if_neg (not_not.mpr hlt)]
          simp only []
          rw [if_neg (not_not.mpr hv), if_neg hd, hp]
      obtain ⟨st1, hc1, hl1, heq⟩ := hstep
      obtain ⟨st', h1, h2⟩ := ih st1 hc1 hfuel' (hpre' st1 hl1) (by omega)
      refine ⟨st', ?_, h2⟩
      rw [heq, h1]
      congr 3
      simp [hv]
    · refine ⟨st, ?_, hc⟩
      unfold multi_resolve
      rw [if_neg (not_not.mpr hlt)]
      have hne : ¬ ∀ x ∈ cv :: rest, validate_id (ngx_http_complex_value x) cf = NGX_OK :=
        fun hall => hv (hall cv (List.mem_cons_self _ _))
      simp only [ne_eq, hv, not_false_eq_true, if_true, hne, if_false]

/-- `nchan_get_channel_id` with `fail_hard` on the templates of a location, when the
sub-IDs fit the array `id`. -/
theorem get_channel_id_templates (sep : Char) (fuel : Nat) (palloc : Bool)
    (vv : Option ngx_http_variable_value_t) (cf : nchan_loc_conf_t) (c : nchan_request_ctx_t)
    (what : pub_or_sub_t)
    (hn : 0 < (channel_id_conf cf what).length)
    (hfuel : 0 < cf.channel_id_split_delimiter.length →
      ∀ cv ∈ channel_id_conf cf what, (ngx_http_complex_value cv).length < fuel)
    (hpre : ∀ k, k < (channel_id_conf cf what).length →
      sub_id_total cf ((channel_id_conf cf what).take k) < 255)
    (hcap : sub_id_total cf (channel_id_conf cf what) ≤ 255) :
    ∃ res, nchan_get_channel_id sep fuel palloc vv cf (some c) what true = some (.ok res) ∧
      (res.response = some (.status NGX_HTTP_FORBIDDEN) ↔
        ∃ cv ∈ channel_id_conf cf what,
          cf.max_channel_id_length % 4294967296 < ((ngx_http_complex_value cv).length : Int)) ∧
      (res.response = some (.status NGX_HTTP_FORBIDDEN) → res.id = none) ∧
      ((∀ cv ∈ channel_id_conf cf what,
          ((ngx_http_complex_value cv).length : Int) ≤
            cf.max_channel_id_length % 4294967296) →
        (palloc = false →
          res.id = none ∧ res.response = some (.status NGX_HTTP_INTERNAL_SERVER_ERROR)) ∧
        (palloc = true → res.id ≠ none ∧ res.response = none)) := by
  obtain ⟨st, hres, -⟩ := multi_resolve_fits cf fuel (channel_id_conf cf what)
    ⟨[], 0, some c⟩ (by simp) hfuel (by simpa using hpre) (by simpa using hcap)
  have hiff : (∀ cv ∈ channel_id_conf cf what,
      validate_id (ngx_http_complex_value cv) cf = NGX_OK) ↔
      ∀ cv ∈ channel_id_conf cf what,
        ((ngx_http_complex_value cv).length : Int) ≤
          cf.max_channel_id_length % 4294967296 := by
    constructor
    · intro h cv hcv
      by_contra hc
      exact (validate_id_iff _ cf).mpr (lt_of_not_le hc) (h cv hcv)
    · intro h cv hcv
      by_contra hc
      exact absurd ((validate_id_iff _ cf).mp hc) (not_lt.mpr (h cv hcv))
  by_cases hall : ∀ cv ∈ channel_id_conf cf what,
      validate_id (ngx_http_complex_value cv) cf = NGX_OK
  · rw [if_pos hall] at hres
    have hex : ¬ ∃ cv ∈ channel_id_conf cf what,
        cf.max_channel_id_length % 4294967296 <
          ((ngx_http_complex_value cv).length : Int) := by
      rintro ⟨cv, hcv, hlt⟩
      exact absurd hlt (not_lt.mpr (hiff.mp hall cv hcv))
    cases palloc with
    | false =>
      refine ⟨⟨none, st.ctx.map (fun c => { c with channel_id_count := st.id.length }),
        some (.status NGX_HTTP_INTERNAL_SERVER_ERROR)⟩, ?_, ?_, ?_, ?_⟩
      · unfold nchan_get_channel_id nchan_process_multi_channel_id
        simp only [hn, gt_iff_lt, if_true, hres]
        rfl
      · exact ⟨(fun h => by cases h), fun h => absurd h hex⟩
      · intro h; cases h
      · intro _
        exact ⟨fun _ => ⟨rfl, rfl⟩, fun h => by cases h⟩
    | true =>
      obtain ⟨out, hout, -, -, -⟩ := process_multi_ok sep fuel _ cf (some c) st hres
      refine ⟨⟨some out, st.ctx.map (fun c => { c with channel_id_count := st.id.length }),
        none⟩, ?_, ?_, ?_, ?_⟩
      · unfold nchan_get_channel_id
        simp only [hn, gt_iff_lt, if_true, hout]
        rfl
      · exact ⟨(fun h => by cases h), fun h => absurd h hex⟩
      · intro h; cases h
      · intro _
        exact ⟨(fun h => by cases h), fun _ => ⟨by simp, rfl⟩⟩
  · rw [if_neg hall] at hres
    have hex : ∃ cv ∈ channel_id_conf cf what,
        cf.max_channel_id_length % 4294967296 <
          ((ngx_http_complex_value cv).length : Int) := by
      by_contra hc
      apply hall
      apply hiff.mpr
      intro cv hcv
      by_contra hle
      exact hc ⟨cv, hcv, lt_of_not_le hle⟩
    refine ⟨⟨none, st.ctx, some (.status NGX_HTTP_FORBIDDEN)⟩, ?_, ?_, ?_, ?_⟩
    · unfold nchan_get_channel_id nchan_process_multi_channel_id
      simp only [hn, gt_iff_lt, if_true, hres]
      rfl
    · exact ⟨fun _ => hex, fun _ => rfl⟩
    · intro _; rfl
    · intro h
      exact absurd (hiff.mpr h) hall

/-- `nchan_get_channel_id` with `fail_hard` on a location without templates for the
channel ID: the legacy variable decides. -/
theorem get_channel_id_variable (sep : Char) (fuel : Nat) (palloc : Bool)
    (vv : Option ngx_http_variable_value_t) (cf : nchan_loc_conf_t) (c : nchan_request_ctx_t)
    (what : pub_or_sub_t) (hn : (channel_id_conf cf what).length = 0) :
    ∃ res, nchan_get_channel_id sep fuel palloc vv cf (some c) what true = some (.ok res) ∧
      ((vv = none ∨ ∃ v, vv = some v ∧ (v.not_found = true ∨ v.data = [])) →
        res.id = none ∧
          res.response = some (.string NGX_HTTP_NOT_FOUND TEXT_PLAIN NO_CHANNEL_ID_MESSAGE)) ∧
      (∀ v, vv = some v → v.not_found = false → v.data ≠ [] →
        (res.response = some (.status NGX_HTTP_FORBIDDEN) ↔
          cf.max_channel_id_length % 4294967296 < (v.data.length : Int)) ∧
        (res.response = some (.status NGX_HTTP_FORBIDDEN) → res.id = none) ∧
        ((v.data.length : Int) ≤ cf.max_channel_id_length % 4294967296 →
          (palloc = false →
            res.id = none ∧ res.response = some (.status NGX_HTTP_INTERNAL_SERVER_ERROR)) ∧
          (palloc = true → res.id ≠ none ∧ res.response = none))) := by
  have hn' : ¬ (channel_id_conf cf what).length > 0 := by omega
  cases hvv : vv with
  | none =>
    refine ⟨⟨none, some { c with channel_id_count := 0 },
      some (.string NGX_HTTP_NOT_FOUND TEXT_PLAIN NO_CHANNEL_ID_MESSAGE)⟩, ?_, ?_, ?_⟩
    · unfold nchan_get_channel_id nchan_process_legacy_channel_id
      simp only [hn', if_false]
      rfl
    · intro _; exact ⟨rfl, rfl⟩
    · intro v hv; cases hv
  | some v =>
    by_cases hbad : v.not_found = true ∨ v.data.length = 0
    · refine ⟨⟨none, some { c with channel_id_count := 0 },
        some (.string NGX_HTTP_NOT_FOUND TEXT_PLAIN NO_CHANNEL_ID_MESSAGE)⟩, ?_, ?_, ?_⟩
      · unfold nchan_get_channel_id nchan_process_legacy_channel_id
        simp only [hn', if_false, hbad, if_true]
        rfl
      · intro _; exact ⟨rfl, rfl⟩
      · intro w hw hnf hne
        have hw' : v = w := Option.some.inj hw
        subst hw'
        rcases hbad with h | h
        · rw [hnf] at h; cases h
        · exact absurd (List.length_eq_zero.mp h) hne
    · have hgood : ¬ (vv = none ∨ ∃ w, vv = some w ∧ (w.not_found = true ∨ w.data = [])) := by
        rw [hvv]
        rintro (h | ⟨w, hw, hb⟩)
        · cases h
        · have hw' : v = w := Option.some.inj hw
          subst hw'
          apply hbad
          rcases hb with h | h
          · exact Or.inl h
          · exact Or.inr (by rw [h]; rfl)
      rw [hvv] at hgood
      by_cases hv : validate_id v.data cf ≠ NGX_OK
      · have hlong := (validate_id_iff _ cf).mp hv
        refine ⟨⟨none, some { c with channel_id_count := 0 },
          some (.status NGX_HTTP_FORBIDDEN)⟩, ?_, ?_, ?_⟩
        · unfold nchan_get_channel_id nchan_process_legacy_channel_id
          simp only [hn', if_false, hbad]
          rw [if_pos hv]
          rfl
        · intro h; exact absurd h hgood
        · intro w hw _ _
          have hw' : v = w := Option.some.inj hw
          subst hw'
          exact ⟨⟨fun _ => hlong, fun _ => rfl⟩, fun _ => rfl,
            fun hle => absurd hlong (not_lt.mpr hle)⟩
      · have hshort : ¬ cf.max_channel_id_length % 4294967296 < (v.data.length : Int) :=
          fun h => hv ((validate_id_iff _ cf).mpr h)
        cases palloc with
        | false =>
          refine ⟨⟨none, some { c with channel_id_count := 0 },
            some (.status NGX_HTTP_INTERNAL_SERVER_ERROR)⟩, ?_, ?_, ?_⟩
          · unfold nchan_get_channel_id nchan_process_legacy_channel_id
            simp only [hn', if_false, hbad]
            rw [if_neg hv]
            rfl
          · intro h; exact absurd h hgood
          · intro w hw _ _
            have hw' : v = w := Option.some.inj hw
            subst hw'
            exact ⟨⟨(fun h => by cases h), fun h => absurd h hshort⟩, (fun h => by cases h),
              fun _ => ⟨fun _ => ⟨rfl, rfl⟩, fun h => by cases h⟩⟩
        | true =>
          refine ⟨⟨some ⟨cf.channel_group.length + 1 + v.data.length,
              cf.channel_group ++ '/' :: v.data⟩,
            some { c with channel_id_count := 1,
                          channel_id := c.channel_id.set 0 (cf.channel_group ++ '/' :: v.data) },
            none⟩, ?_, ?_, ?_⟩
          · unfold nchan_get_channel_id nchan_process_legacy_channel_id
            simp only [hn', if_false, hbad]
            rw [if_neg hv]
            rfl
          · intro h; exact absurd h hgood
          · intro w hw _ _
            have hw' : v = w := Option.some.inj hw
            subst hw'
            exact ⟨⟨(fun h => by cases h), fun h => absurd h hshort⟩, (fun h => by cases h),
              fun _ => ⟨(fun h => by cases h), fun _ => ⟨by simp, rfl⟩⟩⟩

/-! ## Lemmas: what follows the 255th tag -/

theorem parse_tag_loop_full (s : List Char) (st : parse_tag_state) (h : ¬ st.i < 255) :
    parse_tag_loop s st = st := by
  cases s with
  | nil => simp only [parse_tag_loop, h, if_false]
  | cons c rest => simp only [parse_tag_loop, h, if_false]

/-- The loop of `nchan_parse_msg_tag` does not read past the comma that ends the 255th
tag. -/
theorem parse_tag_loop_ignored (x y : List Char) :
    ∀ (p : List Char) (st : parse_tag_state), 255 ≤ st.i + p.count ',' →
      parse_tag_loop (p ++ x) st = parse_tag_loop (p ++ y) st := by
  intro p
  induction p with
  | nil =>
    intro st h
    have hfull : ¬ st.i < 255 := by
      simp only [List.count_nil] at h
      omega
    simp only [List.nil_append]
    rw [parse_tag_loop_full x st hfull, parse_tag_loop_full y st hfull]
  | cons c p ih =>
    intro st h
    by_cases hlt : st.i < 255
    · simp only [List.cons_append, parse_tag_loop, hlt, if_true]
      apply ih
      rw [parse_tag_step_i]
      by_cases hc : c = ','
      · subst hc
        simp only [List.count_cons_self, if_true] at h ⊢
        omega
      · rw [List.count_cons_of_ne (fun e => hc e.symm)] at h
        simp only [hc, if_false]
        omega
    · rw [parse_tag_loop_full _ st hlt, parse_tag_loop_full _ st hlt]

theorem nchan_parse_msg_tag_ignored (tags : List Int) (mid : nchan_msg_id_t)
    (p x y : List Char) (h : 255 ≤ p.count ',') :
    nchan_parse_msg_tag tags (p ++ x) mid = nchan_parse_msg_tag tags (p ++ y) mid := by
  simp only [nchan_parse_msg_tag]
  rw [parse_tag_loop_ignored x y p _ (by simp only [Nat.zero_add]; exact h)]

/-! ## Claims -/

/-! ### C1 -/

/-- C1, as stated, fails: with equal times and tag counts, the update of the cursor
`(1, [5, 0])` by `(1, [3, -1])` with active index 0 stops in the debug check
`assert(newtags[i] > oldtags[i])` instead of writing the tags. -/
theorem nchan_update_multi_msgid_merge_counterexample :
    nchan_update_multi_msgid none none ⟨1, .fixed [5, 0, 0, 0], 0, 2⟩
      ⟨1, .fixed [3, -1, 0, 0], 0, 2⟩ = .error .assertion := by
  rfl

/-- C1 (amended): for well-formed `oldid` and `newid` with `newid.tagcount > 1`, equal
tag counts and equal times, and the debug check satisfied (at `i = newid.tagactive`,
when `i` is a position below the tag count and both `newid.tags[i]` and
`oldid.tags[i]` are not -1, `newid.tags[i] > oldid.tags[i]`),
`nchan_update_multi_msgid` returns; it leaves time and tag count unchanged, sets
`tagactive` to `newid.tagactive`, sets `tags[i] = newid.tags[i]` at exactly the
positions `i` below the tag count where `newid.tags[i] ≠ -1` and leaves every other
slot unchanged. -/
theorem nchan_update_multi_msgid_merge (g c : Option (List Int))
    (oldid newid : nchan_msg_id_t)
    (hwf1 : msgid_wf oldid = true) (hwf2 : msgid_wf newid = true)
    (hmulti : 1 < newid.tagcount) (hcount : newid.tagcount = oldid.tagcount)
    (htime : newid.time = oldid.time)
    (hgap : newid.tagactive < newid.tagcount → ∀ v w,
      msgid_tag newid newid.tagactive = some v → msgid_tag oldid newid.tagactive = some w →
      v ≠ -1 → w ≠ -1 → w < v) :
    ∃ cur, nchan_update_multi_msgid g c oldid newid = .ok cur ∧
      cur.time = oldid.time ∧ cur.tagcount = oldid.tagcount ∧
      cur.tagactive = newid.tagactive ∧
      ∀ i, msgid_tag cur i =
        if i < newid.tagcount ∧ msgid_tag newid i ≠ some (-1) then msgid_tag newid i
        else msgid_tag oldid i := by
  obtain ⟨cur, h1, h2, h3, h4, -, h5⟩ :=
    update_same_ok g c oldid newid hwf1 hwf2 (by omega) hcount htime hgap
  exact ⟨cur, h1, h2, h3, h4, h5⟩

/-- C1 (amended) at the cursor `(1, [5, 0])` and the message ID `(1, [6, -1])`. -/
theorem nchan_update_multi_msgid_merge_witness :
    (msgid_wf sample_cursor = true ∧ msgid_wf sample_advance = true ∧
      1 < sample_advance.tagcount ∧ sample_advance.tagcount = sample_cursor.tagcount ∧
      sample_advance.time = sample_cursor.time) ∧
    ∃ cur, nchan_update_multi_msgid none none sample_cursor sample_advance = .ok cur ∧
      cur.time = sample_cursor.time ∧ cur.tagcount = sample_cursor.tagcount ∧
      cur.tagactive = sample_advance.tagactive ∧
      ∀ i, msgid_tag cur i =
        if i < sample_advance.tagcount ∧ msgid_tag sample_advance i ≠ some (-1)
        then msgid_tag sample_advance i else msgid_tag sample_cursor i :=
  ⟨⟨rfl, rfl, by decide, rfl, rfl⟩,
    nchan_update_multi_msgid_merge none none sample_cursor sample_advance rfl rfl
      (by decide) rfl rfl (by
        intro _ v w hv hw _ _
        have e1 : v = 6 := by
          simpa [msgid_tag, msgid_tags, sample_advance, NCHAN_MULTITAG_MAX] using hv.symm
        have e2 : w = 5 := by
          simpa [msgid_tag, msgid_tags, sample_advance, sample_cursor, NCHAN_MULTITAG_MAX]
            using hw.symm
        omega)⟩

/-! ### C2 -/

/-- C2, as stated, fails: the differing-times branch tests the tag count of
`prev_id`, not of `msg.id`. With `prev_id = (2, [0, -1])` and a single-tag
`msg.id = (2, [0])` the message is accepted although `msg.id.tagcount = 1`. -/
theorem verify_msg_id_time_mismatch_counterexample :
    verify_msg_id ⟨1, .fixed [0, 0, 0, 0], 0, 1⟩ ⟨2, .fixed [0, -1, 0, 0], 0, 2⟩
      ⟨2, .fixed [0, 0, 0, 0], 0, 1⟩ = .ok NGX_OK ∧
    ¬ (1 < (⟨2, .fixed [0, 0, 0, 0], 0, 1⟩ : nchan_msg_id_t).tagcount) :=
  ⟨rfl, by decide⟩

/-- C2 (amended): for `last.time > 0`, `prev_id.time > 0`, `prev_id.time ≠ last.time`,
a well-formed `prev_id` of which some tag is not -1 when it is multi-tag, and a
`msg.id` that has a slot for every position of `prev_id`, `verify_msg_id` returns
`NGX_OK` or `NGX_ERROR`, and returns `NGX_OK` if and only if
`prev_id.tagcount > 1`, exactly one position `i` of `prev_id.tags` is not -1, and
`msg.id.tags[i] = 0`. -/
theorem verify_msg_id_time_mismatch (last prev msgid : nchan_msg_id_t)
    (hwf : msgid_wf prev = true) (hslots : prev.tagcount ≤ msgid_slots msgid)
    (hpos1 : 0 < last.time) (hpos2 : 0 < prev.time) (hne : prev.time ≠ last.time)
    (hset : 1 < prev.tagcount → ∃ i, i < prev.tagcount ∧ msgid_tag prev i ≠ some (-1)) :
    (verify_msg_id last prev msgid = .ok NGX_OK ∨
      verify_msg_id last prev msgid = .ok NGX_ERROR) ∧
    (verify_msg_id last prev msgid = .ok NGX_OK ↔
      1 < prev.tagcount ∧ ∃ i, i < prev.tagcount ∧ msgid_tag prev i ≠ some (-1) ∧
        (∀ j, j < prev.tagcount → msgid_tag prev j ≠ some (-1) → j = i) ∧
        msgid_tag msgid i = some 0) :=
  verify_mismatch_spec last prev msgid hwf hslots hpos1 hpos2 hne hset

/-- C2 (amended) at the cursor `(1, [5, 0])` with `prev_id = (2, [0, -1])` and
`msg.id = (2, [0, -1])`: only sub-channel 0 is set and its tag in `msg.id` is 0. -/
theorem verify_msg_id_time_mismatch_witness :
    (msgid_wf sample_next_second = true ∧ 0 < sample_cursor.time ∧
      sample_next_second.time ≠ sample_cursor.time) ∧
    (verify_msg_id sample_cursor sample_next_second sample_next_second = .ok NGX_OK ∨
      verify_msg_id sample_cursor sample_next_second sample_next_second = .ok NGX_ERROR) ∧
    (verify_msg_id sample_cursor sample_next_second sample_next_second = .ok NGX_OK ↔
      1 < sample_next_second.tagcount ∧ ∃ i, i < sample_next_second.tagcount ∧
        msgid_tag sample_next_second i ≠ some (-1) ∧
        (∀ j, j < sample_next_second.tagcount →
          msgid_tag sample_next_second j ≠ some (-1) → j = i) ∧
        msgid_tag sample_next_second i = some 0) :=
  ⟨⟨rfl, by decide, by decide⟩,
    verify_msg_id_time_mismatch sample_cursor sample_next_second sample_next_second rfl
      (by decide) (by decide) (by decide) (by decide)
      (fun _ => ⟨0, by decide, by decide⟩)⟩

/-! ### C3 -/

/-- C3 (counterexample): the positions compared are those of the cursor, not those of
`prev_id`. The two-tag cursor `(1, [5, 0])` with the three-tag `prev_id = (1, [5, -1, 7])`
is accepted although position 2 of `prev_id` holds 7 and the cursor has no such tag; the
three-tag cursor `(1, [5, 0, 3])` with the two-tag `prev_id = (1, [5, -1])` is reported
missed although the cursor agrees with `prev_id` at every position of `prev_id` that is
not -1, because the slot after the tags of `prev_id` is read as well. -/
theorem verify_msg_id_multi_same_time_counterexample :
    (verify_msg_id sample_cursor sample_prev_three sample_advance = .ok NGX_OK ∧
      ¬ (∀ i, i < sample_prev_three.tagcount → msgid_tag sample_prev_three i ≠ some (-1) →
        msgid_tag sample_cursor i = msgid_tag sample_prev_three i)) ∧
    (verify_msg_id sample_cursor_three sample_prev sample_advance = .ok NGX_ERROR ∧
      ∀ i, i < sample_prev.tagcount → msgid_tag sample_prev i ≠ some (-1) →
        msgid_tag sample_cursor_three i = msgid_tag sample_prev i) := by
  refine ⟨⟨rfl, by decide⟩, rfl, by decide⟩

/-- C3 (amended): for a well-formed multi-tag cursor `last` (`tagcount > 1`) and a
`prev_id` with the same positive time and a slot for every position of `last`,
`verify_msg_id` returns `NGX_OK` or `NGX_ERROR`, and returns `NGX_OK` if and only if
`last.tags[i] = prev_id.tags[i]` at every position `i` below the tag count of `last`
whose slot `prev_id.tags[i]` is not -1; when `prev_id` has the tag count of `last`,
these are the positions of `prev_id`. -/
theorem verify_msg_id_multi_same_time (last prev msgid : nchan_msg_id_t)
    (hwf : msgid_wf last = true) (hmulti : 1 < last.tagcount)
    (hslots : last.tagcount ≤ msgid_slots prev)
    (htime : last.time = prev.time) (hpos : 0 < last.time) :
    (verify_msg_id last prev msgid = .ok NGX_OK ∨
      verify_msg_id last prev msgid = .ok NGX_ERROR) ∧
    (verify_msg_id last prev msgid = .ok NGX_OK ↔
      ∀ i, i < last.tagcount → msgid_tag prev i ≠ some (-1) →
        msgid_tag last i = msgid_tag prev i) ∧
    (prev.tagcount = last.tagcount →
      (verify_msg_id last prev msgid = .ok NGX_OK ↔
        ∀ i, i < prev.tagcount → msgid_tag prev i ≠ some (-1) →
          msgid_tag last i = msgid_tag prev i)) := by
  obtain ⟨h1, h2⟩ := verify_multi_spec last prev msgid hwf (by omega) hslots htime hpos
  refine ⟨h1, h2, fun hc => ?_⟩
  rw [hc]
  exact h2

/-- C3 (amended) at the cursor `(1, [5, 0])` and `prev_id = (1, [5, -1])`. -/
theorem verify_msg_id_multi_same_time_witness :
    (msgid_wf sample_cursor = true ∧ 1 < sample_cursor.tagcount ∧
      sample_cursor.tagcount ≤ msgid_slots sample_prev ∧
      sample_cursor.time = sample_prev.time ∧ 0 < sample_cursor.time) ∧
    (verify_msg_id sample_cursor sample_prev sample_advance = .ok NGX_OK ∨
      verify_msg_id sample_cursor sample_prev sample_advance = .ok NGX_ERROR) ∧
    (verify_msg_id sample_cursor sample_prev sample_advance = .ok NGX_OK ↔
      ∀ i, i < sample_cursor.tagcount → msgid_tag sample_prev i ≠ some (-1) →
        msgid_tag sample_cursor i = msgid_tag sample_prev i) ∧
    (sample_prev.tagcount = sample_cursor.tagcount →
      (verify_msg_id sample_cursor sample_prev sample_advance = .ok NGX_OK ↔
        ∀ i, i < sample_prev.tagcount → msgid_tag sample_prev i ≠ some (-1) →
          msgid_tag sample_cursor i = msgid_tag sample_prev i)) :=
  ⟨⟨rfl, by decide, by decide, rfl, by decide⟩,
    verify_msg_id_multi_same_time sample_cursor sample_prev sample_advance rfl (by decide)
      (by decide) rfl (by decide)⟩

/-! ### C4 -/

/-- C4: for a well-formed single-tag cursor `last` (`tagcount = 1`) and a well-formed
`prev_id` with the same positive time, `verify_msg_id` returns `NGX_OK` or
`NGX_ERROR`, and returns `NGX_OK` if and only if `last.tags[0] = prev_id.tags[0]`. -/
theorem verify_msg_id_single_same_time (last prev msgid : nchan_msg_id_t)
    (hwf1 : msgid_wf last = true) (hwf2 : msgid_wf prev = true)
    (hsingle : last.tagcount = 1)
    (htime : last.time = prev.time) (hpos : 0 < last.time) :
    (verify_msg_id last prev msgid = .ok NGX_OK ∨
      verify_msg_id last prev msgid = .ok NGX_ERROR) ∧
    (verify_msg_id last prev msgid = .ok NGX_OK ↔ msgid_tag last 0 = msgid_tag prev 0) :=
  verify_single_spec last prev msgid hwf1 hwf2 hsingle htime hpos

/-- C4 at the cursor `(1, [5])` and `prev_id = (1, [6])`: a missed message. -/
theorem verify_msg_id_single_same_time_witness :
    (msgid_wf sample_single = true ∧ msgid_wf sample_single_prev = true ∧
      sample_single.tagcount = 1 ∧ sample_single.time = sample_single_prev.time ∧
      0 < sample_single.time) ∧
    (verify_msg_id sample_single sample_single_prev sample_single_next = .ok NGX_OK ∨
      verify_msg_id sample_single sample_single_prev sample_single_next = .ok NGX_ERROR) ∧
    (verify_msg_id sample_single sample_single_prev sample_single_next = .ok NGX_OK ↔
      msgid_tag sample_single 0 = msgid_tag sample_single_prev 0) :=
  ⟨⟨rfl, rfl, rfl, rfl, by decide⟩,
    verify_msg_id_single_same_time sample_single sample_single_prev sample_single_next
      rfl rfl rfl rfl (by decide)⟩

/-! ### C5 -/

/-- C5 (counterexample): the subscriber whose cursor is `(2, [0, -1])` receives the
message `(2, [0, -1])` with previous ID `(1, [5, -1])`. The miss detector accepts the
message, and the call does not return `NGX_OK`: it stops in the debug check
`assert(newtags[i] > oldtags[i])` of `nchan_update_multi_msgid`. -/
theorem update_subscriber_last_msg_id_advisory_counterexample :
    verify_msg_id sample_sub_delivered.last_msgid sample_msg.prev_id sample_msg.id =
      .ok NGX_OK ∧
    nchan_update_multi_msgid none none sample_sub_delivered.last_msgid sample_msg.id =
      .error .assertion ∧
    update_subscriber_last_msg_id none none 0 sample_sub_delivered (some sample_msg) =
      .error .assertion := by
  refine ⟨rfl, rfl, rfl⟩

/-- C5 (amended): miss detection is advisory. For a subscriber and a non-null message
with well-formed IDs whose arrays cover the positions the miss detector reads, and with
the allocations the update needs, `verify_msg_id` returns `NGX_OK` or `NGX_ERROR`, and
whichever it returns the call ends as `nchan_update_multi_msgid(sub.last_msgid, msg.id)`
ends: when that returns a cursor the function returns `NGX_OK` with that cursor (a line
is logged exactly when the report is `NGX_ERROR`), and when that stops the call stops
in the same way. The update returns exactly when the message ID has one tag, or a time
other than the cursor's, or the tag count of the cursor with the debug check satisfied.
For a null message the function returns `NGX_OK` and the subscriber is unchanged. -/
theorem update_subscriber_last_msg_id_advisory (g c : Option (List Int)) (now : Int)
    (sub : subscriber_t) (msg : nchan_msg_t)
    (hwf1 : msgid_wf sub.last_msgid = true) (hwf2 : msgid_wf msg.prev_id = true)
    (hwf3 : msgid_wf msg.id = true)
    (hs1 : sub.last_msgid.tagcount ≤ msgid_slots msg.prev_id)
    (hs2 : msg.prev_id.tagcount ≤ msgid_slots msg.id)
    (hset : 1 < msg.prev_id.tagcount →
      ∃ i, i < msg.prev_id.tagcount ∧ msgid_tag msg.prev_id i ≠ some (-1))
    (halloc : NCHAN_MULTITAG_MAX < msg.id.tagcount → g ≠ none ∧ c ≠ none) :
    (∃ rc, verify_msg_id sub.last_msgid msg.prev_id msg.id = .ok rc ∧
      (rc = NGX_OK ∨ rc = NGX_ERROR) ∧
      (∀ cur, nchan_update_multi_msgid g c sub.last_msgid msg.id = .ok cur →
        ∃ log, update_subscriber_last_msg_id g c now sub (some msg) =
            .ok (NGX_OK, { last_msgid := cur }, log) ∧ (log = none ↔ rc = NGX_OK)) ∧
      (∀ e, nchan_update_multi_msgid g c sub.last_msgid msg.id = .error e →
        update_subscriber_last_msg_id g c now sub (some msg) = .error e)) ∧
    ((∃ cur, nchan_update_multi_msgid g c sub.last_msgid msg.id = .ok cur) ↔
      (msg.id.tagcount = 1 ∨ msg.id.time ≠ sub.last_msgid.time ∨
        (msg.id.tagcount = sub.last_msgid.tagcount ∧
          (msg.id.tagactive < msg.id.tagcount → ∀ v w,
            msgid_tag msg.id msg.id.tagactive = some v →
            msgid_tag sub.last_msgid msg.id.tagactive = some w →
            v ≠ -1 → w ≠ -1 → w < v)))) ∧
    update_subscriber_last_msg_id g c now sub none = .ok (NGX_OK, sub, none) := by
  refine ⟨?_, update_returns_iff g c sub.last_msgid msg.id hwf1 hwf3 halloc, rfl⟩
  rcases verify_msg_id_returns sub.last_msgid msg.prev_id msg.id hwf1 hwf2 hs1 hs2 hset
    with h | h
  · obtain ⟨h1, h2⟩ := update_subscriber_cases g c now sub msg NGX_OK h (Or.inl rfl)
    exact ⟨NGX_OK, h, Or.inl rfl, h1, h2⟩
  · obtain ⟨h1, h2⟩ := update_subscriber_cases g c now sub msg NGX_ERROR h (Or.inr rfl)
    exact ⟨NGX_ERROR, h, Or.inr rfl, h1, h2⟩

/-- C5 (amended) at the cursor `(1, [5])` and the message `(1, [7])` with previous ID
`(1, [6])`: the detector reports a miss and the cursor still advances. -/
theorem update_subscriber_last_msg_id_advisory_witness :
    (msgid_wf sample_single_sub.last_msgid = true ∧
      msgid_wf sample_single_msg.prev_id = true ∧ msgid_wf sample_single_msg.id = true ∧
      sample_single_sub.last_msgid.tagcount ≤ msgid_slots sample_single_msg.prev_id ∧
      sample_single_msg.prev_id.tagcount ≤ msgid_slots sample_single_msg.id ∧
      verify_msg_id sample_single_sub.last_msgid sample_single_msg.prev_id
        sample_single_msg.id = .ok NGX_ERROR ∧
      nchan_update_multi_msgid none none sample_single_sub.last_msgid sample_single_msg.id =
        .ok sample_single_next) ∧
    ((∃ rc, verify_msg_id sample_single_sub.last_msgid sample_single_msg.prev_id
        sample_single_msg.id = .ok rc ∧
      (rc = NGX_OK ∨ rc = NGX_ERROR) ∧
      (∀ cur, nchan_update_multi_msgid none none sample_single_sub.last_msgid
          sample_single_msg.id = .ok cur →
        ∃ log, update_subscriber_last_msg_id none none 0 sample_single_sub
            (some sample_single_msg) = .ok (NGX_OK, { last_msgid := cur }, log) ∧
          (log = none ↔ rc = NGX_OK)) ∧
      (∀ e, nchan_update_multi_msgid none none sample_single_sub.last_msgid
          sample_single_msg.id = .error e →
        update_subscriber_last_msg_id none none 0 sample_single_sub
          (some sample_single_msg) = .error e)) ∧
    ((∃ cur, nchan_update_multi_msgid none none sample_single_sub.last_msgid
        sample_single_msg.id = .ok cur) ↔
      (sample_single_msg.id.tagcount = 1 ∨
        sample_single_msg.id.time ≠ sample_single_sub.last_msgid.time ∨
        (sample_single_msg.id.tagcount = sample_single_sub.last_msgid.tagcount ∧
          (sample_single_msg.id.tagactive < sample_single_msg.id.tagcount → ∀ v w,
            msgid_tag sample_single_msg.id sample_single_msg.id.tagactive = some v →
            msgid_tag sample_single_sub.last_msgid sample_single_msg.id.tagactive = some w →
            v ≠ -1 → w ≠ -1 → w < v)))) ∧
    update_subscriber_last_msg_id none none 0 sample_single_sub none =
      .ok (NGX_OK, sample_single_sub, none)) :=
  ⟨⟨rfl, rfl, rfl, by decide, by decide, rfl, rfl⟩,
    update_subscriber_last_msg_id_advisory none none 0 sample_single_sub sample_single_msg
      rfl rfl rfl (by decide) (by decide) (fun h => absurd h (by decide))
      (fun h => absurd h (by decide))⟩

/-! ### C6 -/

/-- C6, as stated, fails for a multi-tag message: the cursor `(1, [5, 0])` updated
once by the message `(2, [0, -1])` (previous ID `(1, [5, -1])`) becomes
`(2, [0, -1])`; the second application with the same message stops in the debug
check `assert(newtags[i] > oldtags[i])`, the cursor's active tag being equal to the
message's. -/
theorem update_subscriber_last_msg_id_twice_counterexample :
    update_subscriber_last_msg_id none none 0 ⟨⟨1, .fixed [5, 0, 0, 0], 0, 2⟩⟩
      (some ⟨⟨2, .fixed [0, -1, 0, 0], 0, 2⟩, ⟨1, .fixed [5, -1, 0, 0], 0, 2⟩, 10⟩) =
      .ok (NGX_OK, ⟨⟨2, .fixed [0, -1, 0, 0], 0, 2⟩⟩, none) ∧
    update_subscriber_last_msg_id none none 0 ⟨⟨2, .fixed [0, -1, 0, 0], 0, 2⟩⟩
      (some ⟨⟨2, .fixed [0, -1, 0, 0], 0, 2⟩, ⟨1, .fixed [5, -1, 0, 0], 0, 2⟩, 10⟩) =
      .error .assertion :=
  ⟨rfl, rfl⟩

/-- C6 (amended): for a well-formed cursor and message whose IDs have a slot for
every position the miss detector reads, when one application of
`update_subscriber_last_msg_id` returns, a second application with the same
message returns `NGX_OK` and leaves the cursor as the first left it if the message
is single-tag or its active tag is -1 (or its active index is not a position);
for a multi-tag message whose active tag is not -1 the second application stops
in the debug check `assert(newtags[i] > oldtags[i])`. -/
theorem update_subscriber_last_msg_id_twice (g c g' c' : Option (List Int)) (now now' : Int)
    (sub : subscriber_t) (msg : nchan_msg_t) (r1 : Int × subscriber_t × Option miss_log)
    (hwf1 : msgid_wf sub.last_msgid = true) (hwf2 : msgid_wf msg.prev_id = true)
    (hwf3 : msgid_wf msg.id = true)
    (hs1 : msg.id.tagcount ≤ msgid_slots msg.prev_id)
    (hs2 : msg.prev_id.tagcount ≤ msgid_slots msg.id)
    (hset : 1 < msg.prev_id.tagcount →
      ∃ i, i < msg.prev_id.tagcount ∧ msgid_tag msg.prev_id i ≠ some (-1))
    (halloc : NCHAN_MULTITAG_MAX < msg.id.tagcount → g ≠ none ∧ c ≠ none)
    (honce : update_subscriber_last_msg_id g c now sub (some msg) = .ok r1) :
    if msg.id.tagcount ≠ 1 ∧ msg.id.tagactive < msg.id.tagcount ∧
        msgid_tag msg.id msg.id.tagactive ≠ some (-1)
    then update_subscriber_last_msg_id g' c' now' r1.2.1 (some msg) = .error .assertion
    else ∃ log, update_subscriber_last_msg_id g' c' now' r1.2.1 (some msg) =
      .ok (NGX_OK, r1.2.1, log) := by
  have hcur := update_subscriber_ok_inv g c now sub msg r1 honce
  obtain ⟨k1, k2, k3, k4, k5⟩ :=
    update_ok_inv g c sub.last_msgid msg.id r1.2.1.last_msgid hwf1 hwf3 halloc hcur
  obtain ⟨rc, hrc⟩ : ∃ rc, verify_msg_id r1.2.1.last_msgid msg.prev_id msg.id = .ok rc := by
    rcases verify_msg_id_returns r1.2.1.last_msgid msg.prev_id msg.id k4 hwf2
      (by rw [k2]; exact hs1) hs2 hset with h | h
    · exact ⟨_, h⟩
    · exact ⟨_, h⟩
  obtain ⟨log, hlog⟩ := update_subscriber_eq g' c' now' r1.2.1 msg rc hrc
  by_cases h1 : msg.id.tagcount = 1
  · rw [if_neg (fun h => h.1 h1)]
    have e1 : nchan_update_multi_msgid g c sub.last_msgid msg.id = .ok msg.id := by
      simp [nchan_update_multi_msgid, h1]
    have e2 : nchan_update_multi_msgid g' c' r1.2.1.last_msgid msg.id = .ok msg.id := by
      simp [nchan_update_multi_msgid, h1]
    have e3 : r1.2.1.last_msgid = msg.id := by
      rw [e1] at hcur
      exact (Except.ok.inj hcur).symm
    refine ⟨log, ?_⟩
    rw [hlog, e2, ← e3]
  · have hagain := update_again g' c' r1.2.1.last_msgid msg.id k4 hwf3 h1 k1 k2 k3 k5
    by_cases hact : msg.id.tagactive < msg.id.tagcount ∧
        msgid_tag msg.id msg.id.tagactive ≠ some (-1)
    · rw [if_pos ⟨h1, hact⟩]
      rw [if_pos hact] at hagain
      rw [hlog, hagain]
    · rw [if_neg (fun h => hact h.2)]
      rw [if_neg hact] at hagain
      refine ⟨log, ?_⟩
      rw [hlog, hagain]

/-- C6 (amended) at the cursor `(1, [5, 0])` and the message `(2, [0, -1])` with
previous ID `(1, [5, -1])`: the first application returns, the second stops. -/
theorem update_subscriber_last_msg_id_twice_witness :
    (msgid_wf sample_sub.last_msgid = true ∧ msgid_wf sample_msg.id = true ∧
      update_subscriber_last_msg_id none none 0 sample_sub (some sample_msg) =
        .ok (NGX_OK, ⟨sample_next_second⟩, none)) ∧
    (if sample_msg.id.tagcount ≠ 1 ∧ sample_msg.id.tagactive < sample_msg.id.tagcount ∧
        msgid_tag sample_msg.id sample_msg.id.tagactive ≠ some (-1)
    then update_subscriber_last_msg_id none none 1
        (NGX_OK, (⟨sample_next_second⟩ : subscriber_t), (none : Option miss_log)).2.1
        (some sample_msg) = .error .assertion
    else ∃ log, update_subscriber_last_msg_id none none 1
        (NGX_OK, (⟨sample_next_second⟩ : subscriber_t), (none : Option miss_log)).2.1
        (some sample_msg) =
      .ok (NGX_OK, (NGX_OK, (⟨sample_next_second⟩ : subscriber_t),
        (none : Option miss_log)).2.1, log)) :=
  ⟨⟨rfl, rfl, rfl⟩,
    update_subscriber_last_msg_id_twice none none none none 0 1 sample_sub sample_msg
      (NGX_OK, ⟨sample_next_second⟩, none) rfl rfl rfl (by decide) (by decide)
      (fun _ => ⟨0, by decide, by decide⟩) (fun h => absurd h (by decide)) rfl⟩

/-! ### C7 -/

/-- C7, as stated, fails when the times differ: the cursor `(1, [5, 0])` updated by
`(2, [0, -1])` with active index 0 becomes `(2, [0, -1])`; the old tag 5 and the
new tag 0 are both `≥ 0` and the tag after the update, 0, is not greater than 5. -/
theorem nchan_update_multi_msgid_gap_counterexample :
    nchan_update_multi_msgid none none ⟨1, .fixed [5, 0, 0, 0], 0, 2⟩
      ⟨2, .fixed [0, -1, 0, 0], 0, 2⟩ = .ok ⟨2, .fixed [0, -1, 0, 0], 0, 2⟩ ∧
    msgid_tag ⟨1, .fixed [5, 0, 0, 0], 0, 2⟩ 0 = some 5 ∧
    msgid_tag ⟨2, .fixed [0, -1, 0, 0], 0, 2⟩ 0 = some 0 :=
  ⟨rfl, rfl, rfl⟩

/-- C7 (amended): for well-formed `oldid` and multi-tag `newid` with equal times and
tag counts and `i = newid.tagactive` a position with `oldid.tags[i] = w ≥ 0` and
`newid.tags[i] = v ≥ 0`: if `v > w` the update returns and the cursor's tag at `i`
is `v`, strictly greater than the old tag; otherwise the update stops in the debug
check `assert(newtags[i] > oldtags[i])`. -/
theorem nchan_update_multi_msgid_gap (g c : Option (List Int))
    (oldid newid : nchan_msg_id_t) (v w : Int)
    (hwf1 : msgid_wf oldid = true) (hwf2 : msgid_wf newid = true)
    (hmulti : 1 < newid.tagcount) (hcount : newid.tagcount = oldid.tagcount)
    (htime : newid.time = oldid.time) (hact : newid.tagactive < newid.tagcount)
    (hold : msgid_tag oldid newid.tagactive = some w)
    (hnew : msgid_tag newid newid.tagactive = some v)
    (hw : 0 ≤ w) (hv : 0 ≤ v) :
    (w < v → ∃ cur, nchan_update_multi_msgid g c oldid newid = .ok cur ∧
      msgid_tag cur newid.tagactive = some v) ∧
    (¬ w < v → nchan_update_multi_msgid g c oldid newid = .error .assertion) := by
  constructor
  · intro hlt
    obtain ⟨cur, h0, -, -, -, -, h5⟩ :=
      update_same_ok g c oldid newid hwf1 hwf2 (by omega) hcount htime
        (fun _ v' w' hv' hw' _ _ => by
          rw [hnew] at hv'; rw [hold] at hw'
          cases hv'; cases hw'
          exact hlt)
    have hset : msgid_tag newid newid.tagactive ≠ some (-1) := by
      rw [hnew]
      intro e
      have : v = -1 := Option.some.inj e
      omega
    refine ⟨cur, h0, ?_⟩
    rw [h5, if_pos ⟨hact, hset⟩, hnew]
  · intro hle
    exact update_same_fail g c oldid newid hwf1 hwf2 (by omega) hcount htime hact v w
      hnew hold (by omega) (by omega) hle

/-- C7 (amended) at the cursor `(1, [5, 0])` and the message ID `(1, [6, -1])`. -/
theorem nchan_update_multi_msgid_gap_witness :
    (msgid_wf sample_cursor = true ∧ msgid_wf sample_advance = true ∧
      sample_advance.time = sample_cursor.time ∧
      msgid_tag sample_cursor sample_advance.tagactive = some 5 ∧
      msgid_tag sample_advance sample_advance.tagactive = some 6) ∧
    ((5 : Int) < 6 → ∃ cur, nchan_update_multi_msgid none none sample_cursor sample_advance =
        .ok cur ∧ msgid_tag cur sample_advance.tagactive = some 6) ∧
    (¬ (5 : Int) < 6 →
      nchan_update_multi_msgid none none sample_cursor sample_advance = .error .assertion) :=
  ⟨⟨rfl, rfl, rfl, rfl, rfl⟩,
    nchan_update_multi_msgid_gap none none sample_cursor sample_advance 6 5 rfl rfl
      (by decide) rfl rfl (by decide) rfl rfl (by decide) (by decide)⟩

/-! ### C8 -/

/-- C8: for well-formed `oldid` and `newid`, if `newid.tagcount = 1`, or
`newid.tagcount > 1` and `newid.time ≠ oldid.time`, then `nchan_update_multi_msgid`
returns (the `ngx_alloc` calls it makes when `newid` has more than
`NCHAN_MULTITAG_MAX` tags giving a block) and the cursor equals `newid` in time,
tag count, active index and every tag position below the tag count. -/
theorem nchan_update_multi_msgid_replace (g c : Option (List Int))
    (oldid newid : nchan_msg_id_t)
    (hwf1 : msgid_wf oldid = true) (hwf2 : msgid_wf newid = true)
    (halloc : NCHAN_MULTITAG_MAX < newid.tagcount → g ≠ none ∧ c ≠ none)
    (h : newid.tagcount = 1 ∨ (1 < newid.tagcount ∧ newid.time ≠ oldid.time)) :
    ∃ cur, nchan_update_multi_msgid g c oldid newid = .ok cur ∧
      cur.time = newid.time ∧ cur.tagcount = newid.tagcount ∧
      cur.tagactive = newid.tagactive ∧
      ∀ i, i < newid.tagcount → msgid_tag cur i = msgid_tag newid i := by
  obtain ⟨cur, h0, h1, h2, h3, -, h5⟩ := update_replace_ok g c oldid newid hwf1 hwf2 halloc
    (h.elim Or.inl (fun x => Or.inr x.2))
  exact ⟨cur, h0, h1, h2, h3, h5⟩

/-- C8 at the inline cursor `(1, [5, 0])` and the five-tag ID `(2, [0, -1, 0, 0, 7])`:
the cursor grows and is replaced. -/
theorem nchan_update_multi_msgid_replace_witness :
    (msgid_wf sample_cursor = true ∧ msgid_wf sample_large = true ∧
      (sample_large.tagcount = 1 ∨
        (1 < sample_large.tagcount ∧ sample_large.time ≠ sample_cursor.time))) ∧
    ∃ cur, nchan_update_multi_msgid (some [1, 2, 3, 4]) (some []) sample_cursor
        sample_large = .ok cur ∧
      cur.time = sample_large.time ∧ cur.tagcount = sample_large.tagcount ∧
      cur.tagactive = sample_large.tagactive ∧
      ∀ i, i < sample_large.tagcount → msgid_tag cur i = msgid_tag sample_large i :=
  ⟨⟨rfl, rfl, Or.inr ⟨by decide, by decide⟩⟩,
    nchan_update_multi_msgid_replace (some [1, 2, 3, 4]) (some []) sample_cursor sample_large
      rfl rfl (fun _ => ⟨by simp, by simp⟩) (Or.inr ⟨by decide, by decide⟩)⟩

/-! ### C9 -/

/-- C9: `nchan_parse_compound_msgid` returns `NGX_DECLINED` exactly when the string
contains no `:`; `NGX_ERROR` exactly when it contains a `:` and the text before the
first `:` is not a non-empty run of decimal digits in the range of `ngx_int_t`; and
`NGX_OK` otherwise, and then `id.time` is the decimal value of that text. On a result
other than `NGX_OK` the ID (and the static tag array) is left unchanged. -/
theorem nchan_parse_compound_msgid_result (tags : List Int) (id : nchan_msg_id_t)
    (str : List Char) :
    ((nchan_parse_compound_msgid tags id str).1 = NGX_DECLINED ↔ ':' ∉ str) ∧
    ((nchan_parse_compound_msgid tags id str).1 = NGX_ERROR ↔
      ':' ∈ str ∧ ¬ decimal_in_range (str.takeWhile (fun x => x != ':'))) ∧
    ((nchan_parse_compound_msgid tags id str).1 = NGX_OK ↔
      ':' ∈ str ∧ decimal_in_range (str.takeWhile (fun x => x != ':'))) ∧
    ((nchan_parse_compound_msgid tags id str).1 = NGX_OK →
      (nchan_parse_compound_msgid tags id str).2.2.time =
        decimal_value (str.takeWhile (fun x => x != ':'))) ∧
    ((nchan_parse_compound_msgid tags id str).1 ≠ NGX_OK →
      (nchan_parse_compound_msgid tags id str).2.2 = id ∧
      (nchan_parse_compound_msgid tags id str).2.1 = tags) := by
  rcases nchan_parse_compound_msgid_cases tags id str with ⟨h1, h2⟩ | ⟨h1, h2, h3⟩ | ⟨h1, h2, h3⟩
  · rw [h2]
    simp [h1, NGX_OK, NGX_ERROR, NGX_DECLINED]
  · rw [h3]
    simp [h1, h2, NGX_OK, NGX_ERROR, NGX_DECLINED]
  · rw [h3]
    simp [h1, h2, NGX_OK, NGX_ERROR, NGX_DECLINED, nchan_parse_msg_tag]

/-! ### C10 -/

/-- C10, as stated, fails in its second half: the compound ID `1:0,0,…,0` with 256
tags (255 commas) is not rejected; the parser returns `NGX_OK` with
`tagcount = 255`. -/
theorem nchan_parse_compound_msgid_tag_limit_counterexample :
    (nchan_parse_compound_msgid (List.replicate 255 0) ⟨0, .fixed [0, 0, 0, 0], 0, 1⟩
      ('1' :: ':' :: ((List.replicate 255 ['0', ',']).flatten ++ ['0']))).1 = NGX_OK ∧
    (nchan_parse_compound_msgid (List.replicate 255 0) ⟨0, .fixed [0, 0, 0, 0], 0, 1⟩
      ('1' :: ':' :: ((List.replicate 255 ['0', ',']).flatten ++ ['0']))).2.2.tagcount = 255 ∧
    ((List.replicate 255 ['0', ',']).flatten ++ ['0']).count ',' + 1 = 256 := by
  have hc : ((List.replicate 255 ['0', ',']).flatten ++ ['0']).count ',' + 1 = 256 := by
    rw [count_comma_repeat]
  have h := nchan_parse_compound_msgid_ok (List.replicate 255 0)
    ⟨0, .fixed [0, 0, 0, 0], 0, 1⟩ ['1'] ((List.replicate 255 ['0', ',']).flatten ++ ['0'])
    (by decide)
  have h' : nchan_parse_compound_msgid (List.replicate 255 0) ⟨0, .fixed [0, 0, 0, 0], 0, 1⟩
      ('1' :: ':' :: ((List.replicate 255 ['0', ',']).flatten ++ ['0'])) = _ := h
  rw [h']
  refine ⟨rfl, ?_, hc⟩
  rw [nchan_parse_msg_tag_tagcount, hc]
  rfl

/-- C10 (amended): parsing a compound ID `t:s` whose time text `t` is valid returns
`NGX_OK`, and the tag count is the number of comma-separated tags of `s` (one more
than its number of commas) capped at 255: a tag list of exactly 255 tags gives
`tagcount = 255`, and a tag list of 256 or more tags is accepted as well, also with
`tagcount = 255`, the tags after the 255th being ignored: two tag lists that agree up to
their 255th comma give the same result. -/
theorem nchan_parse_compound_msgid_tag_limit (tags : List Int) (id : nchan_msg_id_t)
    (t s : List Char) (ht : ngx_atoi t ≠ NGX_ERROR) :
    (nchan_parse_compound_msgid tags id (t ++ ':' :: s)).1 = NGX_OK ∧
    (nchan_parse_compound_msgid tags id (t ++ ':' :: s)).2.2.tagcount =
      min (s.count ',' + 1) 255 ∧
    (∀ p x y : List Char, 255 ≤ p.count ',' →
      nchan_parse_compound_msgid tags id (t ++ ':' :: (p ++ x)) =
        nchan_parse_compound_msgid tags id (t ++ ':' :: (p ++ y))) := by
  refine ⟨?_, ?_, fun p x y hp => ?_⟩
  · rw [nchan_parse_compound_msgid_ok tags id t s ht]
  · rw [nchan_parse_compound_msgid_ok tags id t s ht]
    exact nchan_parse_msg_tag_tagcount tags s _
  · rw [nchan_parse_compound_msgid_ok tags id t _ ht,
      nchan_parse_compound_msgid_ok tags id t _ ht,
      nchan_parse_msg_tag_ignored tags _ p x y hp]

/-- C10 (amended) at the compound ID `1:0,0,…,0` with 255 tags (254 commas). -/
theorem nchan_parse_compound_msgid_tag_limit_witness :
    ngx_atoi ['1'] ≠ NGX_ERROR ∧
    (nchan_parse_compound_msgid (List.replicate 255 0) sample_single
      (['1'] ++ ':' :: ((List.replicate 254 ['0', ',']).flatten ++ ['0']))).1 = NGX_OK ∧
    (nchan_parse_compound_msgid (List.replicate 255 0) sample_single
      (['1'] ++ ':' :: ((List.replicate 254 ['0', ',']).flatten ++ ['0']))).2.2.tagcount =
      min (((List.replicate 254 ['0', ',']).flatten ++ ['0']).count ',' + 1) 255 ∧
    (∀ p x y : List Char, 255 ≤ p.count ',' →
      nchan_parse_compound_msgid (List.replicate 255 0) sample_single
          (['1'] ++ ':' :: (p ++ x)) =
        nchan_parse_compound_msgid (List.replicate 255 0) sample_single
          (['1'] ++ ':' :: (p ++ y))) :=
  ⟨by decide, nchan_parse_compound_msgid_tag_limit (List.replicate 255 0) sample_single ['1']
    ((List.replicate 254 ['0', ',']).flatten ++ ['0']) (by decide)⟩

/-! ### C11 -/

/-- C11: wire-form round trip. For every well-formed message ID with time ≥ 0 (and in
the range of `ngx_int_t`), 1 ≤ tagcount ≤ 255, tagactive < tagcount and every tag in
[-1, 32767], parsing its wire form `<time>:<tag>[,<tag>…]` (active tag bracketed, the
tag -1 written as `-1` or as the shorthand `-`) with `nchan_parse_compound_msgid`
returns `NGX_OK` with the same time, tagcount, tagactive and tags, and the wire form
of the parsed ID is the same string. -/
theorem msgid_wire_form_round_trip (short : Bool) (tags : List Int)
    (cur id : nchan_msg_id_t) (ht : tags.length = 255) (hwf : msgid_wf id = true)
    (h0 : 0 ≤ id.time) (hmax : id.time ≤ NGX_MAX_INT_T_VALUE)
    (h1 : 1 ≤ id.tagcount) (h255 : id.tagcount ≤ 255) (hact : id.tagactive < id.tagcount)
    (hrange : ∀ i, i < id.tagcount → ∀ v ∈ msgid_tag id i, -1 ≤ v ∧ v ≤ 32767) :
    (nchan_parse_compound_msgid tags cur (msgid_to_str short id)).1 = NGX_OK ∧
    (nchan_parse_compound_msgid tags cur (msgid_to_str short id)).2.2.time = id.time ∧
    (nchan_parse_compound_msgid tags cur (msgid_to_str short id)).2.2.tagcount = id.tagcount ∧
    (nchan_parse_compound_msgid tags cur (msgid_to_str short id)).2.2.tagactive =
      id.tagactive ∧
    (∀ i, i < id.tagcount →
      msgid_tag (nchan_parse_compound_msgid tags cur (msgid_to_str short id)).2.2 i =
        msgid_tag id i) ∧
    msgid_to_str short (nchan_parse_compound_msgid tags cur (msgid_to_str short id)).2.2 =
      msgid_to_str short id := by
  obtain ⟨p1, p2, p3, p4, -, p6⟩ := msgid_to_str_parse short tags cur id ht hwf h0 hmax h1 h255
    hact (fun i v hi hv => hrange i hi v (Option.mem_def.mpr hv))
  exact ⟨p1, p2, p3, p4, p6, msgid_to_str_congr short _ id p2 p3 p4 p6⟩

theorem msgid_wire_form_round_trip_witness :
    (nchan_parse_compound_msgid static_tags_zero sample_single
      (msgid_to_str true sample_large)).1 = NGX_OK ∧
    (nchan_parse_compound_msgid static_tags_zero sample_single
      (msgid_to_str true sample_large)).2.2.time = sample_large.time ∧
    (nchan_parse_compound_msgid static_tags_zero sample_single
      (msgid_to_str true sample_large)).2.2.tagcount = sample_large.tagcount ∧
    (nchan_parse_compound_msgid static_tags_zero sample_single
      (msgid_to_str true sample_large)).2.2.tagactive = sample_large.tagactive ∧
    (∀ i, i < sample_large.tagcount →
      msgid_tag (nchan_parse_compound_msgid static_tags_zero sample_single
        (msgid_to_str true sample_large)).2.2 i = msgid_tag sample_large i) ∧
    msgid_to_str true (nchan_parse_compound_msgid static_tags_zero sample_single
      (msgid_to_str true sample_large)).2.2 = msgid_to_str true sample_large :=
  msgid_wire_form_round_trip true static_tags_zero sample_single sample_large
    (List.length_replicate 255 0) (by decide) (by decide) (by decide) (by decide) (by decide)
    (by decide) (by decide)

/-! ### C12 -/

/-- C12 (counterexample): the field `40000` does not parse to its decimal value: the
tag is an `int16_t` and the parsed value is -25536; and the field `-0` parses to -1,
not 0. -/
theorem nchan_parse_msg_tag_field_values_counterexample :
    decimal_value ['4', '0', '0', '0', '0'] = 40000 ∧
    msgid_tag (nchan_parse_msg_tag static_tags_zero ['4', '0', '0', '0', '0'] sample_single).2 0 =
      some (-25536) ∧
    decimal_value ['0'] = 0 ∧
    msgid_tag (nchan_parse_msg_tag static_tags_zero ['-', '0'] sample_single).2 0 = some (-1) := by
  refine ⟨by decide, by decide, by decide, by decide⟩

/-- C12 (amended): for every tag list of at most 255 fields, each a run of decimal
digits of value at most 32767 with an optional minus sign (and optional brackets),
`nchan_parse_msg_tag` counts one tag per field; a field that is a lone `-` parses to
-1, every field with a minus sign over the value zero (`-0`, `-00`, a lone `-`) parses
to -1, and every other field parses to its signed decimal value. -/
theorem nchan_parse_msg_tag_field_values (tags : List Int) (fs : List tag_field)
    (mid : nchan_msg_id_t) (ht : tags.length = 255) (hne : fs ≠ [])
    (hok : ∀ f ∈ fs, tag_field_ok f) (hlen : fs.length ≤ 255) :
    (nchan_parse_msg_tag tags (fields_text fs) mid).2.tagcount = fs.length ∧
    ∀ (j : Nat) (hj : j < fs.length),
      (fs[j].digits = [] → fs[j].neg = true →
        msgid_tag (nchan_parse_msg_tag tags (fields_text fs) mid).2 j = some (-1)) ∧
      (fs[j].neg = true ∧ decimal_value fs[j].digits = 0 →
        msgid_tag (nchan_parse_msg_tag tags (fields_text fs) mid).2 j = some (-1)) ∧
      (¬ (fs[j].neg = true ∧ decimal_value fs[j].digits = 0) →
        msgid_tag (nchan_parse_msg_tag tags (fields_text fs) mid).2 j =
          some (if fs[j].neg then - decimal_value fs[j].digits
                else decimal_value fs[j].digits)) :=
  nchan_parse_msg_tag_field_cases tags fs mid ht hne hok hlen

theorem nchan_parse_msg_tag_field_values_witness :
    (fields_text sample_fields = ['5', ',', '-', ',', '3'] ∧
      static_tags_zero.length = 255 ∧ sample_fields ≠ [] ∧
      (∀ f ∈ sample_fields, tag_field_ok f) ∧ sample_fields.length ≤ 255) ∧
    ((nchan_parse_msg_tag static_tags_zero (fields_text sample_fields) sample_single).2.tagcount
      = sample_fields.length ∧
    ∀ (j : Nat) (hj : j < sample_fields.length),
      (sample_fields[j].digits = [] → sample_fields[j].neg = true →
        msgid_tag (nchan_parse_msg_tag static_tags_zero (fields_text sample_fields)
          sample_single).2 j = some (-1)) ∧
      (sample_fields[j].neg = true ∧ decimal_value sample_fields[j].digits = 0 →
        msgid_tag (nchan_parse_msg_tag static_tags_zero (fields_text sample_fields)
          sample_single).2 j = some (-1)) ∧
      (¬ (sample_fields[j].neg = true ∧ decimal_value sample_fields[j].digits = 0) →
        msgid_tag (nchan_parse_msg_tag static_tags_zero (fields_text sample_fields)
          sample_single).2 j =
          some (if sample_fields[j].neg then - decimal_value sample_fields[j].digits
                else decimal_value sample_fields[j].digits))) :=
  ⟨⟨by decide, List.length_replicate 255 0, by decide, by decide, by decide⟩,
    nchan_parse_msg_tag_field_values static_tags_zero sample_fields sample_single
      (List.length_replicate 255 0) (by decide) (by decide) (by decide)⟩

/-! ### C13 -/

/-- C13: for a well-formed message ID with tagcount `n ≤ 255` and indices `in_n < n`,
`out_n < n`, `nchan_expand_msg_id_multi_tag(id, in_n, out_n, fill)` returns; afterwards
the tag at `out_n` is the tag that was at `in_n`, every other position below `n` holds
`fill`, and `time`, `tagcount` and `tagactive` are unchanged. -/
theorem nchan_expand_msg_id_multi_tag_result (fuel : Nat) (id : nchan_msg_id_t)
    (in_n out_n : Nat) (fill : Int) (hwf : msgid_wf id = true) (hn : id.tagcount ≤ 255)
    (hin : in_n < id.tagcount) (hout : out_n < id.tagcount) (hfuel : id.tagcount < fuel) :
    ∃ r, nchan_expand_msg_id_multi_tag fuel id in_n out_n fill = some (.ok r) ∧
      r.time = id.time ∧ r.tagcount = id.tagcount ∧ r.tagactive = id.tagactive ∧
      msgid_tag r out_n = msgid_tag id in_n ∧
      ∀ i, i < id.tagcount → i ≠ out_n → msgid_tag r i = some fill := by
  obtain ⟨r, h1, h2, h3, h4, -, h5, h6⟩ :=
    nchan_expand_msg_id_multi_tag_ok fuel id in_n out_n fill hwf hn hin hout hfuel
  exact ⟨r, h1, h2, h3, h4, h5, h6⟩

theorem nchan_expand_msg_id_multi_tag_result_witness :
    ∃ r, nchan_expand_msg_id_multi_tag 6 sample_large 4 1 (-1) = some (.ok r) ∧
      r.time = sample_large.time ∧ r.tagcount = sample_large.tagcount ∧
      r.tagactive = sample_large.tagactive ∧
      msgid_tag r 1 = msgid_tag sample_large 4 ∧
      ∀ i, i < sample_large.tagcount → i ≠ 1 → msgid_tag r i = some (-1) :=
  nchan_expand_msg_id_multi_tag_result 6 sample_large 4 1 (-1) (by decide) (by decide)
    (by decide) (by decide) (by decide)

/-! ### C14 -/

/-- C14: when the first loop of `nchan_process_multi_channel_id` has resolved the
sub-IDs `id[0..n)` and the allocation succeeds, the function returns `NGX_OK` and an ID
whose length is the number of bytes written; for n = 1 the bytes are the group, `/` and
the sub-ID, for n > 1 they are `m/`, the separator, and for each sub-ID in order the
group, `/`, the sub-ID and the separator. When neither the group nor a sub-ID contains
the separator (and the separator is not `/`), splitting the composite ID at the
separator gives the list of the `group/sub-ID` and joining that list again gives the
ID byte for byte. -/
theorem nchan_process_multi_channel_id_bytes (sep : Char) (fuel : Nat)
    (idcf : List ngx_http_complex_value_t) (cf : nchan_loc_conf_t)
    (ctx : Option nchan_request_ctx_t) (st : chid_state)
    (hres : multi_resolve cf fuel idcf ⟨[], 0, ctx⟩ = some (.ok (NGX_OK, st))) :
    ∃ out, nchan_process_multi_channel_id sep fuel true idcf cf ctx =
        some (.ok ⟨NGX_OK, some out,
          st.ctx.map (fun c => { c with channel_id_count := st.id.length })⟩) ∧
      out.len = out.data.length ∧
      (∀ v, st.id = [v] → out.data = cf.channel_group ++ '/' :: v) ∧
      (1 < st.id.length →
        out.data = composite_id sep cf.channel_group st.id ∧
        (sep ≠ '/' → sep ∉ cf.channel_group → (∀ v ∈ st.id, sep ∉ v) →
          composite_split sep out.data = st.id.map (fun v => cf.channel_group ++ '/' :: v) ∧
          composite_join sep (composite_split sep out.data) = out.data)) := by
  obtain ⟨out, h1, h2, h3, h4⟩ := process_multi_ok sep fuel idcf cf ctx st hres
  refine ⟨out, h1, h2, h3, fun hn => ⟨h4 hn, fun hs hg hv => ?_⟩⟩
  have hparts : ∀ p ∈ st.id.map (fun v => cf.channel_group ++ '/' :: v), sep ∉ p := by
    intro p hp
    obtain ⟨v, hv1, rfl⟩ := List.mem_map.mp hp
    intro hm
    rcases List.mem_append.mp hm with h | h
    · exact hg h
    · rcases List.mem_cons.mp h with h | h
      · exact hs h
      · exact hv v hv1 h
  have hsplit := composite_split_join sep _ hparts
  rw [← composite_id_join, ← h4 hn] at hsplit
  refine ⟨hsplit, ?_⟩
  rw [hsplit, ← composite_id_join, ← h4 hn]

theorem nchan_process_multi_channel_id_bytes_witness :
    ∃ out, nchan_process_multi_channel_id '|' 0 true sample_conf_chid.sub_chid sample_conf_chid
        (some {}) =
        some (.ok ⟨NGX_OK, some out,
          (some { channel_id := [['a'], ['b', 'c'], [], []] } : Option nchan_request_ctx_t).map
            (fun c => { c with channel_id_count := [['a'], ['b', 'c']].length })⟩) ∧
      out.len = out.data.length ∧
      (∀ v, [['a'], ['b', 'c']] = [v] → out.data = sample_conf_chid.channel_group ++ '/' :: v) ∧
      (1 < [['a'], ['b', 'c']].length →
        out.data = composite_id '|' sample_conf_chid.channel_group [['a'], ['b', 'c']] ∧
        ('|' ≠ '/' → '|' ∉ sample_conf_chid.channel_group →
          (∀ v ∈ [['a'], ['b', 'c']], '|' ∉ v) →
          composite_split '|' out.data =
            [['a'], ['b', 'c']].map (fun v => sample_conf_chid.channel_group ++ '/' :: v) ∧
          composite_join '|' (composite_split '|' out.data) = out.data)) :=
  nchan_process_multi_channel_id_bytes '|' 0 sample_conf_chid.sub_chid sample_conf_chid
    (some {}) ⟨[['a'], ['b', 'c']], 7, some { channel_id := [['a'], ['b', 'c'], [], []] }⟩ rfl

/-! ### C15 -/

/-- C15 (code at the failing input): with the delimiter `,`, the evaluated ID `A,B` gives
the sub-IDs `A` and `B`, but `A,` gives the single sub-ID `A,`, which contains the
delimiter, where the segments between the occurrences of the delimiter are `A` and
the empty text; and with the delimiter `::`, the evaluated ID `A::B` gives the single
sub-ID `A`. -/
theorem nchan_process_multi_channel_id_split_segments :
    multi_resolve (sample_conf_split [','] ['A', ',', 'B']) 5
        (sample_conf_split [','] ['A', ',', 'B']).sub_chid ⟨[], 0, some {}⟩ =
      some (.ok (NGX_OK, ⟨[['A'], ['B']], 6, some { channel_id := [['A'], ['B'], [], []] }⟩)) ∧
    multi_resolve (sample_conf_split [','] ['A', ',']) 5
        (sample_conf_split [','] ['A', ',']).sub_chid ⟨[], 0, some {}⟩ =
      some (.ok (NGX_OK, ⟨[['A', ',']], 4, some { channel_id := [['A', ','], [], [], []] }⟩)) ∧
    List.splitOn ',' ['A', ','] = [['A'], []] ∧
    multi_resolve (sample_conf_split [':', ':'] ['A', ':', ':', 'B']) 5
        (sample_conf_split [':', ':'] ['A', ':', ':', 'B']).sub_chid ⟨[], 0, some {}⟩ =
      some (.ok (NGX_OK, ⟨[['A']], 3, some { channel_id := [['A'], [], [], []] }⟩)) := by
  refine ⟨?_, ?_, ?_, ?_⟩
  · rfl
  · rfl
  · decide
  · rfl

/-! ### C16 -/

/-- C16 (counterexample): with `max_channel_id_length` = 2^32 + 1 the evaluated ID `ab`
of 2 bytes, which does not exceed `max_channel_id_length`, is rejected with the 403
response: `validate_id` compares the length with `(unsigned) max_channel_id_length`,
which is 1. -/
theorem nchan_get_channel_id_failures_counterexample :
    ((['a', 'b'] : List Char).length : Int) ≤ sample_conf_wide.max_channel_id_length ∧
    sample_conf_wide.max_channel_id_length % 4294967296 = 1 ∧
    nchan_get_channel_id '|' 0 true none sample_conf_wide (some {}) .SUB true =
      some (.ok ⟨none, some {}, some (.status NGX_HTTP_FORBIDDEN)⟩) := by
  refine ⟨by decide, by decide, rfl⟩

/-- C16 (amended): `nchan_get_channel_id` with `fail_hard` and a request context. The
limit an ID is compared with is `(unsigned) max_channel_id_length`, that is
`max_channel_id_length` modulo 2^32, which is `max_channel_id_length` itself when that
lies in 0 .. 2^32 - 1. With templates for the channel ID, with or without split
delimiter, when the sub-IDs fit the array `id` (fewer than 255 sub-IDs precede each
template and there are at most 255 in all; without split delimiter each template gives
one): the 403 response is sent, and no ID returned, if and only if an evaluated ID is
longer than the limit; otherwise a failed allocation gives no ID and the 500 response,
and a successful one an ID and no response. Without templates, a missing, not-found or
empty `$push_channel_id` gives no ID and the 404 response with the `text/plain` body
"No channel id provided."; otherwise the 403 response is sent, and no ID returned, if
and only if the value is longer than the limit, and a failed allocation gives no ID and
the 500 response. -/
theorem nchan_get_channel_id_failures (sep : Char) (fuel : Nat) (palloc : Bool)
    (vv : Option ngx_http_variable_value_t) (cf : nchan_loc_conf_t) (c : nchan_request_ctx_t)
    (what : pub_or_sub_t) :
    (0 < (channel_id_conf cf what).length →
      (0 < cf.channel_id_split_delimiter.length →
        ∀ cv ∈ channel_id_conf cf what, (ngx_http_complex_value cv).length < fuel) →
      (∀ k, k < (channel_id_conf cf what).length →
        sub_id_total cf ((channel_id_conf cf what).take k) < 255) →
      sub_id_total cf (channel_id_conf cf what) ≤ 255 →
      ∃ res, nchan_get_channel_id sep fuel palloc vv cf (some c) what true = some (.ok res) ∧
        (res.response = some (.status NGX_HTTP_FORBIDDEN) ↔
          ∃ cv ∈ channel_id_conf cf what,
            cf.max_channel_id_length % 4294967296 <
              ((ngx_http_complex_value cv).length : Int)) ∧
        (res.response = some (.status NGX_HTTP_FORBIDDEN) → res.id = none) ∧
        ((∀ cv ∈ channel_id_conf cf what,
            ((ngx_http_complex_value cv).length : Int) ≤
              cf.max_channel_id_length % 4294967296) →
          (palloc = false →
            res.id = none ∧ res.response = some (.status NGX_HTTP_INTERNAL_SERVER_ERROR)) ∧
          (palloc = true → res.id ≠ none ∧ res.response = none))) ∧
    (cf.channel_id_split_delimiter = [] →
      ∀ cvs : List ngx_http_complex_value_t, sub_id_total cf cvs = cvs.length) ∧
    ((channel_id_conf cf what).length = 0 →
      ∃ res, nchan_get_channel_id sep fuel palloc vv cf (some c) what true = some (.ok res) ∧
        ((vv = none ∨ ∃ v, vv = some v ∧ (v.not_found = true ∨ v.data = [])) →
          res.id = none ∧
            res.response =
              some (.string NGX_HTTP_NOT_FOUND TEXT_PLAIN NO_CHANNEL_ID_MESSAGE)) ∧
        (∀ v, vv = some v → v.not_found = false → v.data ≠ [] →
          (res.response = some (.status NGX_HTTP_FORBIDDEN) ↔
            cf.max_channel_id_length % 4294967296 < (v.data.length : Int)) ∧
          (res.response = some (.status NGX_HTTP_FORBIDDEN) → res.id = none) ∧
          ((v.data.length : Int) ≤ cf.max_channel_id_length % 4294967296 →
            (palloc = false →
              res.id = none ∧ res.response = some (.status NGX_HTTP_INTERNAL_SERVER_ERROR)) ∧
            (palloc = true → res.id ≠ none ∧ res.response = none)))) ∧
    (0 ≤ cf.max_channel_id_length → cf.max_channel_id_length < 4294967296 →
      cf.max_channel_id_length % 4294967296 = cf.max_channel_id_length) :=
  ⟨fun hn hfuel hpre hcap =>
      get_channel_id_templates sep fuel palloc vv cf c what hn hfuel hpre hcap,
    fun hd cvs => sub_id_total_plain cf hd cvs,
    fun hn => get_channel_id_variable sep fuel palloc vv cf c what hn,
    fun h0 h1 => Int.emod_eq_of_lt h0 h1⟩

/-- C16 (amended) at a location with the split delimiter `,` whose template evaluates
to `A,B`, with a failed allocation, and at a location without templates and without
the variable `$push_channel_id`. -/
theorem nchan_get_channel_id_failures_witness :
    ((0 < (channel_id_conf (sample_conf_split [','] ['A', ',', 'B']) .SUB).length ∧
      (0 < (sample_conf_split [','] ['A', ',', 'B']).channel_id_split_delimiter.length →
        ∀ cv ∈ channel_id_conf (sample_conf_split [','] ['A', ',', 'B']) .SUB,
          (ngx_http_complex_value cv).length < 4) ∧
      (∀ k, k < (channel_id_conf (sample_conf_split [','] ['A', ',', 'B']) .SUB).length →
        sub_id_total (sample_conf_split [','] ['A', ',', 'B'])
          ((channel_id_conf (sample_conf_split [','] ['A', ',', 'B']) .SUB).take k) < 255) ∧
      sub_id_total (sample_conf_split [','] ['A', ',', 'B'])
        (channel_id_conf (sample_conf_split [','] ['A', ',', 'B']) .SUB) = 2) ∧
      ∃ res, nchan_get_channel_id '|' 4 false none (sample_conf_split [','] ['A', ',', 'B'])
          (some {}) .SUB true = some (.ok res) ∧
        (res.response = some (.status NGX_HTTP_FORBIDDEN) ↔
          ∃ cv ∈ channel_id_conf (sample_conf_split [','] ['A', ',', 'B']) .SUB,
            (sample_conf_split [','] ['A', ',', 'B']).max_channel_id_length % 4294967296 <
              ((ngx_http_complex_value cv).length : Int)) ∧
        (res.response = some (.status NGX_HTTP_FORBIDDEN) → res.id = none) ∧
        ((∀ cv ∈ channel_id_conf (sample_conf_split [','] ['A', ',', 'B']) .SUB,
            ((ngx_http_complex_value cv).length : Int) ≤
              (sample_conf_split [','] ['A', ',', 'B']).max_channel_id_length % 4294967296) →
          (false = false →
            res.id = none ∧ res.response = some (.status NGX_HTTP_INTERNAL_SERVER_ERROR)) ∧
          (false = true → res.id ≠ none ∧ res.response = none))) ∧
    ((channel_id_conf sample_conf_legacy .SUB).length = 0 ∧
      ∃ res, nchan_get_channel_id '|' 4 false none sample_conf_legacy (some {}) .SUB true =
          some (.ok res) ∧
        (((none : Option ngx_http_variable_value_t) = none ∨
            ∃ v, (none : Option ngx_http_variable_value_t) = some v ∧
              (v.not_found = true ∨ v.data = [])) →
          res.id = none ∧
            res.response =
              some (.string NGX_HTTP_NOT_FOUND TEXT_PLAIN NO_CHANNEL_ID_MESSAGE)) ∧
        (∀ v, (none : Option ngx_http_variable_value_t) = some v → v.not_found = false →
          v.data ≠ [] →
          (res.response = some (.status NGX_HTTP_FORBIDDEN) ↔
            sample_conf_legacy.max_channel_id_length % 4294967296 < (v.data.length : Int)) ∧
          (res.response = some (.status NGX_HTTP_FORBIDDEN) → res.id = none) ∧
          ((v.data.length : Int) ≤ sample_conf_legacy.max_channel_id_length % 4294967296 →
            (false = false →
              res.id = none ∧ res.response = some (.status NGX_HTTP_INTERNAL_SERVER_ERROR)) ∧
            (false = true → res.id ≠ none ∧ res.response = none)))) :=
  ⟨⟨⟨by decide, fun _ => by decide, by decide, by decide⟩,
      (nchan_get_channel_id_failures '|' 4 false none (sample_conf_split [','] ['A', ',', 'B'])
        {} .SUB).1 (by decide) (fun _ => by decide) (by decide) (by decide)⟩,
    ⟨by decide,
      (nchan_get_channel_id_failures '|' 4 false none sample_conf_legacy {} .SUB).2.2.1
        (by decide)⟩⟩

/-! ### C17 -/

/-- C18 (code at the failing input): a request with `If-Modified-Since` and the entity
tag `7` leaves the tag 7 in the static ID; a following request with
`If-Modified-Since` and no `If-None-Match` returns tagcount 1 and tagactive 0 with
`tags[0] = 7`, not 0. -/
theorem nchan_subscriber_get_msg_id_stale_tag :
    nchan_subscriber_get_msg_id (fun _ => 1000) [0, 0, 0, 0] {} sample_request_etag
      static_tags_zero NCHAN_ZERO_MSGID =
        .ok (static_tags_zero.set 0 7, ⟨1000, .fixed [7, 0, 0, 0], 0, 1⟩) ∧
    nchan_subscriber_get_msg_id (fun _ => 1000) [0, 0, 0, 0] {} sample_request_time_only
      (static_tags_zero.set 0 7) ⟨1000, .fixed [7, 0, 0, 0], 0, 1⟩ =
        .ok (static_tags_zero.set 0 7, ⟨1000, .fixed [7, 0, 0, 0], 0, 1⟩) ∧
    msgid_tag ⟨1000, .fixed [7, 0, 0, 0], 0, 1⟩ 0 = some 7 := by
  refine ⟨?_, ?_, ?_⟩
  · rfl
  · rfl
  · rfl

/-! ### C19 -/

/-- C20 (code at the failing input): for the header `text/json, text/plain`, whose
leftmost match is `text/json` at offset 0, `nchan_channel_info_buf` selects the plain
format: the later `text/plain` replaces the earlier match. For `text/json, text/html`
it selects JSON. -/
theorem nchan_channel_info_buf_later_plain :
    ngx_strnstr sample_accept_json_plain TEXT_SLASH sample_accept_json_plain.length = some 0 ∧
    (sample_accept_json_plain.drop 5).take 4 = ['j', 's', 'o', 'n'] ∧
    (nchan_channel_info_buf 4 (some sample_accept_json_plain)).map (fun p => p.1) =
      some .PLAIN ∧
    (nchan_channel_info_buf 4 (some sample_accept_json_html)).map (fun p => p.1) =
      some .JSON := by
  refine ⟨?_, ?_, ?_, ?_⟩
  · rfl
  · rfl
  · rfl
  · rfl

/-! ### C21 -/

/-- C21 (code at the failing input): for the header `text/json, text/html` the format is
JSON and the generated content type is the ten bytes `text/json,`, one byte more than
the matched `text/json`; for `text/json, text/plain` the format is plain and the
generated content type is `text/json,`, not `text/plain`. -/
theorem nchan_channel_info_buf_content_type :
    nchan_channel_info_buf 4 (some sample_accept_json_html) = some (.JSON, .slice 0 10) ∧
    content_type_bytes sample_accept_json_html (.slice 0 10) =
      ['t', 'e', 'x', 't', '/', 'j', 's', 'o', 'n', ','] ∧
    nchan_channel_info_buf 4 (some sample_accept_json_plain) = some (.PLAIN, .slice 0 10) ∧
    content_type_bytes sample_accept_json_plain (.slice 0 10) =
      ['t', 'e', 'x', 't', '/', 'j', 's', 'o', 'n', ','] := by
  refine ⟨?_, ?_, ?_, ?_⟩
  · rfl
  · rfl
  · rfl
  · rfl

/-! ### C22 -/

/-- C23 (code at the failing input): a HEAD request that is not a WebSocket upgrade, with
a resolved channel ID, gets no response: `nchan_pubsub_handler` returns `NGX_DONE`
after the call of `nchan_get_channel_id` without any other action, since the
`switch` on the method has no default branch. A POST request to a location without
HTTP publisher gets the 403 response. -/
theorem nchan_pubsub_handler_unknown_method :
    nchan_pubsub_handler sample_conf_pubsub { method := NGX_HTTP_HEAD } =
      some (.ok ⟨NGX_DONE, [.get_channel_id],
        some { channel_id := [['a'], [], [], []], channel_id_count := 1 }⟩) ∧
    nchan_pubsub_handler sample_conf_closed { method := NGX_HTTP_POST } =
      some (.ok ⟨NGX_OK, [.get_channel_id, .respond (.status NGX_HTTP_FORBIDDEN)],
        some { channel_id := [['a'], [], [], []], channel_id_count := 1 }⟩) := by
  refine ⟨?_, ?_⟩
  · rfl
  · rfl

/-! ### C24 -/

/-- C24 (counterexample): with an empty `allow_origin` and a request whose `Origin`
header has an empty value, the two are equal byte for byte, yet the handler responds
403 without resolving a channel ID. -/
theorem nchan_pubsub_handler_origin_counterexample :
    sample_conf_empty_origin.allow_origin = [] ∧
    nchan_get_header_value [⟨NCHAN_HEADER_ORIGIN, []⟩] NCHAN_HEADER_ORIGIN = some [] ∧
    nchan_pubsub_handler sample_conf_empty_origin { headers := [⟨NCHAN_HEADER_ORIGIN, []⟩] } =
      some (.ok ⟨NGX_OK, [.respond (.status NGX_HTTP_FORBIDDEN)],
        some { request_origin_header := some [] }⟩) := by
  refine ⟨rfl, ?_, ?_⟩
  · rfl
  · rfl

/-- C24 (amended): for every request whose context is allocated and that carries an
`Origin` header (its value without NUL byte), `nchan_pubsub_handler` responds 403
without calling `nchan_get_channel_id` and without any other action if and only if
`allow_origin` is not `*` and the `Origin` value is empty or not equal byte for byte
to `allow_origin`; a request without `Origin` header always gets to the call of
`nchan_get_channel_id`. -/
theorem nchan_pubsub_handler_origin (cf : nchan_loc_conf_t) (r : pubsub_request_t)
    (hp : r.pcalloc = true) :
    (∀ o, nchan_get_header_value r.headers NCHAN_HEADER_ORIGIN = some o →
      (∀ c ∈ o, c.toNat ≠ 0) →
      (nchan_pubsub_handler cf r =
          some (.ok ⟨NGX_OK, [.respond (.status NGX_HTTP_FORBIDDEN)], some (pubsub_ctx r)⟩) ↔
        cf.allow_origin ≠ ['*'] ∧ (o = [] ∨ o ≠ cf.allow_origin))) ∧
    (nchan_get_header_value r.headers NCHAN_HEADER_ORIGIN = none →
      ∀ res, nchan_pubsub_handler cf r = some (.ok res) →
        res.events.head? = some .get_channel_id) := by
  refine ⟨fun o ho hno => ?_, fun hnone res hres => ?_⟩
  · rw [← origin_forbidden_spec cf.allow_origin o hno]
    constructor
    · intro h
      by_contra hf
      have hf' : origin_forbidden cf.allow_origin o = false := by simpa using hf
      have := pubsub_handler_passed cf r hp
        (fun o' ho' => by rw [ho] at ho'; cases ho'; exact hf') _ h
      simp at this
    · intro hf
      exact pubsub_handler_origin cf r o hp ho hf
  · exact pubsub_handler_passed cf r hp (fun o ho => by rw [hnone] at ho; cases ho) res hres

theorem nchan_pubsub_handler_origin_witness :
    (∀ o, nchan_get_header_value
        ({ headers := [⟨NCHAN_HEADER_ORIGIN, ['x']⟩] } : pubsub_request_t).headers
        NCHAN_HEADER_ORIGIN = some o →
      (∀ c ∈ o, c.toNat ≠ 0) →
      (nchan_pubsub_handler sample_conf_closed { headers := [⟨NCHAN_HEADER_ORIGIN, ['x']⟩] } =
          some (.ok ⟨NGX_OK, [.respond (.status NGX_HTTP_FORBIDDEN)],
            some (pubsub_ctx { headers := [⟨NCHAN_HEADER_ORIGIN, ['x']⟩] })⟩) ↔
        sample_conf_closed.allow_origin ≠ ['*'] ∧
          (o = [] ∨ o ≠ sample_conf_closed.allow_origin))) ∧
    (nchan_get_header_value
        ({ headers := [⟨NCHAN_HEADER_ORIGIN, ['x']⟩] } : pubsub_request_t).headers
        NCHAN_HEADER_ORIGIN = none →
      ∀ res, nchan_pubsub_handler sample_conf_closed
          { headers := [⟨NCHAN_HEADER_ORIGIN, ['x']⟩] } = some (.ok res) →
        res.events.head? = some .get_channel_id) :=
  nchan_pubsub_handler_origin sample_conf_closed { headers := [⟨NCHAN_HEADER_ORIGIN, ['x']⟩] }
    rfl

/-! ### C25 -/

/-- C25 (code at the failing input): when the authorization sub-request completes with
the status 299, `nchan_publisher_body_authorize_handler` does not proceed to the
publish step but finalizes the main request with 403; with the status 298 it
proceeds. -/
theorem nchan_publisher_body_authorize_handler_299 :
    nchan_publisher_body_authorize_handler NGX_OK 299 {} {} (some {}) none =
      .ok ⟨NGX_OK, some {}, none, [.finalize (NGX_HTTP_FORBIDDEN : Int)]⟩ ∧
    nchan_publisher_body_authorize_handler NGX_OK 298 {} {} (some {}) none =
      .ok ⟨NGX_OK, some {}, none,
        [.publish ⟨⟨0, .fixed [0, 0, 0, 0], 0, 1⟩, some ⟨false, [], false⟩⟩]⟩ := by
  refine ⟨?_, ?_⟩
  · rfl
  · rfl

/-! ### C26 -/

/-- C26 (counterexample): a publish completion with the status QUEUED and a NULL
channel is answered with the 404 response, not 202. -/
theorem publish_callback_status_counterexample :
    publish_callback true 0 {} .NCHAN_MESSAGE_QUEUED none (some {}) none =
      .ok ⟨NGX_OK, some { msg_id := NCHAN_ZERO_MSGID }, none,
        [.respond (.status NGX_HTTP_NOT_FOUND), .finalize NGX_OK]⟩ := by
  rfl

/-- C26 (amended): for every publish completion with a request context, when a channel
is passed the response status is 201 (status line "201 Created") if the status is
RECEIVED and 202 (status line "202 Accepted") if it is QUEUED; when the channel is
NULL these two statuses are answered with 404; any other status finalizes the request
with 500. Before the response, the callback emits at most meta events. -/
theorem publish_callback_status (palloc : Bool) (now : Int) (cf : nchan_loc_conf_t)
    (status : publish_status_t) (ch : Option nchan_channel_t) (c : nchan_request_ctx_t)
    (evcf : Option nchan_loc_conf_t)
    (hs : cf.channel_events_channel_id ≠ none → cf.channel_event_string ≠ none) :
    ∃ res pre, publish_callback palloc now cf status ch (some c) evcf = .ok res ∧
      (∀ x ∈ pre, ∃ e, x = .event_publish e) ∧
      res.events = pre ++
        (match status, ch with
          | .NCHAN_MESSAGE_RECEIVED, some _ =>
            [.channel_info NGX_HTTP_CREATED (some CREATED_LINE), .finalize NGX_OK]
          | .NCHAN_MESSAGE_QUEUED, some _ =>
            [.channel_info NGX_HTTP_ACCEPTED (some ACCEPTED_LINE), .finalize NGX_OK]
          | .NCHAN_MESSAGE_RECEIVED, none =>
            [.respond (.status NGX_HTTP_NOT_FOUND), .finalize NGX_OK]
          | .NCHAN_MESSAGE_QUEUED, none =>
            [.respond (.status NGX_HTTP_NOT_FOUND), .finalize NGX_OK]
          | .other _, _ => [.finalize (NGX_HTTP_INTERNAL_SERVER_ERROR : Int)]) := by
  obtain ⟨res, pre, h1, h2, h3, -⟩ := publish_callback_ok palloc now cf status ch c evcf hs
  refine ⟨res, pre, h1, fun x hx => ?_, ?_⟩
  · obtain ⟨e, he, -⟩ := h3 x hx
    exact ⟨e, he⟩
  · rw [h2]
    rfl

theorem publish_callback_status_witness :
    (sample_conf_events.channel_events_channel_id ≠ none →
      sample_conf_events.channel_event_string ≠ none) ∧
    ∃ res pre, publish_callback true 7 sample_conf_events .NCHAN_MESSAGE_RECEIVED
        (some sample_channel) (some {}) none = .ok res ∧
      (∀ x ∈ pre, ∃ e, x = .event_publish e) ∧
      res.events = pre ++
        (match publish_status_t.NCHAN_MESSAGE_RECEIVED, some sample_channel with
          | .NCHAN_MESSAGE_RECEIVED, some _ =>
            [.channel_info NGX_HTTP_CREATED (some CREATED_LINE), .finalize NGX_OK]
          | .NCHAN_MESSAGE_QUEUED, some _ =>
            [.channel_info NGX_HTTP_ACCEPTED (some ACCEPTED_LINE), .finalize NGX_OK]
          | .NCHAN_MESSAGE_RECEIVED, none =>
            [.respond (.status NGX_HTTP_NOT_FOUND), .finalize NGX_OK]
          | .NCHAN_MESSAGE_QUEUED, none =>
            [.respond (.status NGX_HTTP_NOT_FOUND), .finalize NGX_OK]
          | .other _, _ => [.finalize (NGX_HTTP_INTERNAL_SERVER_ERROR : Int)]) :=
  ⟨fun _ => by decide,
    publish_callback_status true 7 sample_conf_events .NCHAN_MESSAGE_RECEIVED
      (some sample_channel) {} none (fun _ => by decide)⟩

/-! ### C27 -/

/-- C27 (counterexample): on a location without meta channel, a publish that completes
with the status QUEUED emits no meta event. -/
theorem publish_callback_event_counterexample :
    (∃ res, publish_callback true 0 {} .NCHAN_MESSAGE_QUEUED (some sample_channel) (some {})
        none = .ok res ∧
      res.events = [.channel_info NGX_HTTP_ACCEPTED (some ACCEPTED_LINE), .finalize NGX_OK]) :=
  ⟨_, rfl, rfl⟩

/-- C27 (amended): `publish_callback` emits a meta event, and then a `channel_publish`
event only, if and only if the status is QUEUED or RECEIVED, a meta channel is
configured for the location and the allocation of the event's channel ID succeeds; and
when the authorization is denied (the sub-request failed, or its status is not in
200..298), `nchan_publisher_body_authorize_handler` finalizes the request without
calling the storage engine's publish and without emitting an event, whatever the
request is. -/
theorem publish_callback_event (palloc : Bool) (now : Int) (cf : nchan_loc_conf_t)
    (status : publish_status_t) (ch : Option nchan_channel_t) (c : nchan_request_ctx_t)
    (evcf : Option nchan_loc_conf_t)
    (hs : cf.channel_events_channel_id ≠ none → cf.channel_event_string ≠ none) :
    (∃ res, publish_callback palloc now cf status ch (some c) evcf = .ok res ∧
      ((∃ e, .event_publish e ∈ res.events) ↔
        (status = .NCHAN_MESSAGE_QUEUED ∨ status = .NCHAN_MESSAGE_RECEIVED) ∧
          cf.channel_events_channel_id ≠ none ∧ palloc = true) ∧
      (∀ e, .event_publish e ∈ res.events → e.name = evt_chan_publish)) ∧
    (∀ (rc code : Int) (r : publisher_request_t) (ctx : Option nchan_request_ctx_t),
      ¬ (rc = NGX_OK ∧ 200 ≤ code ∧ code < 299) →
      ∃ res, nchan_publisher_body_authorize_handler rc code r cf ctx evcf = .ok res ∧
        (res.events = [.finalize (NGX_HTTP_FORBIDDEN : Int)] ∨
          res.events = [.finalize (NGX_HTTP_INTERNAL_SERVER_ERROR : Int)])) := by
  refine ⟨?_, ?_⟩
  · obtain ⟨res, pre, h1, h2, h3, h4⟩ := publish_callback_ok palloc now cf status ch c evcf hs
    have hresp : ∀ e, publisher_event_t.event_publish e ∉ publish_response status ch := by
      intro e
      cases status <;> cases ch <;> simp [publish_response]
    refine ⟨res, h1, ?_, ?_⟩
    · rw [← h4, h2]
      constructor
      · rintro ⟨e, he⟩
        rcases List.mem_append.mp he with h | h
        · exact List.ne_nil_of_mem h
        · exact absurd h (hresp e)
      · intro hne
        obtain ⟨x, hx⟩ := List.exists_mem_of_ne_nil pre hne
        obtain ⟨e, he, -⟩ := h3 x hx
        exact ⟨e, List.mem_append_left _ (he ▸ hx)⟩
    · intro e he
      rw [h2] at he
      rcases List.mem_append.mp he with h | h
      · obtain ⟨e', he', hn⟩ := h3 _ h
        cases he'
        exact hn
      · exact absurd h (hresp e)
  · intro rc code r ctx hden
    unfold nchan_publisher_body_authorize_handler
    by_cases hrc : rc = NGX_OK
    · have hcode : ¬ (code ≥ 200 ∧ code < 299) := fun h => hden ⟨hrc, h.1, h.2⟩
      rw [if_pos hrc, if_neg hcode]
      exact ⟨_, rfl, Or.inl rfl⟩
    · rw [if_neg hrc]
      exact ⟨_, rfl, Or.inr rfl⟩

theorem publish_callback_event_witness :
    (sample_conf_events.channel_events_channel_id ≠ none →
      sample_conf_events.channel_event_string ≠ none) ∧
    ((∃ res, publish_callback true 7 sample_conf_events .NCHAN_MESSAGE_QUEUED
        (some sample_channel) (some {}) none = .ok res ∧
      ((∃ e, .event_publish e ∈ res.events) ↔
        (publish_status_t.NCHAN_MESSAGE_QUEUED = .NCHAN_MESSAGE_QUEUED ∨
          publish_status_t.NCHAN_MESSAGE_QUEUED = .NCHAN_MESSAGE_RECEIVED) ∧
          sample_conf_events.channel_events_channel_id ≠ none ∧ true = true) ∧
      (∀ e, .event_publish e ∈ res.events → e.name = evt_chan_publish)) ∧
    (∀ (rc code : Int) (r : publisher_request_t) (ctx : Option nchan_request_ctx_t),
      ¬ (rc = NGX_OK ∧ 200 ≤ code ∧ code < 299) →
      ∃ res, nchan_publisher_body_authorize_handler rc code r sample_conf_events ctx none =
          .ok res ∧
        (res.events = [.finalize (NGX_HTTP_FORBIDDEN : Int)] ∨
          res.events = [.finalize (NGX_HTTP_INTERNAL_SERVER_ERROR : Int)]))) :=
  ⟨fun _ => by decide,
    publish_callback_event true 7 sample_conf_events .NCHAN_MESSAGE_QUEUED
      (some sample_channel) {} none (fun _ => by decide)⟩

/-! ### C28 -/

/-- C28: for a request body that is a chain of two or more buffers in memory whose
sizes sum to the content length, `nchan_request_body_to_single_buffer` (when the new
buffer is allocated) returns one buffer in memory whose content is the concatenation
of the buffers of the chain in chain order, of length the content length; for a chain
of a single buffer it returns that buffer. -/
theorem nchan_request_body_to_single_buffer_coalesce (n : Int) (bufs : List ngx_buf_t)
    (h2 : 2 ≤ bufs.length) (hmem : ∀ b ∈ bufs, b.in_file = false)
    (hsum : (((bufs.map (fun b => b.data)).flatten.length : Nat) : Int) = n) :
    (∃ out, nchan_request_body_to_single_buffer true n bufs = .ok (some out) ∧
      out.in_file = false ∧ out.data = (bufs.map (fun b => b.data)).flatten ∧
      (out.data.length : Int) = n) ∧
    (∀ (alloc : Bool) (b : ngx_buf_t),
      nchan_request_body_to_single_buffer alloc n [b] = .ok (some b)) :=
  ⟨⟨_, request_body_coalesce n bufs h2 hmem hsum, rfl, rfl, hsum⟩, fun _ _ => rfl⟩

theorem nchan_request_body_to_single_buffer_coalesce_witness :
    (2 ≤ sample_body.length ∧ (∀ b ∈ sample_body, b.in_file = false) ∧
      (((sample_body.map (fun b => b.data)).flatten.length : Nat) : Int) = 5) ∧
    ((∃ out, nchan_request_body_to_single_buffer true 5 sample_body = .ok (some out) ∧
      out.in_file = false ∧ out.data = (sample_body.map (fun b => b.data)).flatten ∧
      (out.data.length : Int) = 5) ∧
    (∀ (alloc : Bool) (b : ngx_buf_t),
      nchan_request_body_to_single_buffer alloc 5 [b] = .ok (some b))) :=
  ⟨⟨by decide, by decide, by decide⟩,
    nchan_request_body_to_single_buffer_coalesce 5 sample_body (by decide) (by decide)
      (by decide)⟩

/-! ### C29 -/

/-- C29 (code on the claimed inputs): for every well-formed cursor `oldid` and multi-tag
`newid` with `newid.tagcount > oldid.tagcount` and equal times (the allocation of the
growth step succeeding), `nchan_update_multi_msgid` does not complete: it stops at
`assert(max == oldid->tagcount)`, because nothing before that line changes
`oldid->tagcount`. -/
theorem nchan_update_multi_msgid_growth (g c : Option (List Int))
    (oldid newid : nchan_msg_id_t) (hwf : msgid_wf oldid = true) (hne1 : newid.tagcount ≠ 1)
    (hgrow : oldid.tagcount < newid.tagcount) (htime : oldid.time = newid.time)
    (hg : NCHAN_MULTITAG_MAX < newid.tagcount → g ≠ none) :
    nchan_update_multi_msgid g c oldid newid = .error .assertion :=
  update_grow_assert g c oldid newid hwf hne1 hgrow htime hg

/-- C29 at the cursor `(1, [5, 0])` and the new ID `(1, [6, -1, 7])`. -/
theorem nchan_update_multi_msgid_growth_witness :
    (msgid_wf sample_cursor = true ∧ sample_three.tagcount ≠ 1 ∧
      sample_cursor.tagcount < sample_three.tagcount ∧
      sample_cursor.time = sample_three.time) ∧
    nchan_update_multi_msgid none none sample_cursor sample_three = .error .assertion :=
  ⟨⟨rfl, by decide, by decide, rfl⟩,
    nchan_update_multi_msgid_growth none none sample_cursor sample_three rfl (by decide)
      (by decide) rfl (fun h => absurd h (by decide))⟩

/-! ### C30 -/

/-- C30 (counterexample): after the configuration has been initialised by a call from a
location stored with engine 1, a call from a location stored with engine 2 in Redis
changes its fields `storage_engine` and `use_redis`. -/
theorem nchan_maybe_send_channel_event_message_evcf_counterexample :
    ∃ d e, event_calls [⟨true, 0, sample_conf_events, some {}, .CHAN_PUBLISH⟩] none =
        .ok (some d) ∧
      event_calls [⟨true, 1, sample_conf_events_redis, some {}, .CHAN_PUBLISH⟩] (some d) =
        .ok (some e) ∧
      d.use_redis = false ∧ e.use_redis = true ∧ d.storage_engine = 1 ∧ e.storage_engine = 2 :=
  ⟨_, _, rfl, rfl, rfl, rfl, rfl, rfl⟩

/-- C30 (amended): the broadcast-event configuration is initialised by the first call
that has a meta channel configured and whose allocation succeeds, with
`buffer_timeout = 10`, `channel_timeout = 30`, `max_messages = NGX_MAX_INT_T_VALUE` and
`subscriber_start_at_oldest_message = 0`; a call without meta channel leaves it
uninitialised; every publishing call on an initialised configuration sets
`storage_engine` and `use_redis` to those of its location and leaves the other fields;
and across every later sequence of calls that return, from any locations, no field of
it changes other than `storage_engine` and `use_redis`. -/
theorem nchan_maybe_send_channel_event_message_evcf (palloc : Bool) (now : Int)
    (cf : nchan_loc_conf_t) (c : nchan_request_ctx_t) (t : channel_event_type_t)
    (hs : cf.channel_events_channel_id ≠ none → cf.channel_event_string ≠ none) :
    (∃ res, nchan_maybe_send_channel_event_message palloc now cf (some c) t none = .ok res ∧
      (cf.channel_events_channel_id = none ∨ palloc = false → res.evcf = none) ∧
      (cf.channel_events_channel_id ≠ none → palloc = true →
        ∃ d, res.evcf = some d ∧ d.buffer_timeout = 10 ∧ d.channel_timeout = 30 ∧
          d.max_messages = NGX_MAX_INT_T_VALUE ∧
          d.subscriber_start_at_oldest_message = false ∧
          d.storage_engine = cf.storage_engine ∧ d.use_redis = cf.use_redis)) ∧
    (∀ d0 : nchan_loc_conf_t, cf.channel_events_channel_id ≠ none → palloc = true →
      ∃ res, nchan_maybe_send_channel_event_message palloc now cf (some c) t (some d0) =
          .ok res ∧
        res.evcf =
          some { d0 with storage_engine := cf.storage_engine, use_redis := cf.use_redis }) ∧
    (∀ (calls : List event_call_t) (d : nchan_loc_conf_t) (out : Option nchan_loc_conf_t),
      event_calls calls (some d) = .ok out →
      ∃ e, out = some e ∧
        { e with storage_engine := d.storage_engine, use_redis := d.use_redis } = d) := by
  refine ⟨?_, ?_, fun calls d out h => event_calls_frame calls d out h⟩
  · unfold nchan_maybe_send_channel_event_message
    cases hcv : cf.channel_events_channel_id with
    | none => exact ⟨_, rfl, fun _ => rfl, fun h => absurd rfl h⟩
    | some cv =>
      obtain ⟨es, hes⟩ := Option.ne_none_iff_exists'.mp (hs (by rw [hcv]; simp))
      cases palloc with
      | false => exact ⟨_, rfl, fun _ => rfl, fun _ h => by cases h⟩
      | true =>
        simp only [hes, not_true_eq_false, if_false]
        refine ⟨_, rfl, ?_, ?_⟩
        · rintro (h | h)
          · cases h
          · cases h
        · intro _ _
          exact ⟨_, rfl, rfl, rfl, rfl, rfl, rfl, rfl⟩
  · intro d0 hne hp
    unfold nchan_maybe_send_channel_event_message
    cases hcv : cf.channel_events_channel_id with
    | none => exact absurd hcv hne
    | some cv =>
      obtain ⟨es, hes⟩ := Option.ne_none_iff_exists'.mp (hs hne)
      subst hp
      simp only [hes, not_true_eq_false, if_false]
      exact ⟨_, rfl, rfl⟩

theorem nchan_maybe_send_channel_event_message_evcf_witness :
    (sample_conf_events.channel_events_channel_id ≠ none →
      sample_conf_events.channel_event_string ≠ none) ∧
    ((∃ res, nchan_maybe_send_channel_event_message true 0 sample_conf_events (some {})
        .CHAN_PUBLISH none = .ok res ∧
      (sample_conf_events.channel_events_channel_id = none ∨ true = false → res.evcf = none) ∧
      (sample_conf_events.channel_events_channel_id ≠ none → true = true →
        ∃ d, res.evcf = some d ∧ d.buffer_timeout = 10 ∧ d.channel_timeout = 30 ∧
          d.max_messages = NGX_MAX_INT_T_VALUE ∧
          d.subscriber_start_at_oldest_message = false ∧
          d.storage_engine = sample_conf_events.storage_engine ∧
          d.use_redis = sample_conf_events.use_redis)) ∧
    (∀ d0 : nchan_loc_conf_t, sample_conf_events.channel_events_channel_id ≠ none →
      true = true →
      ∃ res, nchan_maybe_send_channel_event_message true 0 sample_conf_events (some {})
          .CHAN_PUBLISH (some d0) = .ok res ∧
        res.evcf =
          some { d0 with storage_engine := sample_conf_events.storage_engine,
                         use_redis := sample_conf_events.use_redis }) ∧
    (∀ (calls : List event_call_t) (d : nchan_loc_conf_t) (out : Option nchan_loc_conf_t),
      event_calls calls (some d) = .ok out →
      ∃ e, out = some e ∧
        { e with storage_engine := d.storage_engine, use_redis := d.use_redis } = d)) :=
  ⟨fun _ => by decide,
    nchan_maybe_send_channel_event_message_evcf true 0 sample_conf_events {} .CHAN_PUBLISH
      (fun _ => by decide)⟩

/-! ### C31 -/

/-- C31 (code at the failing input): the same request and configuration give different
resume IDs after different histories. A request with `If-Modified-Since` and no
`If-None-Match` returns `tags[0] = 0` as the first request and `tags[0] = 7` after a
request with the entity tag `7`; a request with `If-Modified-Since` and the entity tag
`7` returns tagactive 0 as the first request and tagactive 1, with tagcount 1, after a
request with the entity tag `1,[2`. -/
theorem nchan_subscriber_get_msg_id_history :
    nchan_subscriber_get_msg_id (fun _ => 1000) [0, 0, 0, 0] {} sample_request_time_only
      static_tags_zero NCHAN_ZERO_MSGID =
        .ok (static_tags_zero, ⟨1000, .fixed [0, 0, 0, 0], 0, 1⟩) ∧
    (nchan_subscriber_get_msg_id (fun _ => 1000) [0, 0, 0, 0] {} sample_request_etag
      static_tags_zero NCHAN_ZERO_MSGID).bind
      (fun p => nchan_subscriber_get_msg_id (fun _ => 1000) [0, 0, 0, 0] {}
        sample_request_time_only p.1 p.2) =
        .ok (static_tags_zero.set 0 7, ⟨1000, .fixed [7, 0, 0, 0], 0, 1⟩) ∧
    msgid_tag ⟨1000, .fixed [0, 0, 0, 0], 0, 1⟩ 0 = some 0 ∧
    msgid_tag ⟨1000, .fixed [7, 0, 0, 0], 0, 1⟩ 0 = some 7 ∧
    nchan_subscriber_get_msg_id (fun _ => 1000) [0, 0, 0, 0] {} sample_request_etag
      static_tags_zero NCHAN_ZERO_MSGID =
        .ok (static_tags_zero.set 0 7, ⟨1000, .fixed [7, 0, 0, 0], 0, 1⟩) ∧
    (nchan_subscriber_get_msg_id (fun _ => 1000) [0, 0, 0, 0] {} sample_request_etag_active
      static_tags_zero NCHAN_ZERO_MSGID).bind
      (fun p => nchan_subscriber_get_msg_id (fun _ => 1000) [0, 0, 0, 0] {}
        sample_request_etag p.1 p.2) =
        .ok ((static_tags_zero.set 0 7).set 1 2, ⟨1000, .fixed [7, 2, 0, 0], 1, 1⟩) := by
  refine ⟨?_, ?_, ?_, ?_, ?_, ?_⟩
  · rfl
  · rfl
  · rfl
  · rfl
  · rfl
  · rfl

/-! ### C32 -/

/-- C32 (code at the failing input): with a split delimiter and a successful allocation,
when every template of the non-empty list `cv :: rest` evaluates to an ID that passes
`validate_id` and is shorter than the delimiter (an empty ID is), the function
`nchan_process_multi_channel_id` returns `NGX_OK` with `channel_id_count` 0 and an ID
of no bytes. -/
theorem nchan_process_multi_channel_id_no_sub_id (sep : Char) (fuel : Nat)
    (cv : ngx_http_complex_value_t) (rest : List ngx_http_complex_value_t)
    (cf : nchan_loc_conf_t) (c : nchan_request_ctx_t) (hf : 0 < fuel)
    (h : ∀ t ∈ cv :: rest, validate_id (ngx_http_complex_value t) cf = NGX_OK ∧
      (ngx_http_complex_value t).length < cf.channel_id_split_delimiter.length) :
    ∃ out c', nchan_process_multi_channel_id sep fuel true (cv :: rest) cf (some c) =
        some (.ok ⟨NGX_OK, some out, some c'⟩) ∧
      c'.channel_id_count = 0 ∧ out.len = 0 ∧ out.data = [] :=
  ⟨⟨0, []⟩, { c with channel_id_count := 0 },
    process_multi_short sep fuel hf (cv :: rest) cf (some c) h, rfl, rfl, rfl⟩

theorem nchan_process_multi_channel_id_no_sub_id_witness :
    ((sample_conf_split [':', ':'] ['a']).sub_chid = .script ['a'] :: [] ∧ 0 < 1 ∧
      ∀ t ∈ ngx_http_complex_value_t.script ['a'] :: [],
        validate_id (ngx_http_complex_value t) (sample_conf_split [':', ':'] ['a']) = NGX_OK ∧
        (ngx_http_complex_value t).length <
          (sample_conf_split [':', ':'] ['a']).channel_id_split_delimiter.length) ∧
    ∃ out c', nchan_process_multi_channel_id '|' 1 true (.script ['a'] :: [])
        (sample_conf_split [':', ':'] ['a']) (some {}) =
          some (.ok ⟨NGX_OK, some out, some c'⟩) ∧
      c'.channel_id_count = 0 ∧ out.len = 0 ∧ out.data = [] :=
  ⟨⟨rfl, by decide, by decide⟩,
    nchan_process_multi_channel_id_no_sub_id '|' 1 (.script ['a']) []
      (sample_conf_split [':', ':'] ['a']) {} (by decide) (by decide)⟩

/-! ### C33 -/

set_option maxRecDepth 100000 in
/-- C33 (code at the failing input): with the delimiter `,` and one template, an
evaluated ID of 255 commas is split into 255 sub-IDs, which fill the array `id`; an
evaluated ID of 256 commas makes the split loop write a 256th sub-ID, `id[255]`, beyond
the 255 entries of the array. -/
theorem nchan_process_multi_channel_id_overflow (sep : Char) :
    multi_resolve (sample_conf_commas 255) 256 (sample_conf_commas 255).sub_chid
        ⟨[], 0, some {}⟩ =
      some (.ok (NGX_OK, ⟨List.replicate 254 [] ++ [[',']], 511, some {}⟩)) ∧
    (List.replicate 254 ([] : List Char) ++ [[',']]).length = 255 ∧
    split_loop (List.replicate 256 ',') [','] 1 255 0 ⟨[], 0, some {}⟩ =
      (none : Option (Except nchan_abort chid_state)) ∧
    nchan_strsplit (List.replicate 256 ',') 255 [','] = .ok (some 256, 256) ∧
    multi_resolve (sample_conf_commas 256) 257 (sample_conf_commas 256).sub_chid
        ⟨[], 0, some {}⟩ = some (.error .fault) ∧
    nchan_process_multi_channel_id sep 257 true (sample_conf_commas 256).sub_chid
        (sample_conf_commas 256) (some {}) = some (.error .fault) := by
  refine ⟨?_, ?_, ?_, ?_, ?_, ?_⟩
  · rfl
  · rfl
  · rfl
  · rfl
  · rfl
  · rfl

/-! ### C34 -/

/-- C34: for a string `s` of length L and a non-empty delimiter, every call of
`nchan_strsplit` returns without reaching `assert(0)`, and a call that does not return
NULL leaves the cursor greater than before and not beyond the end of the string; the
calls the split loop makes from the start of the string end with a NULL after at most
L + 1 calls, and the split loop of `nchan_process_multi_channel_id` ends within L + 1
iterations, having stored one sub-ID for each call but the last when it ends
normally. -/
theorem nchan_strsplit_terminates (s delim : List Char) (hd : delim ≠ []) :
    (∀ cur, ∃ r nxt, nchan_strsplit s cur delim = .ok (r, nxt) ∧
      (r ≠ none → cur < nxt ∧ nxt ≤ s.length)) ∧
    (∃ n, strsplit_calls s delim (s.length + 1) 0 = some (.ok n) ∧ n ≤ s.length + 1) ∧
    (∀ g st, ∃ res, split_loop s delim g (s.length + 1) 0 st = some res ∧
      ∀ st', res = .ok st' →
        strsplit_calls s delim (s.length + 1) 0 =
          some (.ok (st'.id.length - st.id.length + 1))) := by
  have hd' : 0 < delim.length := List.length_pos.mpr hd
  refine ⟨fun cur => ?_, ?_, fun g st => ?_⟩
  · obtain ⟨r, nxt, hr, h1, -⟩ := nchan_strsplit_spec s delim cur hd'
    refine ⟨r, nxt, hr, fun hne => ?_⟩
    cases r with
    | none => exact absurd rfl hne
    | some c => exact (h1 c rfl).2.2
  · obtain ⟨n, hn, -, h2⟩ :=
      strsplit_calls_spec s delim hd' (s.length + 1) 0 (by omega) (by omega)
    exact ⟨n, hn, by omega⟩
  · obtain ⟨res, hres⟩ :=
      split_loop_ends s delim g hd' (s.length + 1) 0 st (by omega) (by omega)
    refine ⟨res, hres, fun st' h => ?_⟩
    rw [h] at hres
    exact (split_loop_calls s delim g _ 0 st st' hres).1

theorem nchan_strsplit_terminates_witness :
    ([','] : List Char) ≠ [] ∧
    ((∀ cur, ∃ r nxt, nchan_strsplit ['a', ',', 'b'] cur [','] = .ok (r, nxt) ∧
      (r ≠ none → cur < nxt ∧ nxt ≤ ['a', ',', 'b'].length)) ∧
    (∃ n, strsplit_calls ['a', ',', 'b'] [','] (['a', ',', 'b'].length + 1) 0 = some (.ok n) ∧
      n ≤ ['a', ',', 'b'].length + 1) ∧
    (∀ g st, ∃ res, split_loop ['a', ',', 'b'] [','] g (['a', ',', 'b'].length + 1) 0 st =
        some res ∧
      ∀ st', res = .ok st' →
        strsplit_calls ['a', ',', 'b'] [','] (['a', ',', 'b'].length + 1) 0 =
          some (.ok (st'.id.length - st.id.length + 1)))) :=
  ⟨by decide, nchan_strsplit_terminates ['a', ',', 'b'] [','] (by decide)⟩

end Nchan
